import Mathlib

/-!
# QTCIDE embedded terminal

A shallow embedding of `Terminal.cpp` / `Terminal.h`: the `Terminal` widget's fields become a
record, every member function becomes a function on that record, and what the widget does to the
outside (text appended to the output view, signals, calls on its `QProcess`) is recorded in order
in the field `trace`.  The services of Qt and of the operating system are the fields of `Host`
(queries) and `HostOps` (operations that change the filesystem); theorems quantify over them.
-/

namespace QTCIDE

/-! ## QString primitives -/

/-- The test `QChar::isSpace`: the characters U+0009..U+000D, U+0085 and the Unicode separators. -/
def isSpace (c : Char) : Bool :=
  let n := c.toNat
  (9 ≤ n && n ≤ 13) || n == 32 || n == 0x85 || n == 0xA0 || n == 0x1680 ||
  (0x2000 ≤ n && n ≤ 0x200A) || n == 0x2028 || n == 0x2029 || n == 0x202F ||
  n == 0x205F || n == 0x3000

/-- Whitespace removed from both ends of a character list. -/
def trimmedChars (l : List Char) : List Char :=
  ((l.dropWhile isSpace).reverse.dropWhile isSpace).reverse

/-- The string `QString::trimmed()`. -/
def trimmed (s : String) : String := ⟨trimmedChars s.data⟩

/-- The test `QString::startsWith(p)`. -/
def startsWith (s p : String) : Bool := p.data.isPrefixOf s.data

/-- The string `QString::mid(n)`: everything from position `n` on. -/
def mid (s : String) (n : Nat) : String := ⟨s.data.drop n⟩

/-- Worker of `splitSkipEmpty`: `cur` holds the current piece, reversed. -/
def splitChars (sep : Char) : List Char → List Char → List (List Char)
  | [], cur => if cur.isEmpty then [] else [cur.reverse]
  | c :: cs, cur =>
    if c = sep then
      (if cur.isEmpty then splitChars sep cs [] else cur.reverse :: splitChars sep cs [])
    else splitChars sep cs (c :: cur)

/-- The list `QString::split(sep, Qt::SkipEmptyParts)`. -/
def splitSkipEmpty (sep : Char) (s : String) : List String :=
  (splitChars sep s.data []).map String.mk

/-- The string `QStringList::join(sep)`. -/
def join (sep : String) : List String → String
  | [] => ""
  | [a] => a
  | a :: b :: rest => a ++ sep ++ join sep (b :: rest)

/-- The string `QString::repeated(n)`. -/
def repeated (s : String) : Nat → String
  | 0 => ""
  | n + 1 => s ++ repeated s n

/-- The string `QString::replace(a, b)` for single characters. -/
def replaceChar (s : String) (a b : Char) : String :=
  ⟨s.data.map fun c => if c = a then b else c⟩

/-- Value of an ASCII digit, as `QChar::digitValue` gives it (other digits are not modelled). -/
def digitValue (c : Char) : Option Nat :=
  if 48 ≤ c.toNat ∧ c.toNat ≤ 57 then some (c.toNat - 48) else none

/-- One step of the scan of `QString::arg` at a `%`: when a place marker `%N` or `%LN`
(one or two digits) starts the list, its number and the characters after it. -/
def argMarker : List Char → Option (Nat × List Char)
  | '%' :: 'L' :: c :: d :: rest =>
    match digitValue c, digitValue d with
    | some a, some b => some (10 * a + b, rest)
    | some a, none => some (a, d :: rest)
    | none, _ => none
  | ['%', 'L', c] => (digitValue c).map fun a => (a, [])
  | '%' :: c :: d :: rest =>
    match digitValue c, digitValue d with
    | some a, some b => some (10 * a + b, rest)
    | some a, none => some (a, d :: rest)
    | none, _ => none
  | ['%', c] => (digitValue c).map fun a => (a, [])
  | _ => none

/-- The numbers of the place markers of a template, left to right. The scan resumes after a whole
marker, and right after a `%` (and its `L`) that starts none. -/
def argMarkers : Nat → List Char → List Nat
  | 0, _ => []
  | _, [] => []
  | fuel + 1, c :: cs =>
    match argMarker (c :: cs) with
    | some (n, rest) => n :: argMarkers fuel rest
    | none =>
      if c = '%' then
        match cs with
        | 'L' :: cs2 => argMarkers fuel cs2
        | _ => argMarkers fuel cs
      else argMarkers fuel cs

/-- Every marker numbered `m` replaced by `a`; the scan moves exactly as in `argMarkers`. -/
def argReplace (m : Nat) (a : List Char) : Nat → List Char → List Char
  | 0, l => l
  | _, [] => []
  | fuel + 1, c :: cs =>
    match argMarker (c :: cs) with
    | some (n, rest) =>
      if n = m then a ++ argReplace m a fuel rest
      else (c :: cs).take ((c :: cs).length - rest.length) ++ argReplace m a fuel rest
    | none =>
      if c = '%' then
        match cs with
        | 'L' :: cs2 => c :: 'L' :: argReplace m a fuel cs2
        | _ => c :: argReplace m a fuel cs
      else c :: argReplace m a fuel cs

/-- The string `QString::arg(a)`: all occurrences of the lowest-numbered place marker are replaced
by `a`; a template without marker is returned unchanged. -/
def arg (template a : String) : String :=
  match (argMarkers template.length template.data).min? with
  | none => template
  | some m => ⟨argReplace m a.data template.length template.data⟩

/-! ## The host: Qt and the operating system -/

/-- The operating-system family the program is compiled for (`Q_OS_WIN`, `Q_OS_MACOS`, other). -/
inductive OsFamily
  | windows
  | macos
  | linux
  deriving DecidableEq, Repr

/-- What the code reads of a `QFileInfo`. -/
structure QFileInfo where
  fileName : String
  absoluteFilePath : String
  isDir : Bool
  size : Nat
  deriving DecidableEq, Repr

/-- A `QProcessEnvironment`: variable names with their values. -/
abbrev QProcessEnvironment := List (String × String)

/-- Whether two names denote the same environment variable: Qt compares the names without
regard to case on Windows (the ASCII letters are modelled) and exactly elsewhere. -/
def sameVariable (os : OsFamily) (a b : String) : Bool :=
  if os = OsFamily.windows then a.data.map Char.toUpper == b.data.map Char.toUpper
  else a == b

/-- The value `QProcessEnvironment::value(name)`, empty when the variable is not set. -/
def QProcessEnvironment.value (env : QProcessEnvironment) (os : OsFamily) (name : String) :
    String :=
  match env.find? fun p => sameVariable os p.1 name with
  | some p => p.2
  | none => ""

/-- The environment after `QProcessEnvironment::insert(name, value)`: the value of the variable
is replaced when it is set already, otherwise the variable is added. -/
def QProcessEnvironment.insert (env : QProcessEnvironment) (os : OsFamily)
    (name value : String) : QProcessEnvironment :=
  if env.any fun p => sameVariable os p.1 name then
    env.map fun p => if sameVariable os p.1 name then (p.1, value) else p
  else env ++ [(name, value)]

/-- The queries the terminal makes to Qt and the operating system, at one moment in time. -/
structure Host where
  /-- The compile-time platform. -/
  os : OsFamily
  /-- The path `QDir::homePath()`. -/
  homePath : String
  /-- The test `QDir(path).exists()`. -/
  dirExists : String → Bool
  /-- The test `QDir::isAbsolutePath(path)`. -/
  isAbsolutePath : String → Bool
  /-- The path `QDir(dir).absoluteFilePath(name)`. -/
  absoluteFilePath : String → String → String
  /-- The path `QDir(path).absolutePath()`. -/
  absolutePath : String → String
  /-- The call `QDir(dir).cdUp()`: `none` when it returns false, and when it returns true the
  `absolutePath()` of the directory object afterwards. -/
  cdUp : String → Option String
  /-- The list `QDir(path).entryInfoList(AllEntries | NoDotAndDotDot, Name)`. -/
  entryInfoList : String → List QFileInfo
  /-- The entries below `dir` that a `QDirIterator` with `AllEntries | NoDotAndDotDot` and
  `Subdirectories` visits, in its order, before the name filter is applied. -/
  iteratorEntries : String → List QFileInfo
  /-- Qt's wildcard test of a file name against a name filter. -/
  wildcardMatch : String → String → Bool
  /-- The path `QDir(dir).relativeFilePath(path)`. -/
  relativeFilePath : String → String → String
  /-- The path `QStandardPaths::findExecutable(name)`, empty when there is none. -/
  findExecutable : String → String
  /-- The test `QFileInfo::exists(path)`. -/
  fileExists : String → Bool
  /-- The test `QFileInfo(path).isExecutable()`. -/
  isExecutable : String → Bool
  /-- The text of a file opened with `ReadOnly | Text`, `none` when it cannot be opened. -/
  readAll : String → Option String
  /-- The environment `QProcessEnvironment::systemEnvironment()`. -/
  systemEnvironment : QProcessEnvironment
  /-- The value `qgetenv("USER")`. -/
  user : String
  /-- The path `QDir::toNativeSeparators(path)`. -/
  toNativeSeparators : String → String
  /-- The name `QFileInfo(path).baseName()`. -/
  baseName : String → String
  /-- The path `QFileInfo(path).dir().absolutePath()`. -/
  parentDir : String → String
  /-- Whether the operating system can spawn `program` with `arguments` in the directory. -/
  canStart : String → List String → String → Bool
  /-- The exit code Qt reports in `finished` for a child that was killed. -/
  killedExitCode : Int
  /-- The result of `QProcess::waitForFinished(msecs)` right after `kill()`: whether the killed
  child is gone before the wait of `msecs` milliseconds gives up. -/
  killedChildFinishesWithin : Nat → Bool

/-- The services that change the filesystem: each returns its result and the host afterwards. -/
structure HostOps where
  /-- The call `QDir().mkpath(path)`. -/
  mkpath : Host → String → Bool × Host
  /-- The call `QFile(path).open(QIODevice::WriteOnly)` followed by `close()`. -/
  openWriteOnly : Host → String → Bool × Host
  /-- The call `QFile::remove(path)`. -/
  remove : Host → String → Bool × Host
  /-- The call `QDir(path).removeRecursively()`. -/
  removeRecursively : Host → String → Bool × Host

/-! ## QProcess -/

/-- The states `QProcess::ProcessState`. -/
inductive ProcessState
  | NotRunning
  | Starting
  | Running
  deriving DecidableEq, Repr

/-- The one `QProcess` object of the terminal: its state and what it was configured with.
`program` and `arguments` are those of the child it runs (or ran last). -/
structure QProcess where
  state : ProcessState
  workingDirectory : String
  environment : QProcessEnvironment
  program : String
  arguments : List String
  deriving DecidableEq, Repr

/-- The call `QProcess::start(program, arguments)`. On an object that already runs a process Qt
prints the warning "QProcess::start: Process is already running" and returns: the running
process is not touched and nothing is started. -/
def QProcess.start (p : QProcess) (program : String) (arguments : List String) : QProcess :=
  if p.state = ProcessState.NotRunning then
    { p with program := program, arguments := arguments, state := ProcessState.Starting }
  else p

/-- The call `QProcess::waitForStarted()`: a starting process either comes up or fails to start;
otherwise the answer is whether a process is running. -/
def QProcess.waitForStarted (h : Host) (p : QProcess) : Bool × QProcess :=
  match p.state with
  | ProcessState.Starting =>
    if h.canStart p.program p.arguments p.workingDirectory then
      (true, { p with state := ProcessState.Running })
    else (false, { p with state := ProcessState.NotRunning })
  | ProcessState.Running => (true, p)
  | ProcessState.NotRunning => (false, p)

/-! ## The terminal widget -/

/-- What the terminal does to the outside, in the order it happens. -/
inductive Effect
  /-- Text inserted at the end of the output view `m_output`. -/
  | appendText (text : String)
  /-- The output view is emptied (`m_output->clear()`). -/
  | clearOutput
  /-- The signal `directoryChanged(path)`. -/
  | directoryChanged (path : String)
  /-- The signal `fileSystemChanged()`. -/
  | fileSystemChanged
  /-- The call `m_process->start(program, arguments)`. -/
  | processStart (program : String) (arguments : List String)
  /-- The call `m_process->kill()`. -/
  | processKill
  deriving DecidableEq, Repr

/-- The fields of `Terminal`; `m_input` and `m_promptLabel` hold the text of the two widgets. -/
structure Terminal where
  m_input : String
  m_promptLabel : String
  m_process : QProcess
  m_currentDirectory : String
  m_shellType : String
  m_customShellPath : String
  m_availableTerminals : List String
  trace : List Effect
  deriving DecidableEq, Repr

/-- The member `Terminal::clear`. -/
def clear (t : Terminal) : Terminal :=
  { t with trace := t.trace ++ [Effect.clearOutput] }

/-- The member `Terminal::appendText`. -/
def appendText (t : Terminal) (text : String) : Terminal :=
  { t with trace := t.trace ++ [Effect.appendText text] }

/-- A signal is emitted. -/
def emit (t : Terminal) (e : Effect) : Terminal :=
  { t with trace := t.trace ++ [e] }

/-- The member `Terminal::updatePrompt`. -/
def updatePrompt (h : Host) (t : Terminal) : Terminal :=
  let prompt :=
    if t.m_shellType == "cmd" then
      h.toNativeSeparators t.m_currentDirectory ++ ">"
    else if t.m_shellType == "powershell" || t.m_shellType == "pwsh" then
      "PS " ++ h.toNativeSeparators t.m_currentDirectory ++ ">"
    else
      let dirName := h.baseName t.m_currentDirectory
      let dirName := if dirName == "" then "/" else dirName
      arg (arg "%1@qtcide:%2$ " (if h.user == "" then "user" else h.user)) dirName
  { t with m_promptLabel := prompt }

/-- The member `Terminal::setCurrentDirectory`. -/
def setCurrentDirectory (h : Host) (t : Terminal) (path : String) : Terminal :=
  if h.dirExists path then
    let t := { t with m_currentDirectory := path }
    let t := updatePrompt h t
    emit t (Effect.directoryChanged t.m_currentDirectory)
  else t

/-- The member `Terminal::showHelp`. -/
def showHelp (t : Terminal) : Terminal :=
  let t := appendText t "Available commands:\n"
  let t := appendText t "  help          - Show this help\n"
  let t := appendText t "  clear         - Clear terminal\n"
  let t := appendText t "  pwd           - Print working directory\n"
  let t := appendText t "  cd <dir>      - Change directory\n"
  let t := appendText t "  ls/dir        - List directory contents\n"
  let t := appendText t "  mkdir <name>  - Create directory (supports nested paths)\n"
  let t := appendText t "  touch <file>  - Create empty file (supports nested paths)\n"
  let t := appendText t "  rm <file>     - Delete file\n"
  let t := appendText t "  rmdir <dir>   - Delete directory\n"
  let t := appendText t "  cat <file>    - Show file content\n"
  let t := appendText t "  tree          - Show directory tree\n"
  let t := appendText t "  find <name>   - Find files/folders\n"
  let t := appendText t "  git <cmd>     - Git commands\n"
  let t := appendText t "  cmake <args>  - CMake build commands\n"
  let t := appendText t "  ninja <args>  - Ninja build commands\n"
  let t := appendText t "  make <args>   - Make build commands\n"
  appendText t "  Any system command\n\n"

/-- The last three statements of `Terminal::changeDirectory`, reached when it did not return
early: the report, the prompt and the signal. -/
def changeDirectoryDone (h : Host) (t : Terminal) : Terminal :=
  let t := appendText t (arg "Changed to: %1\n" t.m_currentDirectory)
  let t := updatePrompt h t
  emit t (Effect.directoryChanged t.m_currentDirectory)

/-- The member `Terminal::changeDirectory`. -/
def changeDirectory (h : Host) (t : Terminal) (path : String) : Terminal :=
  let newPath := path
  if newPath == ".." then
    match h.cdUp t.m_currentDirectory with
    | some parent => changeDirectoryDone h { t with m_currentDirectory := parent }
    | none => changeDirectoryDone h t
  else if newPath == "~" then
    changeDirectoryDone h { t with m_currentDirectory := h.homePath }
  else
    let newPath :=
      if !h.isAbsolutePath newPath then h.absoluteFilePath t.m_currentDirectory newPath
      else newPath
    if h.dirExists newPath then
      changeDirectoryDone h { t with m_currentDirectory := h.absolutePath newPath }
    else
      let t := appendText t (arg "Directory not found: %1\n" newPath)
      updatePrompt h t

/-- The member `Terminal::createDirectory`. -/
def createDirectory (ops : HostOps) (h : Host) (t : Terminal) (name : String) :
    Host × Terminal :=
  let fullPath := h.absoluteFilePath t.m_currentDirectory name
  let r := ops.mkpath h fullPath
  let t :=
    if r.1 then emit (appendText t (arg "Directory created: %1\n" name)) Effect.fileSystemChanged
    else appendText t (arg "Failed to create directory: %1\n" name)
  (r.2, appendText t "\n")

/-- The member `Terminal::createFile`. -/
def createFile (ops : HostOps) (h : Host) (t : Terminal) (fileName : String) :
    Host × Terminal :=
  let filePath := h.absoluteFilePath t.m_currentDirectory fileName
  let h1 := (ops.mkpath h (h.parentDir filePath)).2
  let r := ops.openWriteOnly h1 filePath
  let t :=
    if r.1 then emit (appendText t (arg "File created: %1\n" fileName)) Effect.fileSystemChanged
    else appendText t (arg "Failed to create file: %1\n" fileName)
  (r.2, appendText t "\n")

/-- The member `Terminal::deleteFile`. -/
def deleteFile (ops : HostOps) (h : Host) (t : Terminal) (fileName : String) :
    Host × Terminal :=
  let filePath := h.absoluteFilePath t.m_currentDirectory fileName
  let r := ops.remove h filePath
  let t :=
    if r.1 then emit (appendText t (arg "File deleted: %1\n" fileName)) Effect.fileSystemChanged
    else appendText t (arg "Failed to delete file: %1\n" fileName)
  (r.2, appendText t "\n")

/-- The member `Terminal::deleteDirectory`. -/
def deleteDirectory (ops : HostOps) (h : Host) (t : Terminal) (dirName : String) :
    Host × Terminal :=
  let dirPath := h.absoluteFilePath t.m_currentDirectory dirName
  let r := ops.removeRecursively h dirPath
  let t :=
    if r.1 then emit (appendText t (arg "Directory deleted: %1\n" dirName)) Effect.fileSystemChanged
    else appendText t (arg "Failed to delete directory: %1\n" dirName)
  (r.2, appendText t "\n")

/-- The member `Terminal::listDirectory`. -/
def listDirectory (h : Host) (t : Terminal) : Terminal :=
  let entries := h.entryInfoList t.m_currentDirectory
  let t := entries.foldl
    (fun t info =>
      let line :=
        if info.isDir then arg "[DIR]  %1\n" info.fileName
        else arg (arg "[FILE] %1 (%2 bytes)\n" info.fileName) (toString info.size)
      appendText t line)
    t
  appendText t "\n"

/-- The member `Terminal::showFileContent`. -/
def showFileContent (h : Host) (t : Terminal) (fileName : String) : Terminal :=
  let filePath := h.absoluteFilePath t.m_currentDirectory fileName
  match h.readAll filePath with
  | some content => appendText t (content ++ "\n\n")
  | none => appendText t (arg "Failed to read file: %1\n\n" fileName)

/-! ## Child processes -/

/-- The process environment `Terminal::executeBuildCommand` builds (lines 386-400). -/
def buildCommandEnvironment (h : Host) (shellType : String) : QProcessEnvironment :=
  let env := h.systemEnvironment
  let currentPath := env.value h.os "PATH"
  if h.os = OsFamily.windows then
    if shellType == "msys2" then
      let newPath := "C:/msys64/usr/bin;C:/msys64/mingw64/bin;" ++ currentPath
      (env.insert h.os "PATH" newPath).insert h.os "MSYSTEM" "MSYS"
    else if shellType == "mingw64" then
      let newPath := "C:/msys64/mingw64/bin;C:/msys64/usr/bin;" ++ currentPath
      (env.insert h.os "PATH" newPath).insert h.os "MSYSTEM" "MINGW64"
    else env
  else env

/-- The member `Terminal::executeGitCommand`. (`removeFirst` needs a non-empty list; every
command `executeCommand` passes starts with "git ".) -/
def executeGitCommand (h : Host) (t : Terminal) (command : String) : Terminal :=
  let t := appendText t ("Executing: " ++ command ++ "\n")
  let t := { t with m_process := { t.m_process with workingDirectory := t.m_currentDirectory } }
  let args := splitSkipEmpty ' ' command
  let args := args.tail
  let t := emit { t with m_process := t.m_process.start "git" args }
    (Effect.processStart "git" args)
  let r := t.m_process.waitForStarted h
  let t := { t with m_process := r.2 }
  if !r.1 then appendText t "Failed to start git command\n\n" else t

/-- The member `Terminal::executeBuildCommand`. (`takeFirst` needs a non-empty list; every
command `executeCommand` passes starts with a tool name.) -/
def executeBuildCommand (h : Host) (t : Terminal) (command : String) : Terminal :=
  let t := appendText t ("Executing: " ++ command ++ "\n")
  let t := { t with m_process := { t.m_process with workingDirectory := t.m_currentDirectory } }
  let env := buildCommandEnvironment h t.m_shellType
  let t := { t with m_process := { t.m_process with environment := env } }
  let args := splitSkipEmpty ' ' command
  let program := args.head?.getD ""
  let args := args.tail
  let t := emit { t with m_process := t.m_process.start program args }
    (Effect.processStart program args)
  let r := t.m_process.waitForStarted h
  let t := { t with m_process := r.2 }
  if !r.1 then
    let t := appendText t (arg "Failed to start %1 command\n" program)
    let t := appendText t "Make sure the tool is installed and in PATH\n"
    appendText t ("Current terminal: " ++ t.m_shellType ++ "\n\n")
  else t

/-- The first path of the list that `QFileInfo::exists`, empty when there is none. -/
def firstExisting (h : Host) : List String → String
  | [] => ""
  | path :: rest => if h.fileExists path then path else firstExisting h rest

/-- The member `Terminal::getTerminalExecutablePath`. -/
def getTerminalExecutablePath (h : Host) (terminalType : String) : String :=
  if h.os = OsFamily.windows then
    if terminalType == "cmd" then h.findExecutable "cmd"
    else if terminalType == "powershell" then h.findExecutable "powershell"
    else if terminalType == "pwsh" then h.findExecutable "pwsh"
    else if terminalType == "msys2" then
      firstExisting h ["C:/msys64/usr/bin/bash.exe", "C:/msys64/usr/bin/bash"]
    else if terminalType == "mingw64" then
      firstExisting h ["C:/msys64/mingw64/bin/bash.exe", "C:/msys64/mingw64/bin/bash"]
    else if terminalType == "gitbash" then
      firstExisting h ["C:/Program Files/Git/bin/bash.exe",
        "C:/Program Files (x86)/Git/bin/bash.exe", "C:/Git/bin/bash.exe"]
    else ""
  else
    if terminalType == "bash" then h.findExecutable "bash"
    else if terminalType == "zsh" then h.findExecutable "zsh"
    else if terminalType == "fish" then h.findExecutable "fish"
    else if terminalType == "dash" then h.findExecutable "dash"
    else ""

/-- The program and argument list `Terminal::executeSystemCommand` builds (lines 770-804);
`none` where the function reports "Error: Empty command" and returns. -/
def systemCommandLine (h : Host) (t : Terminal) (command : String) :
    Option (String × List String) :=
  let shellExecutable := getTerminalExecutablePath h t.m_shellType
  if t.m_shellType == "custom" && !(t.m_customShellPath == "") then
    some (t.m_customShellPath, ["-c", command])
  else if !(shellExecutable == "") then
    if t.m_shellType == "cmd" then some (shellExecutable, ["/c", command])
    else if t.m_shellType == "powershell" then
      some (shellExecutable, ["-NoProfile", "-Command", command])
    else if t.m_shellType == "pwsh" then
      some (shellExecutable, ["-NoProfile", "-Command", command])
    else some (shellExecutable, ["-c", command])
  else
    let commandParts := splitSkipEmpty ' ' command
    if !commandParts.isEmpty then some (commandParts.head?.getD "", commandParts.drop 1)
    else none

/-- The search paths `Terminal::executeSystemCommand` adds for a shell (lines 814-836). -/
def additionalPaths (h : Host) (shellType : String) : List String :=
  if h.os = OsFamily.windows then
    if shellType == "msys2" then ["C:/msys64/usr/bin", "C:/msys64/mingw64/bin"]
    else if shellType == "mingw64" then ["C:/msys64/mingw64/bin", "C:/msys64/usr/bin"]
    else if shellType == "gitbash" then
      ["C:/Program Files/Git/bin", "C:/Program Files (x86)/Git/bin", "C:/Git/bin"]
    else []
  else
    if shellType == "bash" then ["/usr/local/bin", "/usr/bin", "/bin"]
    else if shellType == "zsh" then ["/usr/local/bin", "/usr/bin", "/bin"]
    else if shellType == "fish" then ["/usr/local/bin", "/usr/bin", "/bin"]
    else if shellType == "dash" then ["/usr/bin", "/bin"]
    else []

/-- The process environment `Terminal::executeSystemCommand` builds (lines 812-846). -/
def systemCommandEnvironment (h : Host) (shellType : String) : QProcessEnvironment :=
  let env := h.systemEnvironment
  let currentPath := env.value h.os "PATH"
  let paths := additionalPaths h shellType
  if !paths.isEmpty then
    let newPath :=
      if h.os = OsFamily.windows then
        replaceChar (join ";" paths ++ ";" ++ currentPath) '/' (Char.ofNat 92)
      else join ":" paths ++ ":" ++ currentPath
    env.insert h.os "PATH" newPath
  else env

/-- The member `Terminal::executeSystemCommand`. -/
def executeSystemCommand (h : Host) (t : Terminal) (command : String) : Terminal :=
  let t := { t with m_process := { t.m_process with workingDirectory := t.m_currentDirectory } }
  let shellExecutable := getTerminalExecutablePath h t.m_shellType
  match systemCommandLine h t command with
  | none => appendText t "Error: Empty command\n\n"
  | some (program, args) =>
    if program == "" then
      appendText t ("Error: No executable found for command: " ++ command ++ "\n\n")
    else
      let env := systemCommandEnvironment h t.m_shellType
      let t := { t with m_process := { t.m_process with environment := env } }
      let t := emit { t with m_process := t.m_process.start program args }
        (Effect.processStart program args)
      let r := t.m_process.waitForStarted h
      let t := { t with m_process := r.2 }
      if !r.1 then
        let t := appendText t ("Failed to execute command: " ++ command ++ "\n")
        let t := appendText t ("Program: " ++ program ++ "\n")
        let t := appendText t ("Arguments: " ++ join " " args ++ "\n")
        let t := appendText t ("Shell type: " ++ t.m_shellType ++ "\n")
        let t := appendText t ("Shell executable: " ++ shellExecutable ++ "\n")
        appendText t "Make sure the command is installed and in PATH\n\n"
      else t

/-! ## tree and find -/

/-- The member `Terminal::showTree`. -/
def showTree (h : Host) (t : Terminal) (path : String) (depth : Nat) : Terminal :=
  let entries := h.entryInfoList path
  let indent := repeated "  " depth
  entries.foldl
    (fun t info =>
      let line := indent
      if info.isDir then
        let line := line ++ ("📁 " ++ info.fileName ++ "/\n")
        let t := appendText t line
        if hd : depth < 3 then showTree h t info.absoluteFilePath (depth + 1) else t
      else
        let line := line ++ ("📄 " ++ info.fileName ++ "\n")
        appendText t line)
    t
termination_by 3 - depth
decreasing_by omega

/-- The member `Terminal::showDirectoryTree`. -/
def showDirectoryTree (h : Host) (t : Terminal) : Terminal :=
  let t := appendText t "Directory tree:\n"
  let t := showTree h t t.m_currentDirectory 0
  appendText t "\n"

/-- The `while` loop of `Terminal::findFiles` over the entries the iterator still has to give,
with the running `count`; it returns the terminal and the count after the loop. -/
def findFilesLoop (h : Host) (t : Terminal) : List QFileInfo → Nat → Terminal × Nat
  | [], count => (t, count)
  | info :: rest, count =>
    let filePath := info.absoluteFilePath
    let relativePath := h.relativeFilePath t.m_currentDirectory filePath
    let t :=
      if info.isDir then appendText t (arg "📁 %1/\n" relativePath)
      else appendText t (arg "📄 %1\n" relativePath)
    let count := count + 1
    if count > 50 then (appendText t "... (showing first 50 results)\n", count)
    else findFilesLoop h t rest count

/-- The entries the `QDirIterator` of `Terminal::findFiles` gives: those below the current
directory whose name matches the filter `*pattern*`. -/
def findFilesEntries (h : Host) (t : Terminal) (pattern : String) : List QFileInfo :=
  (h.iteratorEntries t.m_currentDirectory).filter fun info =>
    h.wildcardMatch ("*" ++ pattern ++ "*") info.fileName

/-- The member `Terminal::findFiles`. -/
def findFiles (h : Host) (t : Terminal) (pattern : String) : Terminal :=
  if pattern == "" then appendText t "Usage: find <pattern>\n\n"
  else
    let t := appendText t (arg "Searching for: %1\n" pattern)
    let r := findFilesLoop h t (findFilesEntries h t pattern) 0
    let t := r.1
    let count := r.2
    let t :=
      if count == 0 then appendText t "No files found.\n"
      else appendText t (arg "Found %1 items.\n" (toString count))
    appendText t "\n"

/-! ## The command line -/

/-- The member `Terminal::executeCommand`, run when return is pressed in the input line. -/
def executeCommand (ops : HostOps) (h : Host) (t : Terminal) : Host × Terminal :=
  let command := trimmed t.m_input
  if command == "" then (h, t)
  else
    let t := appendText t (arg (arg "%1 %2\n" t.m_promptLabel) command)
    let t := { t with m_input := "" }
    if command == "help" then (h, showHelp t)
    else if command == "clear" then
      let t := clear t
      let t := appendText t "QTCIDE Terminal v1.0\n"
      let t := appendText t ("Current directory: " ++ t.m_currentDirectory ++ "\n")
      (h, appendText t "Type \x27help\x27 for available commands\n\n")
    else if command == "pwd" then (h, appendText t (t.m_currentDirectory ++ "\n\n"))
    else if command == "tree" then (h, showDirectoryTree h t)
    else if startsWith command "find " then (h, findFiles h t (trimmed (mid command 5)))
    else if startsWith command "cd " then (h, changeDirectory h t (trimmed (mid command 3)))
    else if startsWith command "mkdir " then createDirectory ops h t (trimmed (mid command 6))
    else if startsWith command "touch " || startsWith command "echo. > " then
      let fileName :=
        if startsWith command "touch " then trimmed (mid command 6)
        else trimmed (mid command 8)
      createFile ops h t fileName
    else if startsWith command "rm " || startsWith command "del " then
      let fileName :=
        if startsWith command "rm " then trimmed (mid command 3) else trimmed (mid command 4)
      deleteFile ops h t fileName
    else if startsWith command "rmdir " then deleteDirectory ops h t (trimmed (mid command 6))
    else if command == "ls" || command == "dir" then (h, listDirectory h t)
    else if startsWith command "cat " || startsWith command "type " then
      let fileName :=
        if startsWith command "cat " then trimmed (mid command 4) else trimmed (mid command 5)
      (h, showFileContent h t fileName)
    else if startsWith command "git " then (h, executeGitCommand h t command)
    else if startsWith command "cmake " || startsWith command "ninja " ||
        startsWith command "make " then
      (h, executeBuildCommand h t command)
    else (h, executeSystemCommand h t command)

/-! ## Process termination and the choice of shell -/

/-- The values `QProcess::ExitStatus`. -/
inductive ExitStatus
  | NormalExit
  | CrashExit
  deriving DecidableEq, Repr

/-- The slot `Terminal::onProcessFinished`, connected to `QProcess::finished`. -/
def onProcessFinished (t : Terminal) (exitCode : Int) (exitStatus : ExitStatus) : Terminal :=
  if exitStatus = ExitStatus.CrashExit then appendText t "Process crashed\n\n"
  else appendText t (arg "Process finished with exit code: %1\n\n" (toString exitCode))

/-- The member `Terminal::getTerminalDisplayName`. -/
def getTerminalDisplayName (t : Terminal) : String :=
  if t.m_shellType == "cmd" then "Command Prompt"
  else if t.m_shellType == "powershell" then "PowerShell"
  else if t.m_shellType == "pwsh" then "PowerShell Core"
  else if t.m_shellType == "msys2" then "MSYS2 Bash"
  else if t.m_shellType == "mingw64" then "MinGW64 Bash"
  else if t.m_shellType == "gitbash" then "Git Bash"
  else if t.m_shellType == "bash" then "Bash"
  else if t.m_shellType == "zsh" then "Zsh"
  else if t.m_shellType == "fish" then "Fish Shell"
  else if t.m_shellType == "dash" then "Dash"
  else if t.m_shellType == "custom" then "Custom Shell"
  else t.m_shellType

/-- The calls `m_process->kill()` and `m_process->waitForFinished(1000)` of
`Terminal::switchToTerminal` on a process object that is not `NotRunning`. When the wait sees
the child gone, the process object becomes `NotRunning` and `finished(exitCode, CrashExit)`
reaches `onProcessFinished` inside the wait. When the wait gives up after 1000 ms, nothing more
happens: the source ignores the result of the wait and goes on with the child still alive. -/
def killAndWaitForFinished (h : Host) (t : Terminal) : Terminal :=
  let t := emit t Effect.processKill
  if h.killedChildFinishesWithin 1000 then
    let t := { t with m_process := { t.m_process with state := ProcessState.NotRunning } }
    onProcessFinished t h.killedExitCode ExitStatus.CrashExit
  else t

/-- The member `Terminal::switchToTerminal`. -/
def switchToTerminal (h : Host) (t : Terminal) (terminalType : String) : Terminal :=
  if terminalType == "custom" || t.m_availableTerminals.contains terminalType then
    let t := { t with m_shellType := terminalType }
    let t :=
      if t.m_process.state != ProcessState.NotRunning then killAndWaitForFinished h t
      else t
    let t := appendText t (arg "Switched to %1 terminal\n" (getTerminalDisplayName t))
    updatePrompt h t
  else appendText t (arg "Terminal type \x27%1\x27 is not available\n" terminalType)

/-- The member `Terminal::getShellExecutable`. -/
def getShellExecutable (h : Host) (t : Terminal) : String :=
  if t.m_shellType == "custom" && !(t.m_customShellPath == "") then t.m_customShellPath
  else getTerminalExecutablePath h t.m_shellType

/-- The member `Terminal::isTerminalAvailable`. -/
def isTerminalAvailable (h : Host) (terminalType : String) : Bool :=
  let executablePath := getTerminalExecutablePath h terminalType
  if executablePath == "" then false
  else h.fileExists executablePath && h.isExecutable executablePath

/-- The list `candidates` of `Terminal::detectAvailableTerminals` for each platform. -/
def candidateTerminals : OsFamily → List String
  | OsFamily.windows => ["cmd", "powershell", "pwsh", "msys2", "mingw64", "gitbash"]
  | OsFamily.macos => ["zsh", "bash", "fish"]
  | OsFamily.linux => ["bash", "zsh", "fish", "dash"]

/-- The member `Terminal::detectAvailableTerminals`: the loop appends each candidate that is
available. -/
def detectAvailableTerminals (h : Host) : List String :=
  (candidateTerminals h.os).foldl
    (fun available terminal =>
      if isTerminalAvailable h terminal then available ++ [terminal] else available)
    []

/-! ## Settings and construction -/

/-- The values the terminal reads from the settings store `QSettings("QTCIDE", "Settings")`,
each with the default of the source when the key is absent. The fonts are applied to the two
widgets only; the widgets have no font in this model. -/
structure Settings where
  /-- The key `Terminal/Type`, default empty. -/
  terminalType : String
  /-- The key `Terminal/CustomShell`, default empty. -/
  customShell : String
  /-- The key `Terminal/StartupCommands`, default empty. -/
  startupCommands : String
  /-- The key `Terminal/FontSize`, default 10. -/
  fontSize : Int
  /-- The key `Terminal/FontFamily`, default Consolas. -/
  fontFamily : String
  /-- The key `Terminal/ClearOnStartup`, default false. -/
  clearOnStartup : Bool
  deriving DecidableEq, Repr

/-- What a `QTimer::singleShot` of the terminal will run later. -/
inductive Pending
  /-- After 500 ms: `executeSystemCommand(trimmedCmd)` for a startup command. -/
  | startupCommand (trimmedCmd : String)
  /-- After 100 ms: `clear()` and `updatePrompt()`. -/
  | clearOnStartup
  deriving DecidableEq, Repr

/-- The function a pending timer runs when it fires. -/
def runPending (h : Host) (t : Terminal) : Pending → Terminal
  | Pending.startupCommand trimmedCmd => executeSystemCommand h t trimmedCmd
  | Pending.clearOnStartup => updatePrompt h (clear t)

/-- A `QProcess` object as `new QProcess(this)` returns it. -/
def freshProcess : QProcess where
  state := ProcessState.NotRunning
  workingDirectory := ""
  environment := []
  program := ""
  arguments := []

/-- The member `Terminal::setupUI`, as far as it touches the fields of this model. -/
def setupUI (h : Host) (t : Terminal) : Terminal :=
  let t := { t with m_promptLabel := "$ ", m_input := "" }
  let t := appendText t "QTCIDE Terminal v1.0\n"
  let t := appendText t ("Current directory: " ++ t.m_currentDirectory ++ "\n")
  let t := appendText t "Type \x27help\x27 for available commands\n\n"
  updatePrompt h t

/-- The member `Terminal::autoDetectTerminal`. -/
def autoDetectTerminal (h : Host) (t : Terminal) : Terminal :=
  let t := { t with m_availableTerminals := detectAvailableTerminals h }
  let t :=
    if t.m_availableTerminals.isEmpty then
      match h.os with
      | OsFamily.windows => { t with m_shellType := "cmd" }
      | OsFamily.macos => { t with m_shellType := "zsh" }
      | OsFamily.linux => { t with m_shellType := "bash" }
    else { t with m_shellType := t.m_availableTerminals.head?.getD "" }
  let t := appendText t (arg "Auto-detected terminal: %1\n" t.m_shellType)
  appendText t (arg "Available terminals: %1\n\n" (join ", " t.m_availableTerminals))

/-- The loop of `Terminal::loadTerminalSettings` over the pieces of the startup commands: each
non-empty trimmed piece is echoed and scheduled. -/
def scheduleStartupCommands (t : Terminal) : List String → Terminal × List Pending
  | [] => (t, [])
  | cmd :: rest =>
    let trimmedCmd := trimmed cmd
    if !(trimmedCmd == "") then
      let t := appendText t ("$ " ++ trimmedCmd ++ "\n")
      let r := scheduleStartupCommands t rest
      (r.1, Pending.startupCommand trimmedCmd :: r.2)
    else scheduleStartupCommands t rest

/-- The member `Terminal::loadTerminalSettings`, with the timers it starts. -/
def loadTerminalSettings (s : Settings) (t : Terminal) : Terminal × List Pending :=
  let savedTerminalType := s.terminalType
  let customShell := s.customShell
  let startupCommands := s.startupCommands
  let t :=
    if !(savedTerminalType == "") &&
        (t.m_availableTerminals.contains savedTerminalType || savedTerminalType == "custom") then
      { t with m_shellType := savedTerminalType }
    else t
  let t := { t with m_customShellPath := customShell }
  let r :=
    if !(startupCommands == "") then
      scheduleStartupCommands t (splitSkipEmpty ';' startupCommands)
    else (t, [])
  (appendText r.1 (arg "Terminal switched to: %1\n\n" r.1.m_shellType), r.2)

/-- The member `Terminal::initializeTerminal`, with the timer it starts. -/
def initializeTerminal (h : Host) (s : Settings) (t : Terminal) : Terminal × List Pending :=
  let t := clear t
  let t := appendText t "QTCIDE Terminal v1.0\n"
  let t := appendText t ("Terminal Type: " ++ t.m_shellType ++ "\n")
  let t := appendText t ("Current directory: " ++ t.m_currentDirectory ++ "\n")
  if s.clearOnStartup then (t, [Pending.clearOnStartup])
  else
    let t := appendText t "Type \x27help\x27 for available commands\n\n"
    (updatePrompt h t, [])

/-- The constructor `Terminal::Terminal`, with the timers pending when it returns. -/
def newTerminal (h : Host) (s : Settings) : Terminal × List Pending :=
  let t : Terminal :=
    { m_input := "", m_promptLabel := "", m_process := freshProcess,
      m_currentDirectory := h.homePath, m_shellType := "", m_customShellPath := "",
      m_availableTerminals := [], trace := [] }
  let t := setupUI h t
  let t := autoDetectTerminal h t
  let r1 := loadTerminalSettings s t
  let r2 := initializeTerminal h s r1.1
  (r2.1, r1.2 ++ r2.2)

/-- The member `Terminal::applyTerminalSettings`. -/
def applyTerminalSettings (h : Host) (s : Settings) (t : Terminal) : Terminal :=
  let newTerminalType := s.terminalType
  let customShell := s.customShell
  let r : Terminal × Bool :=
    if !(newTerminalType == "") && newTerminalType != t.m_shellType then
      if newTerminalType == "custom" || t.m_availableTerminals.contains newTerminalType then
        (switchToTerminal h t newTerminalType, true)
      else (t, false)
    else (t, false)
  let t := { r.1 with m_customShellPath := customShell }
  if r.2 then
    let t := appendText t (arg "=== Terminal switched to: %1 ===\n" (getTerminalDisplayName t))
    updatePrompt h t
  else t

/-! ## A concrete host for examples -/

/-- The parent of an absolute POSIX path, `none` for the root. -/
def posixParent (path : String) : Option String :=
  match (splitSkipEmpty '/' path).reverse with
  | [] => none
  | _ :: above => some ("/" ++ join "/" above.reverse)

/-- Whether `part` occurs in a character list as a contiguous piece. -/
def containsChars (part : List Char) : List Char → Bool
  | [] => part.isEmpty
  | c :: cs => part.isPrefixOf (c :: cs) || containsChars part cs

/-- A POSIX-like host whose process runs in `/home/user`: `dirs` are the directories that
exist, `entries` the sorted content of each directory, `found` what a recursive iteration from
any directory visits, and `shells` the shell names found in `/usr/bin`. -/
def posixHost (dirs : List String) (entries : String → List QFileInfo) (found : List QFileInfo)
    (shells : List String) : Host where
  os := OsFamily.linux
  homePath := "/home/user"
  dirExists := fun path => dirs.contains path
  isAbsolutePath := fun path => startsWith path "/"
  absoluteFilePath := fun dir name =>
    if startsWith name "/" then name
    else if dir == "/" then dir ++ name
    else dir ++ "/" ++ name
  absolutePath := fun path => if startsWith path "/" then path else "/home/user/" ++ path
  cdUp := fun dir =>
    match posixParent dir with
    | some parent => if dirs.contains parent then some parent else none
    | none => none
  entryInfoList := entries
  iteratorEntries := fun _ => found
  wildcardMatch := fun filter name =>
    containsChars (filter.data.filter fun c => c != '*') name.data
  relativeFilePath := fun dir path => mid path (dir.length + 1)
  findExecutable := fun name => if shells.contains name then "/usr/bin/" ++ name else ""
  fileExists := fun path => shells.contains (mid path 9)
  isExecutable := fun path => shells.contains (mid path 9)
  readAll := fun _ => none
  systemEnvironment := [("HOME", "/home/user"), ("PATH", "/usr/bin:/bin")]
  user := "user"
  toNativeSeparators := fun path => path
  baseName := fun path =>
    match (splitSkipEmpty '/' path).reverse with
    | [] => ""
    | name :: _ => ⟨name.data.takeWhile fun c => c != '.'⟩
  parentDir := fun path => (posixParent path).getD "/"
  canStart := fun program _ dir => dirs.contains dir && !(program == "")
  killedExitCode := 9
  killedChildFinishesWithin := fun _ => true

/-- Filesystem operations for examples: creating a path makes it an existing directory, the
other operations fail. -/
def posixOps : HostOps where
  mkpath := fun h path =>
    (true, { h with dirExists := fun q => q == path || h.dirExists q })
  openWriteOnly := fun h _ => (false, h)
  remove := fun h _ => (false, h)
  removeRecursively := fun h _ => (false, h)

/-- Filesystem operations on a host where `file` is a plain file: no directory can be created
below it, any other path can; the other operations fail. -/
def blockedOps (file : String) : HostOps where
  mkpath := fun h path =>
    if startsWith path (file ++ "/") then (false, h)
    else (true, { h with dirExists := fun q => q == path || h.dirExists q })
  openWriteOnly := fun h _ => (false, h)
  remove := fun h _ => (false, h)
  removeRecursively := fun h _ => (false, h)

/-- A process object that runs nothing. -/
def idleProcess : QProcess where
  state := ProcessState.NotRunning
  workingDirectory := ""
  environment := []
  program := ""
  arguments := []

/-- A process object whose child `sleep 100` is still running. -/
def busyProcess : QProcess where
  state := ProcessState.Running
  workingDirectory := "/home/user"
  environment := []
  program := "/usr/bin/bash"
  arguments := ["-c", "sleep 100"]

/-- A terminal in directory `dir` with shell `shell`, the line `input` typed and the process
object `proc`. -/
def terminalWith (dir shell input : String) (proc : QProcess) : Terminal where
  m_input := input
  m_promptLabel := "user@qtcide:user$ "
  m_process := proc
  m_currentDirectory := dir
  m_shellType := shell
  m_customShellPath := ""
  m_availableTerminals := [shell]
  trace := []

/-- Whether an effect is a kill of the child process. -/
def Effect.isKill : Effect → Bool
  | Effect.processKill => true
  | _ => false

/-- Whether an effect appends text that begins with `start`. -/
def Effect.appendsTextStarting (start : String) : Effect → Bool
  | Effect.appendText text => startsWith text start
  | _ => false

/-- A small home directory tree: `/home` and `/home/user` exist. -/
def homeHost : Host :=
  posixHost ["/", "/home", "/home/user"] (fun _ => []) [] ["bash"]

/-- The terminal after `executeCommand` has echoed the prompt and the line and emptied the
input line. -/
def echoed (t : Terminal) : Terminal :=
  { appendText t (arg (arg "%1 %2\n" t.m_promptLabel) (trimmed t.m_input)) with m_input := "" }

/-- The files `log0`, `log1`, ... of `/var`, `n` of them. -/
def manyFiles (n : Nat) : List QFileInfo :=
  (List.range n).map fun i =>
    { fileName := "log" ++ toString i, absoluteFilePath := "/var/log" ++ toString i,
      isDir := false, size := 0 }

/-- The content of a directory chain `/w/a/b/c` with a file `d` and a directory `e` in `c`,
and a file `f` in `e`. -/
def deepEntries (path : String) : List QFileInfo :=
  if path == "/w" then
    [{ fileName := "a", absoluteFilePath := "/w/a", isDir := true, size := 0 }]
  else if path == "/w/a" then
    [{ fileName := "b", absoluteFilePath := "/w/a/b", isDir := true, size := 0 }]
  else if path == "/w/a/b" then
    [{ fileName := "c", absoluteFilePath := "/w/a/b/c", isDir := true, size := 0 }]
  else if path == "/w/a/b/c" then
    [{ fileName := "d", absoluteFilePath := "/w/a/b/c/d", isDir := false, size := 7 },
     { fileName := "e", absoluteFilePath := "/w/a/b/c/e", isDir := true, size := 0 }]
  else if path == "/w/a/b/c/e" then
    [{ fileName := "f", absoluteFilePath := "/w/a/b/c/e/f", isDir := false, size := 1 }]
  else []

/-- A host with the directory chain of `deepEntries`. -/
def deepHost : Host :=
  posixHost ["/", "/w", "/w/a", "/w/a/b", "/w/a/b/c", "/w/a/b/c/e"] deepEntries [] ["bash"]

/-- The number of spaces a text begins with. -/
def leadingSpaces (text : String) : Nat :=
  (text.data.takeWhile fun c => c == ' ').length

/-- What `showTree` called at `depth` may append: an entry line of some depth `d` from `depth`
up to 3 (or `depth` itself beyond 3), indented by `2 * d` spaces. -/
def TreeLine (depth : Nat) (line : String) : Prop :=
  ∃ d, depth ≤ d ∧ d ≤ max 3 depth ∧ leadingSpaces line = 2 * d ∧
    ∃ name, line = repeated "  " d ++ ("📁 " ++ name ++ "/\n") ∨
      line = repeated "  " d ++ ("📄 " ++ name ++ "\n")

/-- A macOS host: `shells` are the shell names found in `/usr/bin`. -/
def macHost (shells : List String) : Host :=
  { posixHost ["/", "/Users", "/Users/user"] (fun _ => []) [] shells with
    os := OsFamily.macos, homePath := "/Users/user" }

/-- A Windows host: `files` are the paths that exist, `executables` those of them Qt takes for
executable, `onPath` what a search of the path finds for a name, `environment` the inherited
environment. -/
def windowsHost (files executables : List String) (onPath : List (String × String))
    (environment : QProcessEnvironment) : Host where
  os := OsFamily.windows
  homePath := "C:/Users/user"
  dirExists := fun path => ["C:/", "C:/Users", "C:/Users/user"].contains path
  isAbsolutePath := fun path =>
    match path.data with
    | _ :: ':' :: _ => true
    | _ => false
  absoluteFilePath := fun dir name =>
    match name.data with
    | _ :: ':' :: _ => name
    | _ => dir ++ "/" ++ name
  absolutePath := fun path => path
  cdUp := fun dir =>
    if dir == "C:/Users/user" then some "C:/Users"
    else if dir == "C:/Users" then some "C:/"
    else none
  entryInfoList := fun _ => []
  iteratorEntries := fun _ => []
  wildcardMatch := fun filter name =>
    containsChars (filter.data.filter fun c => c != '*') name.data
  relativeFilePath := fun dir path => mid path (dir.length + 1)
  findExecutable := fun name => (onPath.lookup name).getD ""
  fileExists := fun path => files.contains path
  isExecutable := fun path => executables.contains path
  readAll := fun _ => none
  systemEnvironment := environment
  user := ""
  toNativeSeparators := fun path => replaceChar path '/' (Char.ofNat 92)
  baseName := fun path =>
    match (splitSkipEmpty '/' path).reverse with
    | [] => ""
    | name :: _ => ⟨name.data.takeWhile fun c => c != '.'⟩
  parentDir := fun path => "C:/" ++ join "/" ((splitSkipEmpty '/' path).drop 1).dropLast
  canStart := fun program _ _ => executables.contains program
  killedExitCode := 62097
  killedChildFinishesWithin := fun _ => true

/-- A settings store with nothing stored: every key has its default. -/
def defaultSettings : Settings where
  terminalType := ""
  customShell := ""
  startupCommands := ""
  fontSize := 10
  fontFamily := "Consolas"
  clearOnStartup := false

/-! ## The classification table of `executeCommand` as data -/

/-- The test of one entry of the table: the line is exactly a word, or it starts with a text
(which ends in a space). -/
inductive LineTest
  | exact (word : String)
  | start (text : String)
  deriving DecidableEq, Repr

/-- Whether a trimmed line passes a test. -/
def LineTest.holds : LineTest → String → Bool
  | LineTest.exact word, command => command == word
  | LineTest.start text, command => startsWith command text

/-- What an entry runs: the handler gets the terminal after the echo and the trimmed line. -/
abbrev Handler := HostOps → Host → Terminal → String → Host × Terminal

/-- The entries of `executeCommand`, each test with the statements of its branch, in the order
in which the source tests them. -/
def classificationTable : List (LineTest × Handler) :=
  [(LineTest.exact "help", fun _ h t _ => (h, showHelp t)),
   (LineTest.exact "clear", fun _ h t _ =>
      let t := clear t
      let t := appendText t "QTCIDE Terminal v1.0\n"
      let t := appendText t ("Current directory: " ++ t.m_currentDirectory ++ "\n")
      (h, appendText t "Type \x27help\x27 for available commands\n\n")),
   (LineTest.exact "pwd", fun _ h t _ => (h, appendText t (t.m_currentDirectory ++ "\n\n"))),
   (LineTest.exact "tree", fun _ h t _ => (h, showDirectoryTree h t)),
   (LineTest.start "find ", fun _ h t c => (h, findFiles h t (trimmed (mid c 5)))),
   (LineTest.start "cd ", fun _ h t c => (h, changeDirectory h t (trimmed (mid c 3)))),
   (LineTest.start "mkdir ", fun ops h t c => createDirectory ops h t (trimmed (mid c 6))),
   (LineTest.start "touch ", fun ops h t c => createFile ops h t (trimmed (mid c 6))),
   (LineTest.start "echo. > ", fun ops h t c => createFile ops h t (trimmed (mid c 8))),
   (LineTest.start "rm ", fun ops h t c => deleteFile ops h t (trimmed (mid c 3))),
   (LineTest.start "del ", fun ops h t c => deleteFile ops h t (trimmed (mid c 4))),
   (LineTest.start "rmdir ", fun ops h t c => deleteDirectory ops h t (trimmed (mid c 6))),
   (LineTest.exact "ls", fun _ h t _ => (h, listDirectory h t)),
   (LineTest.exact "dir", fun _ h t _ => (h, listDirectory h t)),
   (LineTest.start "cat ", fun _ h t c => (h, showFileContent h t (trimmed (mid c 4)))),
   (LineTest.start "type ", fun _ h t c => (h, showFileContent h t (trimmed (mid c 5)))),
   (LineTest.start "git ", fun _ h t c => (h, executeGitCommand h t c)),
   (LineTest.start "cmake ", fun _ h t c => (h, executeBuildCommand h t c)),
   (LineTest.start "ninja ", fun _ h t c => (h, executeBuildCommand h t c)),
   (LineTest.start "make ", fun _ h t c => (h, executeBuildCommand h t c))]

/-- Dispatch by a table tested in the given order: the first entry whose test holds runs, and
the generic shell passthrough when none holds. -/
def dispatch (order : List (LineTest × Handler)) : Handler :=
  fun ops h t command =>
    match order.find? fun entry => entry.1.holds command with
    | some entry => entry.2 ops h t command
    | none => (h, executeSystemCommand h t command)

/-- The test `QString::endsWith(p)`. -/
def endsWith (s p : String) : Bool := p.data.reverse.isPrefixOf s.data.reverse

/-- The user types `line` into the input line and presses return. -/
def runLine (ops : HostOps) (s : Host × Terminal) (line : String) : Host × Terminal :=
  executeCommand ops s.1 { s.2 with m_input := line }

/-- The shell `Terminal::autoDetectTerminal` falls back to when no terminal was detected. -/
def fallbackShell : OsFamily → String
  | OsFamily.windows => "cmd"
  | OsFamily.macos => "zsh"
  | OsFamily.linux => "bash"

/-- The current shell is `custom`, or one of the available shells, or, with no shell available,
the fallback of the platform. -/
def ShellChoiceValid (os : OsFamily) (t : Terminal) : Prop :=
  t.m_shellType = "custom" ∨ t.m_shellType ∈ t.m_availableTerminals ∨
    (t.m_availableTerminals = [] ∧ t.m_shellType = fallbackShell os)

/-- The states a terminal constructed on a host of platform `os` can reach: the constructor
gives the first one, and each further one comes from a public member, a slot, a timer that
fires, a change of the input line or of the state of the child process, or (more than the
source allows, since the member is private) `switchToTerminal` with any identifier. -/
inductive Reachable (os : OsFamily) : Terminal → Prop
  | construct (h : Host) (s : Settings) : h.os = os → Reachable os (newTerminal h s).1
  | typed (t : Terminal) (text : String) : Reachable os t → Reachable os { t with m_input := text }
  | returnPressed (ops : HostOps) (h : Host) (t : Terminal) :
      Reachable os t → Reachable os (executeCommand ops h t).2
  | processChanged (t : Terminal) (p : QProcess) :
      Reachable os t → Reachable os { t with m_process := p }
  | processFinished (t : Terminal) (exitCode : Int) (exitStatus : ExitStatus) :
      Reachable os t → Reachable os (onProcessFinished t exitCode exitStatus)
  | cleared (t : Terminal) : Reachable os t → Reachable os (clear t)
  | textAppended (t : Terminal) (text : String) : Reachable os t → Reachable os (appendText t text)
  | directorySet (h : Host) (t : Terminal) (path : String) :
      Reachable os t → Reachable os (setCurrentDirectory h t path)
  | timerFired (h : Host) (t : Terminal) (p : Pending) :
      Reachable os t → Reachable os (runPending h t p)
  | settingsLoaded (s : Settings) (t : Terminal) :
      Reachable os t → Reachable os (loadTerminalSettings s t).1
  | settingsApplied (h : Host) (s : Settings) (t : Terminal) :
      Reachable os t → Reachable os (applyTerminalSettings h s t)
  | switched (h : Host) (t : Terminal) (terminalType : String) :
      Reachable os t → Reachable os (switchToTerminal h t terminalType)

/-- What `showTree` does that an observer can count: it is invoked for a path at a depth, and
an invocation at a depth appends a line. -/
inductive TreeEvent
  | invoked (path : String) (depth : Nat)
  | line (depth : Nat) (text : String)
  deriving DecidableEq, Repr

/-- The depth of the invocation an event belongs to. -/
def TreeEvent.depth : TreeEvent → Nat
  | TreeEvent.invoked _ depth => depth
  | TreeEvent.line depth _ => depth

/-- The line an event appends, if it is one. -/
def TreeEvent.text : TreeEvent → Option String
  | TreeEvent.invoked _ _ => none
  | TreeEvent.line _ text => some text

/-- The member `Terminal::showTree` with a log next to the terminal: the statements are those
of `showTree`, and every invocation and every appended line is also recorded with the value of
`depth` of the invocation it happens in. -/
def showTreeLogged (h : Host) (s : Terminal × List TreeEvent) (path : String) (depth : Nat) :
    Terminal × List TreeEvent :=
  let s := (s.1, s.2 ++ [TreeEvent.invoked path depth])
  let entries := h.entryInfoList path
  let indent := repeated "  " depth
  entries.foldl
    (fun s info =>
      let line := indent
      if info.isDir then
        let line := line ++ ("📁 " ++ info.fileName ++ "/\n")
        let s := (appendText s.1 line, s.2 ++ [TreeEvent.line depth line])
        if hd : depth < 3 then showTreeLogged h s info.absoluteFilePath (depth + 1) else s
      else
        let line := line ++ ("📄 " ++ info.fileName ++ "\n")
        (appendText s.1 line, s.2 ++ [TreeEvent.line depth line]))
    s
termination_by 3 - depth
decreasing_by omega

/-- A host on which every directory holds one entry `loop`, a directory whose path is
`/loop` again: a symbolic link to its own parent. -/
def cyclicHost : Host :=
  posixHost ["/", "/loop"]
    (fun _ => [{ fileName := "loop", absoluteFilePath := "/loop", isDir := true, size := 0 }])
    [] ["bash"]

/-! ## General lemmas -/

theorem startsWith_iff (s p : String) :
    startsWith s p = true ↔ ∃ r, s.data = p.data ++ r := by
  unfold startsWith
  rw [List.isPrefixOf_iff_prefix]
  constructor
  · rintro ⟨r, hr⟩; exact ⟨r, hr.symm⟩
  · rintro ⟨r, hr⟩; exact ⟨r, hr.symm⟩

/-! ## C2: lines that match no table entry go to the generic shell passthrough -/

/-- C2: a line that after trimming is non-empty, is none of the exact-match words and starts with
none of the space-terminated prefixes is handed whole (trimmed) by `executeCommand` to
`executeSystemCommand`, after the echo of the prompt and the line. -/
theorem executeCommand_routes_to_system (ops : HostOps) (h : Host) (t : Terminal)
    (hne : trimmed t.m_input ≠ "")
    (hex : trimmed t.m_input ∉ ["help", "clear", "pwd", "tree", "ls", "dir"])
    (hpre : ∀ p ∈ ["find ", "cd ", "mkdir ", "touch ", "echo. > ", "rm ", "del ", "rmdir ",
      "cat ", "type ", "git ", "cmake ", "ninja ", "make "],
      startsWith (trimmed t.m_input) p = false) :
    executeCommand ops h t =
      (h, executeSystemCommand h
        { appendText t (arg (arg "%1 %2\n" t.m_promptLabel) (trimmed t.m_input)) with
          m_input := "" }
        (trimmed t.m_input)) := by
  simp only [List.mem_cons, List.mem_singleton, List.not_mem_nil, or_false, not_or,
    forall_eq_or_imp, forall_eq] at hex hpre
  unfold executeCommand
  simp [hne, hex, hpre]

/-- C2, at the lines `gits status` and `ls -la`: both reach `executeSystemCommand` whole, which
asks for `bash -c <line>`; neither is handled as `git` or as the built-in `ls`. -/
theorem executeCommand_routes_to_system_witness :
    (executeCommand posixOps homeHost (terminalWith "/home/user" "bash" " gits status " idleProcess)
        = (homeHost, executeSystemCommand homeHost
            { appendText (terminalWith "/home/user" "bash" " gits status " idleProcess)
                "user@qtcide:user$  gits status\n" with m_input := "" }
            "gits status")) ∧
    (executeCommand posixOps homeHost (terminalWith "/home/user" "bash" "ls -la" idleProcess)
        = (homeHost, executeSystemCommand homeHost
            { appendText (terminalWith "/home/user" "bash" "ls -la" idleProcess)
                "user@qtcide:user$  ls -la\n" with m_input := "" }
            "ls -la")) :=
  ⟨executeCommand_routes_to_system posixOps homeHost
      (terminalWith "/home/user" "bash" " gits status " idleProcess)
      (by decide) (by decide) (by decide),
   executeCommand_routes_to_system posixOps homeHost
      (terminalWith "/home/user" "bash" "ls -la" idleProcess)
      (by decide) (by decide) (by decide)⟩

/-! ## C3: git and build lines start the named tool directly -/

theorem executeCommand_git (ops : HostOps) (h : Host) (t : Terminal)
    (hg : startsWith (trimmed t.m_input) "git " = true) :
    executeCommand ops h t = (h, executeGitCommand h (echoed t) (trimmed t.m_input)) := by
  unfold executeCommand echoed
  generalize trimmed t.m_input = c at *
  obtain ⟨r, hr⟩ := (startsWith_iff _ _).1 hg
  obtain ⟨l⟩ := c
  simp at hr
  subst hr
  simp [startsWith, String.ext_iff]

theorem executeCommand_build (ops : HostOps) (h : Host) (t : Terminal)
    (hg : startsWith (trimmed t.m_input) "cmake " = true ∨
      startsWith (trimmed t.m_input) "ninja " = true ∨
      startsWith (trimmed t.m_input) "make " = true) :
    executeCommand ops h t = (h, executeBuildCommand h (echoed t) (trimmed t.m_input)) := by
  unfold executeCommand echoed
  generalize trimmed t.m_input = c at *
  obtain ⟨l⟩ := c
  rcases hg with hg | hg | hg <;>
  · obtain ⟨r, hr⟩ := (startsWith_iff _ _).1 hg
    simp at hr
    subst hr
    simp [startsWith, String.ext_iff]

theorem splitSkipEmpty_head (tool r : List Char) (htool : tool ≠ []) (hsp : ' ' ∉ tool) :
    splitSkipEmpty ' ' ⟨tool ++ ' ' :: r⟩ = ⟨tool⟩ :: splitSkipEmpty ' ' ⟨r⟩ := by
  have key : ∀ (l cur : List Char), ' ' ∉ l → (cur ++ l ≠ []) →
      splitChars ' ' (l ++ ' ' :: r) cur = (cur.reverse ++ l) :: splitChars ' ' r [] := by
    intro l
    induction l with
    | nil =>
      intro cur _ hne
      have : cur ≠ [] := by simpa using hne
      simp [splitChars, this]
    | cons a l ih =>
      intro cur hmem _
      have ha : a ≠ ' ' := by
        intro h; apply hmem; simp [h]
      have hl : ' ' ∉ l := by
        intro h; apply hmem; simp [h]
      simp [splitChars, ha, ih (a :: cur) hl]
  unfold splitSkipEmpty
  simp [key tool [] hsp (by simpa using htool)]

theorem executeGitCommand_effects (h : Host) (t : Terminal) (command : String) :
    (∃ report : List String, (executeGitCommand h t command).trace = t.trace ++
      [Effect.appendText ("Executing: " ++ command ++ "\n"),
       Effect.processStart "git" (splitSkipEmpty ' ' command).tail] ++
      report.map Effect.appendText) ∧
    (executeGitCommand h t command).m_process.workingDirectory = t.m_currentDirectory ∧
    (t.m_process.state = ProcessState.NotRunning →
      (executeGitCommand h t command).m_process.program = "git" ∧
      (executeGitCommand h t command).m_process.arguments =
        (splitSkipEmpty ' ' command).tail) := by
  cases hs : t.m_process.state
  · cases hc : h.canStart "git" (splitSkipEmpty ' ' command).tail t.m_currentDirectory
    · refine ⟨⟨["Failed to start git command\n\n"], ?_⟩, ?_, ?_⟩ <;>
        simp [executeGitCommand, QProcess.start, QProcess.waitForStarted, emit, appendText, hs, hc]
    · refine ⟨⟨[], ?_⟩, ?_, ?_⟩ <;>
        simp [executeGitCommand, QProcess.start, QProcess.waitForStarted, emit, appendText, hs, hc]
  · cases hc : h.canStart t.m_process.program t.m_process.arguments t.m_currentDirectory
    · refine ⟨⟨["Failed to start git command\n\n"], ?_⟩, ?_, ?_⟩ <;>
        simp [executeGitCommand, QProcess.start, QProcess.waitForStarted, emit, appendText, hs, hc]
    · refine ⟨⟨[], ?_⟩, ?_, ?_⟩ <;>
        simp [executeGitCommand, QProcess.start, QProcess.waitForStarted, emit, appendText, hs, hc]
  · refine ⟨⟨[], ?_⟩, ?_, ?_⟩ <;>
      simp [executeGitCommand, QProcess.start, QProcess.waitForStarted, emit, appendText, hs]

theorem executeBuildCommand_effects (h : Host) (t : Terminal) (command : String) :
    (∃ report : List String, (executeBuildCommand h t command).trace = t.trace ++
      [Effect.appendText ("Executing: " ++ command ++ "\n"),
       Effect.processStart ((splitSkipEmpty ' ' command).head?.getD "")
         (splitSkipEmpty ' ' command).tail] ++
      report.map Effect.appendText) ∧
    (executeBuildCommand h t command).m_process.workingDirectory = t.m_currentDirectory ∧
    (t.m_process.state = ProcessState.NotRunning →
      (executeBuildCommand h t command).m_process.program =
        (splitSkipEmpty ' ' command).head?.getD "" ∧
      (executeBuildCommand h t command).m_process.arguments =
        (splitSkipEmpty ' ' command).tail) := by
  cases hs : t.m_process.state
  · cases hc : h.canStart ((splitSkipEmpty ' ' command).head?.getD "")
        (splitSkipEmpty ' ' command).tail t.m_currentDirectory
    · refine ⟨⟨[arg "Failed to start %1 command\n" ((splitSkipEmpty ' ' command).head?.getD ""),
          "Make sure the tool is installed and in PATH\n",
          "Current terminal: " ++ t.m_shellType ++ "\n\n"], ?_⟩, ?_, ?_⟩ <;>
        simp [executeBuildCommand, QProcess.start, QProcess.waitForStarted, emit, appendText,
          hs, hc]
    · refine ⟨⟨[], ?_⟩, ?_, ?_⟩ <;>
        simp [executeBuildCommand, QProcess.start, QProcess.waitForStarted, emit, appendText,
          hs, hc]
  · cases hc : h.canStart t.m_process.program t.m_process.arguments t.m_currentDirectory
    · refine ⟨⟨[arg "Failed to start %1 command\n" ((splitSkipEmpty ' ' command).head?.getD ""),
          "Make sure the tool is installed and in PATH\n",
          "Current terminal: " ++ t.m_shellType ++ "\n\n"], ?_⟩, ?_, ?_⟩ <;>
        simp [executeBuildCommand, QProcess.start, QProcess.waitForStarted, emit, appendText,
          hs, hc]
    · refine ⟨⟨[], ?_⟩, ?_, ?_⟩ <;>
        simp [executeBuildCommand, QProcess.start, QProcess.waitForStarted, emit, appendText,
          hs, hc]
  · refine ⟨⟨[], ?_⟩, ?_, ?_⟩ <;>
      simp [executeBuildCommand, QProcess.start, QProcess.waitForStarted, emit, appendText, hs]

theorem tokens_of_tool_line (tool r : List Char) (c : String) (htool : tool ≠ [])
    (hsp : ' ' ∉ tool) (hc : c.data = tool ++ ' ' :: r) :
    splitSkipEmpty ' ' c = ⟨tool⟩ :: splitSkipEmpty ' ' ⟨r⟩ := by
  obtain ⟨l⟩ := c
  simp at hc
  subst hc
  exact splitSkipEmpty_head tool r htool hsp

theorem executeGitCommand_process (h : Host) (t : Terminal) (command : String) :
    (t.m_process.state = ProcessState.NotRunning →
      (executeGitCommand h t command).m_process.state =
        (if h.canStart "git" (splitSkipEmpty ' ' command).tail t.m_currentDirectory then
          ProcessState.Running
        else ProcessState.NotRunning)) ∧
    (t.m_process.state ≠ ProcessState.NotRunning →
      (executeGitCommand h t command).m_process.program = t.m_process.program ∧
      (executeGitCommand h t command).m_process.arguments = t.m_process.arguments) := by
  cases hs : t.m_process.state
  · cases hc : h.canStart "git" (splitSkipEmpty ' ' command).tail t.m_currentDirectory <;>
      simp [executeGitCommand, QProcess.start, QProcess.waitForStarted, emit, appendText, hs, hc]
  · cases hc : h.canStart t.m_process.program t.m_process.arguments t.m_currentDirectory <;>
      simp [executeGitCommand, QProcess.start, QProcess.waitForStarted, emit, appendText, hs, hc]
  · simp [executeGitCommand, QProcess.start, QProcess.waitForStarted, emit, appendText, hs]

theorem executeBuildCommand_process (h : Host) (t : Terminal) (command : String) :
    (t.m_process.state = ProcessState.NotRunning →
      (executeBuildCommand h t command).m_process.state =
        (if h.canStart ((splitSkipEmpty ' ' command).head?.getD "")
            (splitSkipEmpty ' ' command).tail t.m_currentDirectory then
          ProcessState.Running
        else ProcessState.NotRunning)) ∧
    (t.m_process.state ≠ ProcessState.NotRunning →
      (executeBuildCommand h t command).m_process.program = t.m_process.program ∧
      (executeBuildCommand h t command).m_process.arguments = t.m_process.arguments) := by
  cases hs : t.m_process.state
  · cases hc : h.canStart ((splitSkipEmpty ' ' command).head?.getD "")
        (splitSkipEmpty ' ' command).tail t.m_currentDirectory <;>
      simp [executeBuildCommand, QProcess.start, QProcess.waitForStarted, emit, appendText,
        hs, hc]
  · cases hc : h.canStart t.m_process.program t.m_process.arguments t.m_currentDirectory <;>
      simp [executeBuildCommand, QProcess.start, QProcess.waitForStarted, emit, appendText,
        hs, hc]
  · simp [executeBuildCommand, QProcess.start, QProcess.waitForStarted, emit, appendText, hs]

/-- C3 as stated fails while a child is running: with `bash -c "sleep 100"` alive, the line
`make all` starts with `make `, and after `executeCommand` the process object still runs
`/usr/bin/bash` with the arguments of the old child; no process with program `make` exists. -/
theorem passthrough_while_running_counterexample :
    startsWith (trimmed "make all") "make " = true ∧
    (terminalWith "/home/user" "bash" "make all" busyProcess).m_process.state =
      ProcessState.Running ∧
    (executeCommand posixOps homeHost
      (terminalWith "/home/user" "bash" "make all" busyProcess)).2.m_process.program =
        "/usr/bin/bash" ∧
    (executeCommand posixOps homeHost
      (terminalWith "/home/user" "bash" "make all" busyProcess)).2.m_process.arguments =
        ["-c", "sleep 100"] ∧
    (executeCommand posixOps homeHost
      (terminalWith "/home/user" "bash" "make all" busyProcess)).2.m_process.state =
        ProcessState.Running := by
  decide

/-- C3 amended: a trimmed line that starts with `git `, `cmake `, `ninja ` or `make ` makes
`executeCommand` call `start` on the process object with the tool name itself (the first token
of the line, never a shell) as program and the remaining non-empty space-separated tokens, in
order, as arguments, after setting the working directory of the process to
`m_currentDirectory`. When no child is running, these become the program and arguments of the
process object, which runs if the operating system can start the tool. While a child is
running, the call is ignored: the process object keeps the program and arguments of the old
child. -/
theorem passthrough_starts_named_tool (ops : HostOps) (h : Host) (t : Terminal) (tool : String)
    (htool : tool ∈ ["git", "cmake", "ninja", "make"])
    (hline : startsWith (trimmed t.m_input) (tool ++ " ") = true) :
    (splitSkipEmpty ' ' (trimmed t.m_input)).head? = some tool ∧
    (∃ report : List String, (executeCommand ops h t).2.trace = t.trace ++
      [Effect.appendText (arg (arg "%1 %2\n" t.m_promptLabel) (trimmed t.m_input)),
       Effect.appendText ("Executing: " ++ trimmed t.m_input ++ "\n"),
       Effect.processStart tool (splitSkipEmpty ' ' (trimmed t.m_input)).tail] ++
      report.map Effect.appendText) ∧
    (executeCommand ops h t).2.m_process.workingDirectory = t.m_currentDirectory ∧
    (t.m_process.state = ProcessState.NotRunning →
      (executeCommand ops h t).2.m_process.program = tool ∧
      (executeCommand ops h t).2.m_process.arguments =
        (splitSkipEmpty ' ' (trimmed t.m_input)).tail ∧
      (executeCommand ops h t).2.m_process.state =
        (if h.canStart tool (splitSkipEmpty ' ' (trimmed t.m_input)).tail t.m_currentDirectory
          then ProcessState.Running
        else ProcessState.NotRunning)) ∧
    (t.m_process.state ≠ ProcessState.NotRunning →
      (executeCommand ops h t).2.m_process.program = t.m_process.program ∧
      (executeCommand ops h t).2.m_process.arguments = t.m_process.arguments) := by
  simp only [List.mem_cons, List.mem_singleton, List.not_mem_nil, or_false] at htool
  obtain ⟨r, hr⟩ := (startsWith_iff _ _).1 hline
  have hecho : (echoed t).m_process = t.m_process := rfl
  have hdir : (echoed t).m_currentDirectory = t.m_currentDirectory := rfl
  rcases htool with rfl | rfl | rfl | rfl
  · have htok := tokens_of_tool_line ['g', 'i', 't'] r _ (by simp) (by simp) (by simpa using hr)
    rw [executeCommand_git ops h t hline]
    obtain ⟨⟨report, h1⟩, h2, h3⟩ := executeGitCommand_effects h (echoed t) (trimmed t.m_input)
    obtain ⟨h4, h5⟩ := executeGitCommand_process h (echoed t) (trimmed t.m_input)
    rw [hecho] at h3 h4 h5
    rw [hdir] at h4
    refine ⟨by simp [htok], ⟨report, ?_⟩, ?_, ?_, h5⟩
    · rw [h1]; simp [echoed, appendText]
    · exact h2.trans hdir
    · intro hs
      exact ⟨(h3 hs).1, (h3 hs).2, h4 hs⟩
  · have htok := tokens_of_tool_line ['c', 'm', 'a', 'k', 'e'] r _ (by simp) (by simp)
      (by simpa using hr)
    rw [executeCommand_build ops h t (Or.inl hline)]
    obtain ⟨⟨report, h1⟩, h2, h3⟩ := executeBuildCommand_effects h (echoed t) (trimmed t.m_input)
    obtain ⟨h4, h5⟩ := executeBuildCommand_process h (echoed t) (trimmed t.m_input)
    rw [hecho] at h3 h4 h5
    rw [hdir] at h4
    rw [htok] at h1 h3 h4
    refine ⟨by simp [htok], ⟨report, ?_⟩, h2.trans hdir, ?_, h5⟩
    · rw [h1, htok]; simp [echoed, appendText]
    · intro hs
      rw [htok]
      exact ⟨(h3 hs).1, (h3 hs).2, h4 hs⟩
  · have htok := tokens_of_tool_line ['n', 'i', 'n', 'j', 'a'] r _ (by simp) (by simp)
      (by simpa using hr)
    rw [executeCommand_build ops h t (Or.inr (Or.inl hline))]
    obtain ⟨⟨report, h1⟩, h2, h3⟩ := executeBuildCommand_effects h (echoed t) (trimmed t.m_input)
    obtain ⟨h4, h5⟩ := executeBuildCommand_process h (echoed t) (trimmed t.m_input)
    rw [hecho] at h3 h4 h5
    rw [hdir] at h4
    rw [htok] at h1 h3 h4
    refine ⟨by simp [htok], ⟨report, ?_⟩, h2.trans hdir, ?_, h5⟩
    · rw [h1, htok]; simp [echoed, appendText]
    · intro hs
      rw [htok]
      exact ⟨(h3 hs).1, (h3 hs).2, h4 hs⟩
  · have htok := tokens_of_tool_line ['m', 'a', 'k', 'e'] r _ (by simp) (by simp)
      (by simpa using hr)
    rw [executeCommand_build ops h t (Or.inr (Or.inr hline))]
    obtain ⟨⟨report, h1⟩, h2, h3⟩ := executeBuildCommand_effects h (echoed t) (trimmed t.m_input)
    obtain ⟨h4, h5⟩ := executeBuildCommand_process h (echoed t) (trimmed t.m_input)
    rw [hecho] at h3 h4 h5
    rw [hdir] at h4
    rw [htok] at h1 h3 h4
    refine ⟨by simp [htok], ⟨report, ?_⟩, h2.trans hdir, ?_, h5⟩
    · rw [h1, htok]; simp [echoed, appendText]
    · intro hs
      rw [htok]
      exact ⟨(h3 hs).1, (h3 hs).2, h4 hs⟩

/-- C3 amended, at the line `git  commit -m  x` typed in `/home/user` with no child running: the
process object ends up with program `git`, arguments `commit`, `-m`, `x` and that working
directory. -/
theorem passthrough_starts_named_tool_witness :
    startsWith (trimmed "git  commit -m  x") ("git" ++ " ") = true ∧
    (executeCommand posixOps homeHost
      (terminalWith "/home/user" "bash" "git  commit -m  x" idleProcess)).2.m_process.program
        = "git" ∧
    (executeCommand posixOps homeHost
      (terminalWith "/home/user" "bash" "git  commit -m  x" idleProcess)).2.m_process.arguments
        = ["commit", "-m", "x"] ∧
    (executeCommand posixOps homeHost
      (terminalWith "/home/user" "bash" "git  commit -m  x"
        idleProcess)).2.m_process.workingDirectory = "/home/user" :=
  ⟨by decide,
   ((passthrough_starts_named_tool posixOps homeHost
      (terminalWith "/home/user" "bash" "git  commit -m  x" idleProcess) "git"
      (by decide) (by decide)).2.2.2.1 rfl).1,
   ((passthrough_starts_named_tool posixOps homeHost
      (terminalWith "/home/user" "bash" "git  commit -m  x" idleProcess) "git"
      (by decide) (by decide)).2.2.2.1 rfl).2.1.trans (by decide),
   (passthrough_starts_named_tool posixOps homeHost
      (terminalWith "/home/user" "bash" "git  commit -m  x" idleProcess) "git"
      (by decide) (by decide)).2.2.1⟩

/-! ## C1: a dispatch while a child is running -/

/-- C1 as stated fails: with the child `bash -c "sleep 100"` still running, the line `git status`
makes `executeCommand` ask the process object to start `git status` without any kill before it;
the process object afterwards still runs the old child. -/
theorem dispatch_while_running_counterexample :
    (terminalWith "/home/user" "bash" "git status" busyProcess).m_process.state
      = ProcessState.Running ∧
    (executeCommand posixOps homeHost
      (terminalWith "/home/user" "bash" "git status" busyProcess)).2.trace =
      [Effect.appendText "user@qtcide:user$  git status\n",
       Effect.appendText "Executing: git status\n",
       Effect.processStart "git" ["status"]] ∧
    (executeCommand posixOps homeHost
      (terminalWith "/home/user" "bash" "git status" busyProcess)).2.m_process = busyProcess := by
  decide

/-- C1 amended: a passthrough dispatch (`executeSystemCommand`, `executeGitCommand` or
`executeBuildCommand`) issued while the child of the one process object is running adds no kill
to the trace, and the process object afterwards is still running with the program and arguments
of the old child: the old child is not terminated and no second child comes to life. -/
theorem dispatch_while_running_keeps_child (h : Host) (t : Terminal) (command : String)
    (hrun : t.m_process.state = ProcessState.Running) :
    ∀ r ∈ [executeSystemCommand h t command, executeGitCommand h t command,
        executeBuildCommand h t command],
      (∃ added : List Effect, r.trace = t.trace ++ added ∧ added.any Effect.isKill = false) ∧
      r.m_process.state = ProcessState.Running ∧
      r.m_process.program = t.m_process.program ∧
      r.m_process.arguments = t.m_process.arguments := by
  intro r hr
  simp only [List.mem_cons, List.mem_singleton, List.not_mem_nil, or_false] at hr
  rcases hr with rfl | rfl | rfl
  · unfold executeSystemCommand
    simp only []
    split
    · refine ⟨⟨[Effect.appendText "Error: Empty command\n\n"], ?_, ?_⟩, ?_, ?_, ?_⟩ <;>
        simp [appendText, hrun, Effect.isKill]
    · rename_i program args _
      by_cases hp : program = ""
      · refine ⟨⟨[Effect.appendText
            ("Error: No executable found for command: " ++ command ++ "\n\n")], ?_, ?_⟩,
          ?_, ?_, ?_⟩ <;> simp [appendText, hrun, Effect.isKill, hp]
      · refine ⟨⟨[Effect.processStart program args], ?_, ?_⟩, ?_, ?_, ?_⟩ <;>
          simp [appendText, emit, QProcess.start, QProcess.waitForStarted, hrun, Effect.isKill, hp]
  · refine ⟨⟨[Effect.appendText ("Executing: " ++ command ++ "\n"),
        Effect.processStart "git" (splitSkipEmpty ' ' command).tail], ?_, ?_⟩, ?_, ?_, ?_⟩ <;>
      simp [executeGitCommand, appendText, emit, QProcess.start, QProcess.waitForStarted, hrun,
        Effect.isKill]
  · refine ⟨⟨[Effect.appendText ("Executing: " ++ command ++ "\n"),
        Effect.processStart ((splitSkipEmpty ' ' command).head?.getD "")
          (splitSkipEmpty ' ' command).tail], ?_, ?_⟩, ?_, ?_, ?_⟩ <;>
      simp [executeBuildCommand, appendText, emit, QProcess.start, QProcess.waitForStarted, hrun,
        Effect.isKill]

/-- C1 amended, at the shell line `ls -la` dispatched while `sleep 100` runs: no kill, and the
process object keeps its running child. -/
theorem dispatch_while_running_keeps_child_witness :
    (terminalWith "/home/user" "bash" "" busyProcess).m_process.state = ProcessState.Running ∧
    (executeSystemCommand homeHost (terminalWith "/home/user" "bash" "" busyProcess)
      "ls -la").m_process.state = ProcessState.Running ∧
    (executeSystemCommand homeHost (terminalWith "/home/user" "bash" "" busyProcess)
      "ls -la").m_process.arguments = ["-c", "sleep 100"] :=
  ⟨rfl,
   (dispatch_while_running_keeps_child homeHost (terminalWith "/home/user" "bash" "" busyProcess)
      "ls -la" rfl _ (List.mem_cons_self _ _)).2.1,
   (dispatch_while_running_keeps_child homeHost (terminalWith "/home/user" "bash" "" busyProcess)
      "ls -la" rfl _ (List.mem_cons_self _ _)).2.2.2⟩

/-! ## C4: the argument vector of the generic passthrough -/

/-- C4 as stated fails: with shell `bash` (the unprobed Linux default, no shell being available)
not found on the search path, and with shell `custom` and an empty custom path, the line
`ls -la` is split and run directly with argument vector `["-la"]`, not `["-c", "ls -la"]`. -/
theorem systemCommandLine_counterexample :
    getTerminalExecutablePath (posixHost ["/", "/home", "/home/user"] (fun _ => []) [] [])
      "bash" = "" ∧
    systemCommandLine (posixHost ["/", "/home", "/home/user"] (fun _ => []) [] [])
      { terminalWith "/home/user" "bash" "" idleProcess with m_availableTerminals := [] }
      "ls -la" = some ("ls", ["-la"]) ∧
    systemCommandLine homeHost
      { terminalWith "/home/user" "custom" "" idleProcess with
        m_customShellPath := "", m_availableTerminals := ["bash"] }
      "ls -la" = some ("ls", ["-la"]) := by
  decide

/-- C4 amended: when the shell is `custom` with a non-empty custom path, or
`getTerminalExecutablePath` resolves the shell identifier to a non-empty path, the argument
vector built for a generic passthrough is `["/c", c]` for `cmd`, `["-NoProfile", "-Command", c]`
for `powershell` and `pwsh`, and `["-c", c]` for every other identifier (bash, zsh, fish, dash,
msys2, mingw64, gitbash, custom), with `c` as one unsplit argument; when no executable is
resolved, the line is split at spaces instead, its first token is the program and the remaining
tokens are the arguments. -/
theorem systemCommandLine_arguments (h : Host) (t : Terminal) (c : String) :
    ((t.m_shellType = "custom" ∧ t.m_customShellPath ≠ "") ∨
        getTerminalExecutablePath h t.m_shellType ≠ "" →
      ∃ program, program ≠ "" ∧ systemCommandLine h t c = some (program,
        if t.m_shellType = "cmd" then ["/c", c]
        else if t.m_shellType = "powershell" ∨ t.m_shellType = "pwsh" then
          ["-NoProfile", "-Command", c]
        else ["-c", c])) ∧
    (¬ ((t.m_shellType = "custom" ∧ t.m_customShellPath ≠ "") ∨
        getTerminalExecutablePath h t.m_shellType ≠ "") →
      systemCommandLine h t c =
        match splitSkipEmpty ' ' c with
        | [] => none
        | program :: args => some (program, args)) := by
  constructor
  · intro hres
    by_cases hcustom : t.m_shellType = "custom" ∧ t.m_customShellPath ≠ ""
    · refine ⟨t.m_customShellPath, hcustom.2, ?_⟩
      simp [systemCommandLine, hcustom.1, hcustom.2]
    · have hexe : getTerminalExecutablePath h t.m_shellType ≠ "" := by
        rcases hres with hres | hres
        · exact absurd hres hcustom
        · exact hres
      refine ⟨getTerminalExecutablePath h t.m_shellType, hexe, ?_⟩
      have hc2 : ¬ (t.m_shellType = "custom" ∧ ¬ t.m_customShellPath = "") := hcustom
      unfold systemCommandLine
      simp only [beq_iff_eq, Bool.and_eq_true, Bool.not_eq_true', beq_eq_false_iff_ne, ne_eq,
        hc2, hexe, if_false, not_false_eq_true, if_true]
      by_cases h1 : t.m_shellType = "cmd"
      · simp [h1]
      · by_cases h2 : t.m_shellType = "powershell"
        · simp [h2]
        · by_cases h3 : t.m_shellType = "pwsh"
          · simp [h3]
          · simp [h1, h2, h3]
  · intro hres
    rw [not_or] at hres
    obtain ⟨hcustom, hexe⟩ := hres
    have hexe2 : getTerminalExecutablePath h t.m_shellType = "" := not_not.1 hexe
    have hc2 : ¬ (t.m_shellType = "custom" ∧ ¬ t.m_customShellPath = "") := hcustom
    unfold systemCommandLine
    simp only [beq_iff_eq, Bool.and_eq_true, Bool.not_eq_true', beq_eq_false_iff_ne, ne_eq,
      hc2, hexe2, if_false, not_true_eq_false]
    cases splitSkipEmpty ' ' c <;> simp

/-- C4 amended, at shell `bash` found as `/usr/bin/bash` and the line `ls -la`. -/
theorem systemCommandLine_arguments_witness :
    getTerminalExecutablePath homeHost "bash" ≠ "" ∧
    (systemCommandLine homeHost (terminalWith "/home/user" "bash" "" idleProcess) "ls -la").map
      Prod.snd = some ["-c", "ls -la"] :=
  ⟨by decide,
   by
    obtain ⟨program, _, hp⟩ := (systemCommandLine_arguments homeHost
      (terminalWith "/home/user" "bash" "" idleProcess) "ls -la").1 (Or.inr (by decide))
    rw [hp]
    simp [terminalWith]⟩

/-! ## C5, C6, C7: changing the working directory -/

/-- C5: a `cd` argument other than `..` and `~` whose resolved path (the argument itself when
absolute, otherwise the argument joined to the working directory) is not an existing directory
makes `changeDirectory` append the report "Directory not found: <resolved path>" and nothing
else: the working directory stays, no `directoryChanged` is emitted, no "Changed to" is
reported. -/
theorem changeDirectory_not_found (h : Host) (t : Terminal) (path : String)
    (hup : path ≠ "..") (hhome : path ≠ "~")
    (hmissing : h.dirExists
      (if h.isAbsolutePath path then path else h.absoluteFilePath t.m_currentDirectory path)
      = false) :
    (changeDirectory h t path).trace = t.trace ++
      [Effect.appendText ("Directory not found: " ++
        (if h.isAbsolutePath path then path else h.absoluteFilePath t.m_currentDirectory path)
        ++ "\n")] ∧
    (changeDirectory h t path).m_currentDirectory = t.m_currentDirectory := by
  unfold changeDirectory
  cases ha : h.isAbsolutePath path <;>
    simp [ha] at hmissing <;>
    simp [hup, hhome, ha, hmissing, updatePrompt, appendText] <;> rfl

/-- C5, at `cd nowhere` in `/home/user`, where `/home/user/nowhere` does not exist. -/
theorem changeDirectory_not_found_witness :
    (changeDirectory homeHost (terminalWith "/home/user" "bash" "" idleProcess) "nowhere").trace
      = [Effect.appendText "Directory not found: /home/user/nowhere\n"] ∧
    (changeDirectory homeHost (terminalWith "/home/user" "bash" "" idleProcess)
      "nowhere").m_currentDirectory = "/home/user" :=
  changeDirectory_not_found homeHost (terminalWith "/home/user" "bash" "" idleProcess) "nowhere"
    (by decide) (by decide) (by decide)

/-- C6 fails on `cd ~`: on a host whose home path `/home/user` is not an existing directory,
`changeDirectory` with `~` assigns that path to the working directory without any existence
check, reports "Changed to" and emits `directoryChanged`. -/
theorem changeDirectory_home_unchecked :
    (posixHost ["/"] (fun _ => []) [] ["bash"]).dirExists
      (posixHost ["/"] (fun _ => []) [] ["bash"]).homePath = false ∧
    (changeDirectory (posixHost ["/"] (fun _ => []) [] ["bash"])
      (terminalWith "/" "bash" "" idleProcess) "~").m_currentDirectory = "/home/user" ∧
    (changeDirectory (posixHost ["/"] (fun _ => []) [] ["bash"])
      (terminalWith "/" "bash" "" idleProcess) "~").trace =
      [Effect.appendText "Changed to: /home/user\n", Effect.directoryChanged "/home/user"] := by
  decide

/-- C7: `cd ..` where `QDir::cdUp` succeeds (the directory has a parent) sets the working
directory to the absolute path of the parent; where `cdUp` fails (a root directory) the working
directory is unchanged and what is emitted is the "Changed to" report and `directoryChanged`
for the unchanged directory, with no "Directory not found" report. -/
theorem changeDirectory_up (h : Host) (t : Terminal) :
    (∀ parent, h.cdUp t.m_currentDirectory = some parent →
      (changeDirectory h t "..").m_currentDirectory = parent) ∧
    (h.cdUp t.m_currentDirectory = none →
      (changeDirectory h t "..").m_currentDirectory = t.m_currentDirectory ∧
      (changeDirectory h t "..").trace = t.trace ++
        [Effect.appendText ("Changed to: " ++ t.m_currentDirectory ++ "\n"),
         Effect.directoryChanged t.m_currentDirectory]) := by
  constructor
  · intro parent hp
    simp [changeDirectory, hp, changeDirectoryDone, emit, updatePrompt, appendText]
  · intro hp
    simp [changeDirectory, hp, changeDirectoryDone, emit, updatePrompt, appendText]
    rfl

/-- C7, on a POSIX host: from `/home/user` the working directory becomes `/home`; from `/` it
stays `/` and the only text appended is "Changed to: /". -/
theorem changeDirectory_up_witness :
    homeHost.cdUp "/home/user" = some "/home" ∧
    (changeDirectory homeHost (terminalWith "/home/user" "bash" "" idleProcess)
      "..").m_currentDirectory = "/home" ∧
    homeHost.cdUp "/" = none ∧
    (changeDirectory homeHost (terminalWith "/" "bash" "" idleProcess) "..").m_currentDirectory
      = "/" ∧
    (changeDirectory homeHost (terminalWith "/" "bash" "" idleProcess) "..").trace =
      [Effect.appendText "Changed to: /\n", Effect.directoryChanged "/"] :=
  ⟨by decide,
   (changeDirectory_up homeHost (terminalWith "/home/user" "bash" "" idleProcess)).1 "/home"
    (by decide),
   by decide,
   ((changeDirectory_up homeHost (terminalWith "/" "bash" "" idleProcess)).2 (by decide)).1,
   ((changeDirectory_up homeHost (terminalWith "/" "bash" "" idleProcess)).2 (by decide)).2⟩

/-! ## C8, C9: find -/

/-- C8 fails by one: in a directory tree with 60 entries matching `log`, `findFiles` emits 51
item lines before it stops with "... (showing first 50 results)", and reports 51 items. -/
theorem findFiles_emits_51 :
    (findFilesEntries (posixHost ["/", "/var"] (fun _ => []) (manyFiles 60) ["bash"])
      (terminalWith "/var" "bash" "" idleProcess) "log").length = 60 ∧
    ((findFiles (posixHost ["/", "/var"] (fun _ => []) (manyFiles 60) ["bash"])
      (terminalWith "/var" "bash" "" idleProcess) "log").trace.filter
        (Effect.appendsTextStarting "📄 ")).length = 51 ∧
    (findFiles (posixHost ["/", "/var"] (fun _ => []) (manyFiles 60) ["bash"])
      (terminalWith "/var" "bash" "" idleProcess) "log").trace.drop 51 =
      [Effect.appendText "📄 log50\n",
       Effect.appendText "... (showing first 50 results)\n",
       Effect.appendText "Found 51 items.\n",
       Effect.appendText "\n"] := by
  decide

/-- C9: for a non-empty pattern and a working directory below which no entry name matches the
filter `*pattern*`, the whole output of `findFiles` is the "Searching for" header, the line
"No files found." and a blank line; no item line is emitted. -/
theorem findFiles_no_match (h : Host) (t : Terminal) (pattern : String)
    (hne : pattern ≠ "")
    (hno : ∀ info ∈ h.iteratorEntries t.m_currentDirectory,
      h.wildcardMatch ("*" ++ pattern ++ "*") info.fileName = false) :
    (findFiles h t pattern).trace = t.trace ++
      [Effect.appendText ("Searching for: " ++ pattern ++ "\n"),
       Effect.appendText "No files found.\n",
       Effect.appendText "\n"] := by
  have hnil : findFilesEntries h (appendText t (arg "Searching for: %1\n" pattern)) pattern
      = [] := by
    unfold findFilesEntries
    rw [List.filter_eq_nil_iff]
    intro info hinfo
    simpa using hno info hinfo
  unfold findFiles
  rw [if_neg (by simpa using hne)]
  simp only [hnil, findFilesLoop]
  simp [appendText]
  rfl

/-- C9, at `find xyz` in `/var`, where the 60 entries are named `log0` to `log59`. -/
theorem findFiles_no_match_witness :
    (findFiles (posixHost ["/", "/var"] (fun _ => []) (manyFiles 60) ["bash"])
      (terminalWith "/var" "bash" "" idleProcess) "xyz").trace =
      [Effect.appendText "Searching for: xyz\n",
       Effect.appendText "No files found.\n",
       Effect.appendText "\n"] :=
  findFiles_no_match (posixHost ["/", "/var"] (fun _ => []) (manyFiles 60) ["bash"])
    (terminalWith "/var" "bash" "" idleProcess) "xyz" (by decide) (by decide)

/-! ## C10: the depth of tree -/

theorem repeated_data (d : Nat) : (repeated "  " d).data = List.replicate (2 * d) ' ' := by
  induction d with
  | zero => rfl
  | succ n ih =>
    have h2 : 2 * (n + 1) = (2 * n + 1) + 1 := by ring
    rw [repeated, String.data_append, ih, h2, List.replicate_succ, List.replicate_succ]
    rfl

theorem leadingSpaces_indent (d : Nat) (c : Char) (rest : List Char) (hc : c ≠ ' ') :
    leadingSpaces (repeated "  " d ++ ⟨c :: rest⟩) = 2 * d := by
  unfold leadingSpaces
  rw [String.data_append, repeated_data]
  generalize 2 * d = n
  induction n with
  | zero =>
    have hb : (c == ' ') = false := by simpa using hc
    simp [List.takeWhile, hb]
  | succ n ih => simpa [List.replicate_succ, List.takeWhile] using ih

theorem foldl_appends (P : String → Prop) (f : Terminal → QFileInfo → Terminal)
    (hf : ∀ t info, ∃ lines : List String,
      f t info = { t with trace := t.trace ++ lines.map Effect.appendText } ∧ ∀ l ∈ lines, P l) :
    ∀ (entries : List QFileInfo) (t : Terminal), ∃ lines : List String,
      entries.foldl f t = { t with trace := t.trace ++ lines.map Effect.appendText } ∧
      ∀ l ∈ lines, P l := by
  intro entries
  induction entries with
  | nil => intro t; exact ⟨[], by simp, by simp⟩
  | cons info rest ih =>
    intro t
    obtain ⟨l1, h1, p1⟩ := hf t info
    obtain ⟨l2, h2, p2⟩ := ih (f t info)
    refine ⟨l1 ++ l2, ?_, ?_⟩
    · rw [List.foldl_cons, h2, h1]; simp
    · intro l hl
      rcases List.mem_append.1 hl with hl | hl
      · exact p1 l hl
      · exact p2 l hl

theorem treeLine_dir (depth : Nat) (name : String) :
    TreeLine depth (repeated "  " depth ++ ("📁 " ++ name ++ "/\n")) :=
  ⟨depth, le_refl _, le_max_right _ _, leadingSpaces_indent depth '📁' _ (by decide),
    name, Or.inl rfl⟩

theorem treeLine_file (depth : Nat) (name : String) :
    TreeLine depth (repeated "  " depth ++ ("📄 " ++ name ++ "\n")) :=
  ⟨depth, le_refl _, le_max_right _ _, leadingSpaces_indent depth '📄' _ (by decide),
    name, Or.inr rfl⟩

theorem treeLine_up (depth : Nat) (hd : depth < 3) (line : String)
    (hl : TreeLine (depth + 1) line) : TreeLine depth line := by
  obtain ⟨d, h1, h2, h3, h4⟩ := hl
  refine ⟨d, by omega, ?_, h3, h4⟩
  have : max 3 (depth + 1) = 3 := by omega
  have : max 3 depth = 3 := by omega
  omega

theorem showTree_step (h : Host) (depth : Nat)
    (ih : depth < 3 → ∀ (path : String) (t : Terminal), ∃ lines : List String,
      showTree h t path (depth + 1) = { t with trace := t.trace ++ lines.map Effect.appendText }
        ∧ ∀ l ∈ lines, TreeLine (depth + 1) l)
    (path : String) (t : Terminal) :
    ∃ lines : List String,
      showTree h t path depth = { t with trace := t.trace ++ lines.map Effect.appendText } ∧
      ∀ l ∈ lines, TreeLine depth l := by
  rw [showTree]
  apply foldl_appends
  intro t info
  by_cases hdir : info.isDir = true
  · by_cases hd : depth < 3
    · obtain ⟨lines, h1, h2⟩ := ih hd info.absoluteFilePath
        (appendText t (repeated "  " depth ++ ("📁 " ++ info.fileName ++ "/\n")))
      refine ⟨(repeated "  " depth ++ ("📁 " ++ info.fileName ++ "/\n")) :: lines, ?_, ?_⟩
      · simp only [hdir, hd, if_true, dite_true, h1]
        simp [appendText]
      · intro l hl
        rcases List.mem_cons.1 hl with rfl | hl
        · exact treeLine_dir depth _
        · exact treeLine_up depth hd l (h2 l hl)
    · refine ⟨[repeated "  " depth ++ ("📁 " ++ info.fileName ++ "/\n")], ?_, ?_⟩
      · simp [hdir, hd, appendText]
      · intro l hl
        rw [List.mem_singleton.1 hl]
        exact treeLine_dir depth _
  · refine ⟨[repeated "  " depth ++ ("📄 " ++ info.fileName ++ "\n")], ?_, ?_⟩
    · simp [hdir, appendText]
    · intro l hl
      rw [List.mem_singleton.1 hl]
      exact treeLine_file depth _

theorem showTree_lines (h : Host) :
    ∀ (k depth : Nat), 3 - depth = k → ∀ (path : String) (t : Terminal),
      ∃ lines : List String,
        showTree h t path depth = { t with trace := t.trace ++ lines.map Effect.appendText } ∧
        ∀ l ∈ lines, TreeLine depth l := by
  intro k
  induction k with
  | zero =>
    intro depth hk path t
    exact showTree_step h depth (fun hd => by omega) path t
  | succ k ih =>
    intro depth hk path t
    exact showTree_step h depth (fun _ => ih (depth + 1) (by omega)) path t

/-- C10 as stated fails: below `/w` the file `d` lies at level 4 (`a/b/c/d`), and the tree
built-in emits it, indented by 3 levels (6 spaces). -/
theorem showDirectoryTree_counterexample :
    (showDirectoryTree deepHost (terminalWith "/w" "bash" "" idleProcess)).trace =
      [Effect.appendText "Directory tree:\n",
       Effect.appendText "📁 a/\n",
       Effect.appendText "  📁 b/\n",
       Effect.appendText "    📁 c/\n",
       Effect.appendText "      📄 d\n",
       Effect.appendText "      📁 e/\n",
       Effect.appendText "\n"] ∧
    leadingSpaces "      📄 d\n" = 6 := by
  constructor
  · simp [showDirectoryTree, showTree, deepHost, posixHost, deepEntries, terminalWith,
      appendText, repeated]
  · decide

/-- C10 amended: the tree built-in lists at most 4 levels of entries. What `showDirectoryTree`
appends is the header, entry lines and a blank line, and every entry line belongs to a depth
`d` of at most 3 (level `d + 1` of at most 4) and is indented by `2 * d`, so at most 6, spaces. -/
theorem showDirectoryTree_depth (h : Host) (t : Terminal) :
    ∃ lines : List String,
      (showDirectoryTree h t).trace = t.trace ++ [Effect.appendText "Directory tree:\n"] ++
        lines.map Effect.appendText ++ [Effect.appendText "\n"] ∧
      ∀ line ∈ lines, ∃ d, d ≤ 3 ∧ leadingSpaces line = 2 * d ∧
        ∃ name, line = repeated "  " d ++ ("📁 " ++ name ++ "/\n") ∨
          line = repeated "  " d ++ ("📄 " ++ name ++ "\n") := by
  obtain ⟨lines, h1, h2⟩ := showTree_lines h 3 0 rfl
    (appendText t "Directory tree:\n").m_currentDirectory (appendText t "Directory tree:\n")
  refine ⟨lines, ?_, ?_⟩
  · unfold showDirectoryTree
    simp only [h1]
    simp [appendText]
  · intro line hl
    obtain ⟨d, _, hd, hs, hn⟩ := h2 line hl
    exact ⟨d, by simpa using hd, hs, hn⟩

/-! ## C11: the termination report -/

/-- C11: for every exit code and exit status `onProcessFinished` appends exactly one text and
changes nothing else: "Process crashed" for an abnormal end, whatever the exit code, otherwise
"Process finished with exit code: N"; the report of an abnormal end differs from the report of
every clean exit code. -/
theorem onProcessFinished_report (t : Terminal) (exitCode : Int) (exitStatus : ExitStatus) :
    onProcessFinished t exitCode exitStatus =
      { t with trace := t.trace ++
        [Effect.appendText
          (if exitStatus = ExitStatus.CrashExit then "Process crashed\n\n"
           else "Process finished with exit code: " ++ toString exitCode ++ "\n\n")] } ∧
    ∀ n : Int, (onProcessFinished t exitCode ExitStatus.CrashExit).trace ≠
      (onProcessFinished t n ExitStatus.NormalExit).trace := by
  constructor
  · cases exitStatus
    · simp [onProcessFinished, appendText]; rfl
    · simp [onProcessFinished, appendText]
  · intro n
    have hne : ("Process crashed\n\n" : String) ≠
        arg "Process finished with exit code: %1\n\n" (toString n) := by
      intro h
      have h2 := congrArg String.data h
      have h3 : (arg "Process finished with exit code: %1\n\n" (toString n)).data =
          "Process finished with exit code: ".data ++ ((toString n).data ++ "\n\n".data) := rfl
      rw [h3] at h2
      simp at h2
    simpa [onProcessFinished, appendText] using hne

/-! ## C12: switching the shell while a child is running -/

theorem killAndWaitForFinished_fields (h : Host) (t : Terminal) :
    (killAndWaitForFinished h t).m_shellType = t.m_shellType ∧
    (killAndWaitForFinished h t).m_availableTerminals = t.m_availableTerminals ∧
    (killAndWaitForFinished h t).m_currentDirectory = t.m_currentDirectory := by
  unfold killAndWaitForFinished
  cases h.killedChildFinishesWithin 1000 <;> simp [onProcessFinished, appendText, emit]

theorem foldl_available (p : String → Bool) (l : List String) (acc : List String) :
    l.foldl (fun available terminal => if p terminal then available ++ [terminal] else available)
      acc = acc ++ l.filter p := by
  induction l generalizing acc with
  | nil => simp
  | cons a l ih =>
    rw [List.foldl_cons, ih]
    by_cases ha : p a = true
    · simp [ha, List.filter_cons]
    · simp [ha, List.filter_cons]

theorem detectAvailableTerminals_eq_filter (h : Host) :
    detectAvailableTerminals h = (candidateTerminals h.os).filter (isTerminalAvailable h) := by
  unfold detectAvailableTerminals
  rw [foldl_available]
  simp

theorem candidateTerminals_nodup (os : OsFamily) : (candidateTerminals os).Nodup := by
  cases os <;> decide

/-- C13: `detectAvailableTerminals` returns exactly the candidates of the platform (Windows cmd,
powershell, pwsh, msys2, mingw64, gitbash; macOS zsh, bash, fish; Linux bash, zsh, fish, dash)
for which `isTerminalAvailable` holds, in candidate order and without duplicates; the result is
an order-preserving sub-list of the candidate list. -/
theorem detectAvailableTerminals_candidates (h : Host) :
    candidateTerminals h.os =
      (match h.os with
       | OsFamily.windows => ["cmd", "powershell", "pwsh", "msys2", "mingw64", "gitbash"]
       | OsFamily.macos => ["zsh", "bash", "fish"]
       | OsFamily.linux => ["bash", "zsh", "fish", "dash"]) ∧
    detectAvailableTerminals h = (candidateTerminals h.os).filter (isTerminalAvailable h) ∧
    (∀ terminal, terminal ∈ detectAvailableTerminals h ↔
      terminal ∈ candidateTerminals h.os ∧ isTerminalAvailable h terminal = true) ∧
    (detectAvailableTerminals h).Nodup ∧
    (detectAvailableTerminals h).Sublist (candidateTerminals h.os) := by
  have hf := detectAvailableTerminals_eq_filter h
  refine ⟨?_, hf, ?_, ?_, ?_⟩
  · cases h.os <;> rfl
  · intro terminal
    rw [hf, List.mem_filter]
  · rw [hf]
    exact (candidateTerminals_nodup h.os).filter _
  · rw [hf]
    exact List.filter_sublist _

theorem resolved_is_known (h : Host) (terminalType : String)
    (hne : getTerminalExecutablePath h terminalType ≠ "") :
    (h.os = OsFamily.windows ∧
      terminalType ∈ ["cmd", "powershell", "pwsh", "msys2", "mingw64", "gitbash"]) ∨
    (h.os ≠ OsFamily.windows ∧ terminalType ∈ ["bash", "zsh", "fish", "dash"]) := by
  unfold getTerminalExecutablePath at hne
  by_cases hw : h.os = OsFamily.windows
  · left
    refine ⟨hw, ?_⟩
    simp only [hw, if_true, beq_iff_eq] at hne
    split_ifs at hne <;> simp_all
  · right
    refine ⟨hw, ?_⟩
    simp only [hw, if_false, beq_iff_eq] at hne
    split_ifs at hne <;> simp_all

theorem isTerminalAvailable_resolved (h : Host) (terminalType : String)
    (ha : isTerminalAvailable h terminalType = true) :
    getTerminalExecutablePath h terminalType ≠ "" := by
  intro he
  simp [isTerminalAvailable, he] at ha

/-- C14 as stated fails on macOS: there `dash` is no candidate, so it is never in the result of
`detectAvailableTerminals`, yet `isTerminalAvailable` resolves it like on Linux and answers true
when `dash` is installed. -/
theorem isTerminalAvailable_dash_counterexample :
    detectAvailableTerminals (macHost ["zsh", "bash", "dash"]) = ["zsh", "bash"] ∧
    "dash" ∉ detectAvailableTerminals (macHost ["zsh", "bash", "dash"]) ∧
    isTerminalAvailable (macHost ["zsh", "bash", "dash"]) "dash" = true := by
  decide

/-- C14 amended: for every identifier whatsoever other than `dash` on macOS, an identifier that
is not in the result of `detectAvailableTerminals` is not available according to
`isTerminalAvailable`. -/
theorem not_detected_not_available (h : Host) (terminalType : String)
    (hnot : terminalType ∉ detectAvailableTerminals h)
    (hdash : ¬ (h.os = OsFamily.macos ∧ terminalType = "dash")) :
    isTerminalAvailable h terminalType = false := by
  by_contra hav
  have ha : isTerminalAvailable h terminalType = true := by
    simpa using hav
  apply hnot
  rw [detectAvailableTerminals_eq_filter, List.mem_filter]
  refine ⟨?_, ha⟩
  rcases resolved_is_known h terminalType (isTerminalAvailable_resolved h terminalType ha) with
    ⟨hw, hm⟩ | ⟨hw, hm⟩
  · rw [hw]; exact hm
  · cases hos : h.os with
    | windows => exact absurd hos hw
    | macos =>
      simp only [List.mem_cons, List.mem_singleton, List.not_mem_nil, or_false] at hm
      rcases hm with rfl | rfl | rfl | rfl
      · decide
      · decide
      · decide
      · exact absurd ⟨hos, rfl⟩ hdash
    | linux => exact hm

/-- C14 amended, on a Linux host with only `bash` installed: `zsh` (a candidate), `custom`,
`cmd` (of another platform) are not detected and not available. -/
theorem not_detected_not_available_witness :
    "zsh" ∉ detectAvailableTerminals homeHost ∧
    isTerminalAvailable homeHost "zsh" = false ∧
    isTerminalAvailable homeHost "custom" = false ∧
    isTerminalAvailable homeHost "cmd" = false :=
  ⟨by decide,
   not_detected_not_available homeHost "zsh" (by decide) (by decide),
   not_detected_not_available homeHost "custom" (by decide) (by decide),
   not_detected_not_available homeHost "cmd" (by decide) (by decide)⟩

theorem firstExisting_eq_find (h : Host) (paths : List String) :
    firstExisting h paths = ((paths.find? fun path => h.fileExists path).getD "") := by
  induction paths with
  | nil => rfl
  | cons path rest ih =>
    by_cases hp : h.fileExists path = true
    · simp [firstExisting, hp, List.find?_cons]
    · simp [firstExisting, hp, List.find?_cons, ih]

theorem resolved_by_search (h : Host) (terminalType : String)
    (hfixed : ¬ (h.os = OsFamily.windows ∧ terminalType ∈ ["msys2", "mingw64", "gitbash"])) :
    getTerminalExecutablePath h terminalType = "" ∨
    ∃ name, getTerminalExecutablePath h terminalType = h.findExecutable name := by
  unfold getTerminalExecutablePath
  by_cases hw : h.os = OsFamily.windows
  · simp only [hw, if_true, beq_iff_eq]
    simp only [hw, true_and, List.mem_cons, List.mem_singleton, List.not_mem_nil, or_false,
      not_or] at hfixed
    split_ifs
    · exact Or.inr ⟨_, rfl⟩
    · exact Or.inr ⟨_, rfl⟩
    · exact Or.inr ⟨_, rfl⟩
    · exact absurd ‹_› hfixed.1
    · exact absurd ‹_› hfixed.2.1
    · exact absurd ‹_› hfixed.2.2
    · exact Or.inl rfl
  · simp only [hw, if_false, beq_iff_eq]
    split_ifs
    · exact Or.inr ⟨_, rfl⟩
    · exact Or.inr ⟨_, rfl⟩
    · exact Or.inr ⟨_, rfl⟩
    · exact Or.inr ⟨_, rfl⟩
    · exact Or.inl rfl

/-- C15 as stated fails for a fixed-location shell: on a Windows host where only
`C:/msys64/usr/bin/bash` exists and is not executable, `getTerminalExecutablePath` returns that
path for `msys2` (non-empty, the first that exists), yet `isTerminalAvailable` is false. -/
theorem isTerminalAvailable_msys2_counterexample :
    getTerminalExecutablePath (windowsHost ["C:/msys64/usr/bin/bash"] [] [] []) "msys2"
      = "C:/msys64/usr/bin/bash" ∧
    (windowsHost ["C:/msys64/usr/bin/bash"] [] [] []).isExecutable "C:/msys64/usr/bin/bash"
      = false ∧
    isTerminalAvailable (windowsHost ["C:/msys64/usr/bin/bash"] [] [] []) "msys2" = false := by
  decide

/-- C15 amended: `isTerminalAvailable` is true exactly when `getTerminalExecutablePath` returns
a non-empty path that exists and is executable; for the shells resolved by a search of the path,
where `QStandardPaths::findExecutable` only returns existing executables, that is exactly when
the path is non-empty; for the fixed-location shells (msys2, mingw64, gitbash on Windows) the
path returned is the first of the ordered well-known paths that exists, executable or not. -/
theorem isTerminalAvailable_iff (h : Host) (terminalType : String) :
    (isTerminalAvailable h terminalType = true ↔
      getTerminalExecutablePath h terminalType ≠ "" ∧
      h.fileExists (getTerminalExecutablePath h terminalType) = true ∧
      h.isExecutable (getTerminalExecutablePath h terminalType) = true) ∧
    ((∀ name, h.findExecutable name ≠ "" →
        h.fileExists (h.findExecutable name) = true ∧
        h.isExecutable (h.findExecutable name) = true) →
      ¬ (h.os = OsFamily.windows ∧ terminalType ∈ ["msys2", "mingw64", "gitbash"]) →
      (isTerminalAvailable h terminalType = true ↔
        getTerminalExecutablePath h terminalType ≠ "")) ∧
    (h.os = OsFamily.windows →
      getTerminalExecutablePath h "msys2" =
        ((["C:/msys64/usr/bin/bash.exe", "C:/msys64/usr/bin/bash"].find?
          fun path => h.fileExists path).getD "") ∧
      getTerminalExecutablePath h "mingw64" =
        ((["C:/msys64/mingw64/bin/bash.exe", "C:/msys64/mingw64/bin/bash"].find?
          fun path => h.fileExists path).getD "") ∧
      getTerminalExecutablePath h "gitbash" =
        ((["C:/Program Files/Git/bin/bash.exe", "C:/Program Files (x86)/Git/bin/bash.exe",
          "C:/Git/bin/bash.exe"].find? fun path => h.fileExists path).getD "")) := by
  have h1 : isTerminalAvailable h terminalType = true ↔
      getTerminalExecutablePath h terminalType ≠ "" ∧
      h.fileExists (getTerminalExecutablePath h terminalType) = true ∧
      h.isExecutable (getTerminalExecutablePath h terminalType) = true := by
    unfold isTerminalAvailable
    by_cases he : getTerminalExecutablePath h terminalType = ""
    · simp [he]
    · simp [he]
  refine ⟨h1, ?_, ?_⟩
  · intro hq hfixed
    rw [h1]
    constructor
    · exact fun hx => hx.1
    · intro hne
      rcases resolved_by_search h terminalType hfixed with he | ⟨name, he⟩
      · exact absurd he hne
      · rw [he] at hne ⊢
        exact ⟨hne, hq name hne⟩
  · intro hw
    refine ⟨?_, ?_, ?_⟩ <;>
      simp [getTerminalExecutablePath, hw, firstExisting_eq_find]

/-- C15 amended, on a Linux host with `bash` installed as `/usr/bin/bash`. -/
theorem isTerminalAvailable_iff_witness :
    getTerminalExecutablePath homeHost "bash" = "/usr/bin/bash" ∧
    isTerminalAvailable homeHost "bash" = true :=
  ⟨by decide,
   ((isTerminalAvailable_iff homeHost "bash").2.1 (by
      intro name hne
      by_cases hn : name = "bash"
      · subst hn; decide
      · exfalso; apply hne
        simp [homeHost, posixHost, hn])
    (by decide)).2 (by decide)⟩

/-! ## C16: the state after construction -/

theorem scheduleStartupCommands_fields (t : Terminal) (pieces : List String) :
    (scheduleStartupCommands t pieces).1.m_shellType = t.m_shellType ∧
    (scheduleStartupCommands t pieces).1.m_currentDirectory = t.m_currentDirectory ∧
    (scheduleStartupCommands t pieces).1.m_availableTerminals = t.m_availableTerminals ∧
    (scheduleStartupCommands t pieces).1.m_customShellPath = t.m_customShellPath ∧
    (scheduleStartupCommands t pieces).1.m_process = t.m_process := by
  induction pieces generalizing t with
  | nil => simp [scheduleStartupCommands]
  | cons cmd rest ih =>
    unfold scheduleStartupCommands
    by_cases hc : trimmed cmd = ""
    · simpa [hc] using ih t
    · simpa [hc, appendText] using ih (appendText t ("$ " ++ trimmed cmd ++ "\n"))

theorem loadTerminalSettings_fields (s : Settings) (t : Terminal) :
    (loadTerminalSettings s t).1.m_currentDirectory = t.m_currentDirectory ∧
    (loadTerminalSettings s t).1.m_shellType =
      (if s.terminalType ≠ "" ∧
          (s.terminalType ∈ t.m_availableTerminals ∨ s.terminalType = "custom") then
        s.terminalType
      else t.m_shellType) := by
  have key : ∀ u : Terminal,
      (if !(s.startupCommands == "") then
          scheduleStartupCommands u (splitSkipEmpty ';' s.startupCommands)
        else (u, [])).1.m_shellType = u.m_shellType ∧
      (if !(s.startupCommands == "") then
          scheduleStartupCommands u (splitSkipEmpty ';' s.startupCommands)
        else (u, [])).1.m_currentDirectory = u.m_currentDirectory := by
    intro u
    by_cases hs : s.startupCommands = ""
    · simp [hs]
    · have hb : (!(s.startupCommands == "")) = true := by simpa using hs
      rw [if_pos hb]
      exact ⟨(scheduleStartupCommands_fields u _).1, (scheduleStartupCommands_fields u _).2.1⟩
  unfold loadTerminalSettings
  simp only [appendText]
  constructor
  · rw [(key _).2]
    split_ifs <;> rfl
  · rw [(key _).1]
    by_cases hc : s.terminalType ≠ "" ∧
        (s.terminalType ∈ t.m_availableTerminals ∨ s.terminalType = "custom")
    · have hb : (!(s.terminalType == "") &&
          (t.m_availableTerminals.contains s.terminalType || s.terminalType == "custom")) = true := by
        simpa using hc
      rw [if_pos hb, if_pos hc]
    · have hb : ¬ ((!(s.terminalType == "") &&
          (t.m_availableTerminals.contains s.terminalType || s.terminalType == "custom")) = true) := by
        simpa using hc
      rw [if_neg hb, if_neg hc]

/-- C16 as stated fails: with `Terminal/Type` = `custom` in the settings store, the shell after
construction is `custom`, not the first detected shell `bash`. -/
theorem newTerminal_settings_counterexample :
    detectAvailableTerminals homeHost = ["bash"] ∧
    (newTerminal homeHost { defaultSettings with terminalType := "custom" }).1.m_shellType
      = "custom" := by
  decide

/-- C16 amended: after construction the working directory is the host home directory, and the
shell is the type stored under `Terminal/Type` when that is non-empty and is `custom` or a
member of the detected list; otherwise (in particular with nothing stored) it is the first
entry of `detectAvailableTerminals`, or the hardcoded default of the platform (cmd on Windows,
zsh on macOS, bash otherwise) when that list is empty. -/
theorem newTerminal_state (h : Host) (s : Settings) :
    (newTerminal h s).1.m_currentDirectory = h.homePath ∧
    (newTerminal h s).1.m_shellType =
      (if s.terminalType ≠ "" ∧
          (s.terminalType ∈ detectAvailableTerminals h ∨ s.terminalType = "custom") then
        s.terminalType
      else
        match (detectAvailableTerminals h).head? with
        | some first => first
        | none =>
          match h.os with
          | OsFamily.windows => "cmd"
          | OsFamily.macos => "zsh"
          | OsFamily.linux => "bash") := by
  have hinit : ∀ u : Terminal,
      (initializeTerminal h s u).1.m_currentDirectory = u.m_currentDirectory ∧
      (initializeTerminal h s u).1.m_shellType = u.m_shellType := by
    intro u
    unfold initializeTerminal
    cases s.clearOnStartup <;> simp [appendText, clear, updatePrompt]
  have hauto : ∀ u : Terminal,
      (autoDetectTerminal h u).m_currentDirectory = u.m_currentDirectory ∧
      (autoDetectTerminal h u).m_availableTerminals = detectAvailableTerminals h ∧
      (autoDetectTerminal h u).m_shellType =
        (match (detectAvailableTerminals h).head? with
        | some first => first
        | none =>
          match h.os with
          | OsFamily.windows => "cmd"
          | OsFamily.macos => "zsh"
          | OsFamily.linux => "bash") := by
    intro u
    unfold autoDetectTerminal
    cases hd : detectAvailableTerminals h with
    | nil => cases hos : h.os <;> simp [appendText, hos]
    | cons a l => simp [appendText]
  unfold newTerminal
  simp only []
  rw [(hinit _).1, (hinit _).2, (loadTerminalSettings_fields s _).1,
    (loadTerminalSettings_fields s _).2, (hauto _).1, (hauto _).2.1, (hauto _).2.2]
  refine ⟨?_, rfl⟩
  simp [setupUI, appendText, updatePrompt]

/-! ## C17, C18: program and arguments of the generic passthrough -/

theorem getShellExecutable_eq (h : Host) (t : Terminal) :
    getShellExecutable h t =
      (if t.m_shellType = "custom" ∧ t.m_customShellPath ≠ "" then t.m_customShellPath
       else getTerminalExecutablePath h t.m_shellType) := by
  unfold getShellExecutable
  by_cases hc : t.m_shellType = "custom" ∧ t.m_customShellPath ≠ ""
  · simp [hc.1, hc.2]
  · rw [if_neg hc]
    have hb : ¬ ((t.m_shellType == "custom" && !(t.m_customShellPath == "")) = true) := by
      simpa using hc
    rw [if_neg hb]

theorem systemCommandLine_resolved (h : Host) (t : Terminal) (c : String)
    (hres : getShellExecutable h t ≠ "") :
    systemCommandLine h t c = some (getShellExecutable h t,
      if t.m_shellType = "cmd" then ["/c", c]
      else if t.m_shellType = "powershell" ∨ t.m_shellType = "pwsh" then
        ["-NoProfile", "-Command", c]
      else ["-c", c]) := by
  rw [getShellExecutable_eq] at hres ⊢
  by_cases hcustom : t.m_shellType = "custom" ∧ t.m_customShellPath ≠ ""
  · simp [systemCommandLine, hcustom.1, hcustom.2]
  · rw [if_neg hcustom] at hres ⊢
    have hc2 : ¬ (t.m_shellType = "custom" ∧ ¬ t.m_customShellPath = "") := hcustom
    unfold systemCommandLine
    simp only [beq_iff_eq, Bool.and_eq_true, Bool.not_eq_true', beq_eq_false_iff_ne, ne_eq,
      hc2, hres, if_false, not_false_eq_true, if_true]
    by_cases h1 : t.m_shellType = "cmd"
    · simp [h1]
    · by_cases h2 : t.m_shellType = "powershell"
      · simp [h2]
      · by_cases h3 : t.m_shellType = "pwsh"
        · simp [h3]
        · simp [h1, h2, h3]

theorem systemCommandLine_direct (h : Host) (t : Terminal) (c : String)
    (hres : getShellExecutable h t = "") :
    systemCommandLine h t c =
      match splitSkipEmpty ' ' c with
      | [] => none
      | program :: args => some (program, args) := by
  rw [getShellExecutable_eq] at hres
  by_cases hcustom : t.m_shellType = "custom" ∧ t.m_customShellPath ≠ ""
  · rw [if_pos hcustom] at hres
    exact absurd hres hcustom.2
  · rw [if_neg hcustom] at hres
    have hc2 : ¬ (t.m_shellType = "custom" ∧ ¬ t.m_customShellPath = "") := hcustom
    unfold systemCommandLine
    simp only [beq_iff_eq, Bool.and_eq_true, Bool.not_eq_true', beq_eq_false_iff_ne, ne_eq,
      hc2, hres, if_false, not_true_eq_false]
    cases splitSkipEmpty ' ' c <;> simp

theorem executeSystemCommand_start (h : Host) (t : Terminal) (c program : String)
    (args : List String) (hl : systemCommandLine h t c = some (program, args))
    (hp : program ≠ "") :
    ∃ report : List String, (executeSystemCommand h t c).trace =
      t.trace ++ [Effect.processStart program args] ++ report.map Effect.appendText := by
  have hl2 : systemCommandLine h
      { t with m_process := { t.m_process with workingDirectory := t.m_currentDirectory } } c
      = some (program, args) := hl
  unfold executeSystemCommand
  simp only [hl2]
  have hpb : (program == "") = false := by simpa using hp
  simp only [hpb, Bool.false_eq_true, if_false]
  split
  · refine ⟨["Failed to execute command: " ++ c ++ "\n", "Program: " ++ program ++ "\n",
      "Arguments: " ++ join " " args ++ "\n", "Shell type: " ++ t.m_shellType ++ "\n",
      "Shell executable: " ++ getTerminalExecutablePath h t.m_shellType ++ "\n",
      "Make sure the command is installed and in PATH\n\n"], ?_⟩
    simp [appendText, emit]
  · exact ⟨[], by simp [emit]⟩

theorem splitChars_pieces (sep : Char) (l cur : List Char) :
    ∀ piece ∈ splitChars sep l cur, piece ≠ [] := by
  induction l generalizing cur with
  | nil =>
    intro piece hp
    unfold splitChars at hp
    by_cases hc : cur = []
    · simp [hc] at hp
    · simp [hc] at hp
      rw [hp]
      simpa using hc
  | cons a l ih =>
    intro piece hp
    unfold splitChars at hp
    by_cases ha : a = sep
    · by_cases hc : cur = []
      · simp [ha, hc] at hp
        exact ih [] piece hp
      · simp [ha, hc] at hp
        rcases hp with hp | hp
        · rw [hp]; simpa using hc
        · exact ih [] piece hp
    · simp [ha] at hp
      exact ih (a :: cur) piece hp

theorem splitSkipEmpty_tokens (sep : Char) (s : String) :
    ∀ token ∈ splitSkipEmpty sep s, token ≠ "" := by
  intro token ht
  unfold splitSkipEmpty at ht
  obtain ⟨piece, hp, rfl⟩ := List.mem_map.1 ht
  intro he
  have := splitChars_pieces sep s.data [] piece hp
  apply this
  simpa [String.ext_iff] using he

/-- C17 as stated fails: with shell `bash` not found on the search path, and with shell `custom`
and an empty custom path, the program that `executeSystemCommand` asks to start for the line
`ls -la` is `ls`, the first token of the command line. -/
theorem executeSystemCommand_program_counterexample :
    getShellExecutable (posixHost ["/", "/home", "/home/user"] (fun _ => []) [] [])
      { terminalWith "/home/user" "bash" "" idleProcess with m_availableTerminals := [] } = "" ∧
    (executeSystemCommand (posixHost ["/", "/home", "/home/user"] (fun _ => []) [] [])
      { terminalWith "/home/user" "bash" "" idleProcess with m_availableTerminals := [] }
      "ls -la").trace = [Effect.processStart "ls" ["-la"]] ∧
    (executeSystemCommand homeHost
      { terminalWith "/home/user" "custom" "" idleProcess with
        m_customShellPath := "", m_availableTerminals := ["bash"] }
      "ls -la").trace = [Effect.processStart "ls" ["-la"]] := by
  decide

/-- C17 amended: for a line routed to the generic passthrough, when the shell is `custom` with
a non-empty custom path the program asked to start is that path; otherwise, when
`getTerminalExecutablePath` resolves the shell to a non-empty path, it is that path (in both
cases the value of `getShellExecutable`, never a token of the line); when no executable is
resolved, it is the first space-separated token of the command line. -/
theorem executeSystemCommand_program (h : Host) (t : Terminal) (c : String) :
    (t.m_shellType = "custom" → t.m_customShellPath ≠ "" →
      ∃ (args : List String) (report : List String), (executeSystemCommand h t c).trace =
        t.trace ++ [Effect.processStart t.m_customShellPath args] ++
          report.map Effect.appendText) ∧
    (¬ (t.m_shellType = "custom" ∧ t.m_customShellPath ≠ "") →
      getTerminalExecutablePath h t.m_shellType ≠ "" →
      ∃ (args : List String) (report : List String), (executeSystemCommand h t c).trace =
        t.trace ++ [Effect.processStart (getTerminalExecutablePath h t.m_shellType) args] ++
          report.map Effect.appendText) ∧
    (¬ (t.m_shellType = "custom" ∧ t.m_customShellPath ≠ "") →
      getTerminalExecutablePath h t.m_shellType = "" →
      ∀ (program : String) (args : List String), splitSkipEmpty ' ' c = program :: args →
        ∃ report : List String, (executeSystemCommand h t c).trace =
          t.trace ++ [Effect.processStart program args] ++ report.map Effect.appendText) := by
  refine ⟨?_, ?_, ?_⟩
  · intro hc hp
    have hs : getShellExecutable h t = t.m_customShellPath := by
      rw [getShellExecutable_eq, if_pos ⟨hc, hp⟩]
    have hl := systemCommandLine_resolved h t c (by rw [hs]; exact hp)
    rw [hs] at hl
    exact ⟨_, executeSystemCommand_start h t c _ _ hl hp⟩
  · intro hc hp
    have hs : getShellExecutable h t = getTerminalExecutablePath h t.m_shellType := by
      rw [getShellExecutable_eq, if_neg hc]
    have hl := systemCommandLine_resolved h t c (by rw [hs]; exact hp)
    rw [hs] at hl
    exact ⟨_, executeSystemCommand_start h t c _ _ hl hp⟩
  · intro hc hp program args htok
    have hprog : program ≠ "" :=
      splitSkipEmpty_tokens ' ' c program (by rw [htok]; exact List.mem_cons_self _ _)
    have hs : getShellExecutable h t = "" := by
      rw [getShellExecutable_eq, if_neg hc]; exact hp
    have hl := systemCommandLine_direct h t c hs
    rw [htok] at hl
    exact executeSystemCommand_start h t c _ _ hl hprog

/-- C17 amended, at shell `custom` with custom path `/opt/sh` and the line `ls -la`: the
program asked to start is `/opt/sh`. -/
theorem executeSystemCommand_program_witness :
    (∃ (args : List String) (report : List String),
      (executeSystemCommand homeHost
        { terminalWith "/home/user" "custom" "" idleProcess with m_customShellPath := "/opt/sh" }
        "ls -la").trace =
      [] ++ [Effect.processStart "/opt/sh" args] ++ report.map Effect.appendText) ∧
    (executeSystemCommand homeHost
      { terminalWith "/home/user" "custom" "" idleProcess with m_customShellPath := "/opt/sh" }
      "ls -la").trace = [Effect.processStart "/opt/sh" ["-c", "ls -la"]] :=
  ⟨(executeSystemCommand_program homeHost
    { terminalWith "/home/user" "custom" "" idleProcess with m_customShellPath := "/opt/sh" }
    "ls -la").1 rfl (by decide), by decide⟩

/-- C18 as stated fails: for the same shell `bash` and the same line `ls -la` the argument
vector is `["-c", "ls -la"]` on a host where `bash` is found and `["-la"]` on a host where it is
not; for the same shell `custom` it is `["-c", "ls -la"]` with custom path `/opt/sh` and
`["-la"]` with an empty custom path. -/
theorem systemCommandLine_not_pure_counterexample :
    (systemCommandLine homeHost (terminalWith "/home/user" "bash" "" idleProcess) "ls -la").map
      Prod.snd = some ["-c", "ls -la"] ∧
    (systemCommandLine (posixHost ["/", "/home", "/home/user"] (fun _ => []) [] [])
      (terminalWith "/home/user" "bash" "" idleProcess) "ls -la").map Prod.snd = some ["-la"] ∧
    (systemCommandLine homeHost
      { terminalWith "/home/user" "custom" "" idleProcess with m_customShellPath := "/opt/sh" }
      "ls -la").map Prod.snd = some ["-c", "ls -la"] ∧
    (systemCommandLine homeHost
      { terminalWith "/home/user" "custom" "" idleProcess with m_customShellPath := "" }
      "ls -la").map Prod.snd = some ["-la"] := by
  decide

/-- C18 amended: for two session states with the same shell identifier and the same command
line that agree on whether a shell executable is resolved (`getShellExecutable` non-empty),
`executeSystemCommand` builds the same argument vector, whatever else differs in the custom
path and the filesystem; and where an executable is resolved it builds one for every
identifier. -/
theorem argument_vector_determined (h1 h2 : Host) (t1 t2 : Terminal) (c : String)
    (hshell : t1.m_shellType = t2.m_shellType)
    (hres : getShellExecutable h1 t1 = "" ↔ getShellExecutable h2 t2 = "") :
    (systemCommandLine h1 t1 c).map Prod.snd = (systemCommandLine h2 t2 c).map Prod.snd ∧
    (getShellExecutable h1 t1 ≠ "" → (systemCommandLine h1 t1 c).isSome = true) := by
  constructor
  · by_cases hr : getShellExecutable h1 t1 = ""
    · rw [systemCommandLine_direct h1 t1 c hr, systemCommandLine_direct h2 t2 c (hres.1 hr)]
    · have hr2 : getShellExecutable h2 t2 ≠ "" := fun hx => hr (hres.2 hx)
      rw [systemCommandLine_resolved h1 t1 c hr, systemCommandLine_resolved h2 t2 c hr2, hshell]
      rfl
  · intro hr
    rw [systemCommandLine_resolved h1 t1 c hr]
    rfl

/-- C18 amended, at shell `bash` found on two hosts with different filesystems and different
custom paths. -/
theorem argument_vector_determined_witness :
    (systemCommandLine homeHost (terminalWith "/home/user" "bash" "" idleProcess) "ls -la").map
      Prod.snd =
    (systemCommandLine (macHost ["zsh", "bash"])
      { terminalWith "/Users/user" "bash" "" idleProcess with m_customShellPath := "/opt/sh" }
      "ls -la").map Prod.snd :=
  (argument_vector_determined homeHost (macHost ["zsh", "bash"])
    (terminalWith "/home/user" "bash" "" idleProcess)
    { terminalWith "/Users/user" "bash" "" idleProcess with m_customShellPath := "/opt/sh" }
    "ls -la" rfl (by decide)).1

/-! ## C19, C20: the process environment -/

theorem executeBuildCommand_environment (h : Host) (t : Terminal) (command : String) :
    (executeBuildCommand h t command).m_process.environment =
      buildCommandEnvironment h t.m_shellType := by
  cases hs : t.m_process.state
  · cases hc : h.canStart ((splitSkipEmpty ' ' command).head?.getD "")
        (splitSkipEmpty ' ' command).tail t.m_currentDirectory <;>
      simp [executeBuildCommand, QProcess.start, QProcess.waitForStarted, emit, appendText,
        hs, hc]
  · cases hc : h.canStart t.m_process.program t.m_process.arguments t.m_currentDirectory <;>
      simp [executeBuildCommand, QProcess.start, QProcess.waitForStarted, emit, appendText,
        hs, hc]
  · simp [executeBuildCommand, QProcess.start, QProcess.waitForStarted, emit, appendText, hs]

theorem executeGitCommand_environment (h : Host) (t : Terminal) (command : String) :
    (executeGitCommand h t command).m_process.environment = t.m_process.environment := by
  cases hs : t.m_process.state
  · cases hc : h.canStart "git" (splitSkipEmpty ' ' command).tail t.m_currentDirectory <;>
      simp [executeGitCommand, QProcess.start, QProcess.waitForStarted, emit, appendText,
        hs, hc]
  · cases hc : h.canStart t.m_process.program t.m_process.arguments t.m_currentDirectory <;>
      simp [executeGitCommand, QProcess.start, QProcess.waitForStarted, emit, appendText,
        hs, hc]
  · simp [executeGitCommand, QProcess.start, QProcess.waitForStarted, emit, appendText, hs]

/-- C19 as stated fails: on Linux with shell `bash` the environment of a `cmake` passthrough is
the inherited one, while the generic passthrough prepends `/usr/local/bin:/usr/bin:/bin` to
PATH; a `git` passthrough sets no environment at all; on Windows with shell `msys2` the build
passthrough keeps the slashes and sets MSYSTEM, the generic one does neither. -/
theorem passthrough_environment_counterexample :
    (executeBuildCommand homeHost (terminalWith "/home/user" "bash" "" idleProcess)
      "cmake --version").m_process.environment =
      [("HOME", "/home/user"), ("PATH", "/usr/bin:/bin")] ∧
    (executeGitCommand homeHost (terminalWith "/home/user" "bash" "" idleProcess)
      "git status").m_process.environment = [] ∧
    systemCommandEnvironment homeHost "bash" =
      [("HOME", "/home/user"), ("PATH", "/usr/local/bin:/usr/bin:/bin:/usr/bin:/bin")] ∧
    buildCommandEnvironment (windowsHost [] [] [] [("Path", "C:/tools")]) "msys2" =
      [("Path", "C:/msys64/usr/bin;C:/msys64/mingw64/bin;C:/tools"), ("MSYSTEM", "MSYS")] ∧
    systemCommandEnvironment (windowsHost [] [] [] [("Path", "C:/tools")]) "msys2" =
      [("Path", replaceChar "C:/msys64/usr/bin;C:/msys64/mingw64/bin;C:/tools" '/'
        (Char.ofNat 92))] := by
  decide

/-- C19 amended: for every shell identifier for which the generic passthrough adds no search
paths (on Windows all but msys2, mingw64, gitbash; elsewhere all but bash, zsh, fish, dash), the
environment of a cmake, ninja or make passthrough equals the one the generic passthrough
builds: both are the inherited environment. A git passthrough sets no environment: the process
object keeps the environment it had. -/
theorem passthrough_environment (h : Host) (t : Terminal) (command : String) :
    (additionalPaths h t.m_shellType = [] →
      (executeBuildCommand h t command).m_process.environment =
        systemCommandEnvironment h t.m_shellType ∧
      systemCommandEnvironment h t.m_shellType = h.systemEnvironment) ∧
    (executeGitCommand h t command).m_process.environment = t.m_process.environment := by
  refine ⟨?_, executeGitCommand_environment h t command⟩
  intro hp
  have hsys : systemCommandEnvironment h t.m_shellType = h.systemEnvironment := by
    simp [systemCommandEnvironment, hp]
  refine ⟨?_, hsys⟩
  rw [executeBuildCommand_environment, hsys]
  unfold buildCommandEnvironment
  by_cases hw : h.os = OsFamily.windows
  · simp only [hw, if_true]
    unfold additionalPaths at hp
    simp only [hw, if_true] at hp
    by_cases h1 : t.m_shellType = "msys2"
    · simp [h1] at hp
    · by_cases h2 : t.m_shellType = "mingw64"
      · simp [h2] at hp
      · simp [h1, h2]
  · simp [hw]

/-- C19 amended, at shell `custom` on Linux: the `make` passthrough and the generic passthrough
both use the inherited environment. -/
theorem passthrough_environment_witness :
    (executeBuildCommand homeHost (terminalWith "/home/user" "custom" "" idleProcess)
      "make all").m_process.environment = systemCommandEnvironment homeHost "custom" ∧
    systemCommandEnvironment homeHost "custom" =
      [("HOME", "/home/user"), ("PATH", "/usr/bin:/bin")] :=
  (passthrough_environment homeHost (terminalWith "/home/user" "custom" "" idleProcess)
    "make all").1 (by decide)

theorem sameVariable_refl (os : OsFamily) (a : String) : sameVariable os a a = true := by
  unfold sameVariable
  split_ifs <;> simp

theorem sameVariable_false_of (os : OsFamily) (a m n : String)
    (hmn : sameVariable os m n = false) (han : sameVariable os a n = true) :
    sameVariable os a m = false := by
  unfold sameVariable at *
  by_cases hw : os = OsFamily.windows
  · simp only [hw, if_true, beq_iff_eq, beq_eq_false_iff_ne, ne_eq] at *
    rw [han]
    exact fun hx => hmn hx.symm
  · simp only [hw, if_false, beq_iff_eq, beq_eq_false_iff_ne, ne_eq] at *
    rw [han]
    exact fun hx => hmn hx.symm

theorem value_insert_same (os : OsFamily) (env : QProcessEnvironment) (n v : String) :
    (env.insert os n v).value os n = v := by
  unfold QProcessEnvironment.insert QProcessEnvironment.value
  by_cases hany : (env.any fun p => sameVariable os p.1 n) = true
  · rw [if_pos hany]
    induction env with
    | nil => simp at hany
    | cons p rest ih =>
      by_cases hp : sameVariable os p.1 n = true
      · simp [List.find?_cons, hp]
      · have hr : (rest.any fun p => sameVariable os p.1 n) = true := by
          simpa [hp] using hany
        simpa [List.find?_cons, hp] using ih hr
  · rw [if_neg hany]
    have hnone : (env.find? fun p => sameVariable os p.1 n) = none := by
      rw [List.find?_eq_none]
      intro p hp hs
      apply hany
      rw [List.any_eq_true]
      exact ⟨p, hp, hs⟩
    simp [List.find?_append, hnone, sameVariable_refl]

theorem value_insert_other (os : OsFamily) (env : QProcessEnvironment) (m n v : String)
    (hmn : sameVariable os m n = false) :
    (env.insert os n v).value os m = env.value os m := by
  have hnm : sameVariable os n m = false := by
    cases hx : sameVariable os n m
    · rfl
    · have := sameVariable_false_of os n m n hmn (sameVariable_refl os n)
      rw [this] at hx
      exact absurd hx (by decide)
  unfold QProcessEnvironment.insert QProcessEnvironment.value
  by_cases hany : (env.any fun p => sameVariable os p.1 n) = true
  · rw [if_pos hany]
    clear hany
    induction env with
    | nil => rfl
    | cons p rest ih =>
      by_cases hp : sameVariable os p.1 n = true
      · have hpm : sameVariable os p.1 m = false := sameVariable_false_of os p.1 m n hmn hp
        simpa [List.find?_cons, hp, hpm] using ih
      · by_cases hpm : sameVariable os p.1 m = true
        · simp [List.find?_cons, hp, hpm]
        · simpa [List.find?_cons, hp, hpm] using ih
  · rw [if_neg hany]
    rw [List.find?_append]
    cases hf : env.find? fun p => sameVariable os p.1 m with
    | none => simp [hnm]
    | some p => simp

/-- C20 as stated fails on Windows: for `msys2` with inherited PATH `C:/tools`, the PATH built
is not the additional paths, a separator and the inherited value unchanged: every `/` of the
whole string, the inherited value included, is replaced by a backslash. -/
theorem systemCommandEnvironment_counterexample :
    additionalPaths (windowsHost [] [] [] [("Path", "C:/tools"), ("TEMP", "C:/Temp")]) "msys2" =
      ["C:/msys64/usr/bin", "C:/msys64/mingw64/bin"] ∧
    QProcessEnvironment.value [("Path", "C:/tools"), ("TEMP", "C:/Temp")] OsFamily.windows "PATH"
      = "C:/tools" ∧
    (systemCommandEnvironment (windowsHost [] [] [] [("Path", "C:/tools"), ("TEMP", "C:/Temp")])
      "msys2").value OsFamily.windows "PATH" =
      replaceChar "C:/msys64/usr/bin;C:/msys64/mingw64/bin;C:/tools" '/' (Char.ofNat 92) ∧
    (systemCommandEnvironment (windowsHost [] [] [] [("Path", "C:/tools"), ("TEMP", "C:/Temp")])
      "msys2").value OsFamily.windows "PATH" ≠
      "C:/msys64/usr/bin;C:/msys64/mingw64/bin" ++ ";" ++ "C:/tools" := by
  decide

/-- C20 amended: for an identifier with additional search paths, the PATH of the environment
built for a generic passthrough is, off Windows, those paths joined by `:`, then `:`, then the
inherited PATH value unchanged; on Windows it is those paths joined by `;`, then `;`, then the
inherited PATH value, with every `/` of the whole string replaced by a backslash. Every other
inherited variable is unchanged, and for identifiers without additional paths the whole
environment is the inherited one. -/
theorem systemCommandEnvironment_path (h : Host) (shellType : String) :
    (additionalPaths h shellType ≠ [] →
      (systemCommandEnvironment h shellType).value h.os "PATH" =
        (if h.os = OsFamily.windows then
          replaceChar (join ";" (additionalPaths h shellType) ++ ";" ++
            h.systemEnvironment.value h.os "PATH") '/' (Char.ofNat 92)
        else join ":" (additionalPaths h shellType) ++ ":" ++
          h.systemEnvironment.value h.os "PATH") ∧
      ∀ name, sameVariable h.os name "PATH" = false →
        (systemCommandEnvironment h shellType).value h.os name =
          h.systemEnvironment.value h.os name) ∧
    (additionalPaths h shellType = [] →
      systemCommandEnvironment h shellType = h.systemEnvironment) := by
  constructor
  · intro hp
    have hb : (!(additionalPaths h shellType).isEmpty) = true := by
      cases hl : additionalPaths h shellType with
      | nil => exact absurd hl hp
      | cons a l => rfl
    unfold systemCommandEnvironment
    simp only [hb, if_true]
    exact ⟨value_insert_same _ _ _ _, fun name hn => value_insert_other _ _ _ _ _ hn⟩
  · intro hp
    simp [systemCommandEnvironment, hp]

/-- C20 amended, at shell `bash` on Linux with inherited PATH `/usr/bin:/bin`. -/
theorem systemCommandEnvironment_path_witness :
    additionalPaths homeHost "bash" = ["/usr/local/bin", "/usr/bin", "/bin"] ∧
    (systemCommandEnvironment homeHost "bash").value OsFamily.linux "PATH" =
      "/usr/local/bin:/usr/bin:/bin:/usr/bin:/bin" ∧
    (systemCommandEnvironment homeHost "bash").value OsFamily.linux "HOME" = "/home/user" :=
  ⟨by decide,
   ((systemCommandEnvironment_path homeHost "bash").1 (by decide)).1,
   ((systemCommandEnvironment_path homeHost "bash").1 (by decide)).2 "HOME" (by decide)⟩

/-! ## C21: MSYSTEM -/

theorem msystem_not_path (os : OsFamily) : sameVariable os "MSYSTEM" "PATH" = false := by
  cases os <;> decide

/-- C21 as stated fails: on Windows with shell `msys2` (and likewise `mingw64`) and no MSYSTEM
inherited, the environment built for a generic shell passthrough has no MSYSTEM; only PATH is
touched. -/
theorem generic_msystem_counterexample :
    (systemCommandEnvironment (windowsHost [] [] [] [("Path", "C:/tools")])
      "msys2").value OsFamily.windows "MSYSTEM" = "" ∧
    (systemCommandEnvironment (windowsHost [] [] [] [("Path", "C:/tools")])
      "mingw64").value OsFamily.windows "MSYSTEM" = "" ∧
    (systemCommandEnvironment (windowsHost [] [] [] [("Path", "C:/tools")]) "msys2").map Prod.fst
      = ["Path"] := by
  decide

/-- C21 amended: for the identifiers msys2 and mingw64 on Windows, the environment built for a
cmake, ninja or make passthrough sets MSYSTEM to the subsystem tag of the identifier (MSYS for
msys2, MINGW64 for mingw64); the environment built for a generic shell passthrough leaves
MSYSTEM as inherited, for every identifier. -/
theorem msystem_set_by_build_only (h : Host) :
    (h.os = OsFamily.windows →
      (buildCommandEnvironment h "msys2").value h.os "MSYSTEM" = "MSYS" ∧
      (buildCommandEnvironment h "mingw64").value h.os "MSYSTEM" = "MINGW64") ∧
    (∀ shellType, (systemCommandEnvironment h shellType).value h.os "MSYSTEM" =
      h.systemEnvironment.value h.os "MSYSTEM") := by
  constructor
  · intro hw
    constructor
    · simp only [buildCommandEnvironment, hw, if_true]
      exact value_insert_same _ _ _ _
    · have hne : ("mingw64" == "msys2") = false := by decide
      simp only [buildCommandEnvironment, hw, if_true, hne]
      exact value_insert_same _ _ _ _
  · intro shellType
    unfold systemCommandEnvironment
    simp only []
    split
    · exact value_insert_other _ _ _ _ _ (msystem_not_path h.os)
    · rfl

/-- C21 amended, on a Windows host with inherited `Path` = `C:/tools`. -/
theorem msystem_set_by_build_only_witness :
    (buildCommandEnvironment (windowsHost [] [] [] [("Path", "C:/tools")]) "msys2").value
      OsFamily.windows "MSYSTEM" = "MSYS" ∧
    (buildCommandEnvironment (windowsHost [] [] [] [("Path", "C:/tools")]) "mingw64").value
      OsFamily.windows "MSYSTEM" = "MINGW64" :=
  (msystem_set_by_build_only (windowsHost [] [] [] [("Path", "C:/tools")])).1 rfl

/-! ## C22: the fileSystemChanged notification -/

/-- C22 as stated fails: on a host where `touch a/b/c.txt` creates the directories `a/b` but
cannot create the file, the filesystem has changed (`/home/user/a/b` exists afterwards) and no
`fileSystemChanged` is emitted: only the echo, the failure report and a blank line appear. -/
theorem touch_without_notification_counterexample :
    homeHost.dirExists "/home/user/a/b" = false ∧
    (executeCommand posixOps homeHost
      (terminalWith "/home/user" "bash" "touch a/b/c.txt" idleProcess)).1.dirExists
        "/home/user/a/b" = true ∧
    (executeCommand posixOps homeHost
      (terminalWith "/home/user" "bash" "touch a/b/c.txt" idleProcess)).2.trace =
      [Effect.appendText "user@qtcide:user$  touch a/b/c.txt\n",
       Effect.appendText "Failed to create file: a/b/c.txt\n",
       Effect.appendText "\n"] := by
  decide

/-- C22 amended: `fileSystemChanged` is emitted exactly when the operation itself reports
success: `mkdir` when `mkpath` returns true, `touch` when the file can be opened for writing
(whatever the creation of intermediate directories did), `rm`/`del` when `remove` returns true,
`rmdir` when `removeRecursively` returns true; on failure only the failure report and a blank
line are appended. -/
theorem fileSystemChanged_on_success (ops : HostOps) (h : Host) (t : Terminal) (name : String) :
    (createDirectory ops h t name).2.trace = t.trace ++
      (if (ops.mkpath h (h.absoluteFilePath t.m_currentDirectory name)).1 = true then
        [Effect.appendText ("Directory created: " ++ name ++ "\n"), Effect.fileSystemChanged,
         Effect.appendText "\n"]
      else
        [Effect.appendText ("Failed to create directory: " ++ name ++ "\n"),
         Effect.appendText "\n"]) ∧
    (createFile ops h t name).2.trace = t.trace ++
      (if (ops.openWriteOnly
          (ops.mkpath h (h.parentDir (h.absoluteFilePath t.m_currentDirectory name))).2
          (h.absoluteFilePath t.m_currentDirectory name)).1 = true then
        [Effect.appendText ("File created: " ++ name ++ "\n"), Effect.fileSystemChanged,
         Effect.appendText "\n"]
      else
        [Effect.appendText ("Failed to create file: " ++ name ++ "\n"),
         Effect.appendText "\n"]) ∧
    (deleteFile ops h t name).2.trace = t.trace ++
      (if (ops.remove h (h.absoluteFilePath t.m_currentDirectory name)).1 = true then
        [Effect.appendText ("File deleted: " ++ name ++ "\n"), Effect.fileSystemChanged,
         Effect.appendText "\n"]
      else
        [Effect.appendText ("Failed to delete file: " ++ name ++ "\n"),
         Effect.appendText "\n"]) ∧
    (deleteDirectory ops h t name).2.trace = t.trace ++
      (if (ops.removeRecursively h (h.absoluteFilePath t.m_currentDirectory name)).1 = true then
        [Effect.appendText ("Directory deleted: " ++ name ++ "\n"), Effect.fileSystemChanged,
         Effect.appendText "\n"]
      else
        [Effect.appendText ("Failed to delete directory: " ++ name ++ "\n"),
         Effect.appendText "\n"]) := by
  refine ⟨?_, ?_, ?_, ?_⟩
  · unfold createDirectory
    cases hr : (ops.mkpath h (h.absoluteFilePath t.m_currentDirectory name)).1 <;>
      simp [hr, appendText, emit] <;> rfl
  · unfold createFile
    cases hr : (ops.openWriteOnly
        (ops.mkpath h (h.parentDir (h.absoluteFilePath t.m_currentDirectory name))).2
        (h.absoluteFilePath t.m_currentDirectory name)).1 <;>
      simp [hr, appendText, emit] <;> rfl
  · unfold deleteFile
    cases hr : (ops.remove h (h.absoluteFilePath t.m_currentDirectory name)).1 <;>
      simp [hr, appendText, emit] <;> rfl
  · unfold deleteDirectory
    cases hr : (ops.removeRecursively h (h.absoluteFilePath t.m_currentDirectory name)).1 <;>
      simp [hr, appendText, emit] <;> rfl

/-! ## C23: the working directory is absolute -/

theorem initializeTerminal_fields (h : Host) (s : Settings) (u : Terminal) :
    (initializeTerminal h s u).1.m_currentDirectory = u.m_currentDirectory ∧
    (initializeTerminal h s u).1.m_shellType = u.m_shellType ∧
    (initializeTerminal h s u).1.m_availableTerminals = u.m_availableTerminals := by
  unfold initializeTerminal
  cases s.clearOnStartup <;> simp [appendText, clear, updatePrompt]

theorem autoDetectTerminal_fields (h : Host) (u : Terminal) :
    (autoDetectTerminal h u).m_currentDirectory = u.m_currentDirectory ∧
    (autoDetectTerminal h u).m_availableTerminals = detectAvailableTerminals h ∧
    (autoDetectTerminal h u).m_shellType =
      (match (detectAvailableTerminals h).head? with
      | some first => first
      | none =>
        match h.os with
        | OsFamily.windows => "cmd"
        | OsFamily.macos => "zsh"
        | OsFamily.linux => "bash") := by
  unfold autoDetectTerminal
  cases hd : detectAvailableTerminals h with
  | nil => cases hos : h.os <;> simp [appendText, hos]
  | cons a l => simp [appendText]

theorem newTerminal_currentDirectory (h : Host) (s : Settings) :
    (newTerminal h s).1.m_currentDirectory = h.homePath := by
  unfold newTerminal
  simp only []
  rw [(initializeTerminal_fields h s _).1, (loadTerminalSettings_fields s _).1,
    (autoDetectTerminal_fields h _).1]
  simp [setupUI, appendText, updatePrompt]

theorem changeDirectoryDone_currentDirectory (h : Host) (t : Terminal) :
    (changeDirectoryDone h t).m_currentDirectory = t.m_currentDirectory := by
  simp [changeDirectoryDone, emit, updatePrompt, appendText]

/-- C23 as stated fails for `setCurrentDirectory`: with the relative argument `build`, which
exists as a directory, the working directory becomes the relative path `build`. -/
theorem setCurrentDirectory_relative_counterexample :
    (posixHost ["/", "/home", "/home/user", "build"] (fun _ => []) [] ["bash"]).dirExists "build"
      = true ∧
    (posixHost ["/", "/home", "/home/user", "build"] (fun _ => []) [] ["bash"]).isAbsolutePath
      "build" = false ∧
    (setCurrentDirectory (posixHost ["/", "/home", "/home/user", "build"] (fun _ => []) [] ["bash"])
      (terminalWith "/home/user" "bash" "" idleProcess) "build").m_currentDirectory = "build" := by
  decide

/-- C23 amended: on a host where `QDir::homePath()`, `QDir::absolutePath()` and the directory
after a successful `cdUp()` are absolute (as Qt documents them), the working directory is
absolute after construction, and from an absolute working directory `cd` with `..`, `~`, an
absolute or a relative argument, and `setCurrentDirectory` with an absolute argument or one that
does not exist, leave it absolute; `setCurrentDirectory` with an argument that exists as a
directory assigns the argument as it is, also when it is relative. -/
theorem workingDirectory_absolute (h : Host) (s : Settings) (t : Terminal)
    (hhome : h.isAbsolutePath h.homePath = true)
    (habs : ∀ path, h.isAbsolutePath (h.absolutePath path) = true)
    (hup : ∀ dir parent, h.cdUp dir = some parent → h.isAbsolutePath parent = true)
    (ht : h.isAbsolutePath t.m_currentDirectory = true) :
    h.isAbsolutePath (newTerminal h s).1.m_currentDirectory = true ∧
    (∀ path, h.isAbsolutePath (changeDirectory h t path).m_currentDirectory = true) ∧
    (∀ path, h.isAbsolutePath path = true ∨ h.dirExists path = false →
      h.isAbsolutePath (setCurrentDirectory h t path).m_currentDirectory = true) ∧
    (∀ path, h.dirExists path = true →
      (setCurrentDirectory h t path).m_currentDirectory = path) := by
  refine ⟨?_, ?_, ?_, ?_⟩
  · rw [newTerminal_currentDirectory]; exact hhome
  · intro path
    unfold changeDirectory
    simp only []
    by_cases h1 : (path == "..") = true
    · rw [if_pos h1]
      cases hc : h.cdUp t.m_currentDirectory with
      | none => simpa [changeDirectoryDone_currentDirectory] using ht
      | some parent => simpa [changeDirectoryDone_currentDirectory] using hup _ _ hc
    · rw [if_neg h1]
      by_cases h2 : (path == "~") = true
      · rw [if_pos h2]
        simpa [changeDirectoryDone_currentDirectory] using hhome
      · rw [if_neg h2]
        generalize (if (!h.isAbsolutePath path) = true then
          h.absoluteFilePath t.m_currentDirectory path else path) = newPath
        by_cases he : h.dirExists newPath = true
        · rw [if_pos he]
          simpa [changeDirectoryDone_currentDirectory] using habs _
        · rw [if_neg he]
          simpa [updatePrompt, appendText] using ht
  · intro path hp
    unfold setCurrentDirectory
    by_cases he : h.dirExists path = true
    · rcases hp with hp | hp
      · simpa [he, emit, updatePrompt] using hp
      · rw [he] at hp; exact absurd hp (by decide)
    · simpa [he] using ht
  · intro path he
    simp [setCurrentDirectory, he, emit, updatePrompt]

theorem startsWith_slash (rest : String) : startsWith ("/" ++ rest) "/" = true := by
  obtain ⟨l⟩ := rest
  simp [startsWith]

theorem homeHost_contract :
    (∀ path, homeHost.isAbsolutePath (homeHost.absolutePath path) = true) ∧
    (∀ dir parent, homeHost.cdUp dir = some parent → homeHost.isAbsolutePath parent = true) := by
  constructor
  · intro path
    simp only [homeHost, posixHost]
    by_cases hp : startsWith path "/" = true
    · simp [hp]
    · simp only [hp]
      exact startsWith_slash _
  · intro dir parent hc
    simp only [homeHost, posixHost] at hc ⊢
    cases hpp : posixParent dir with
    | none => simp [hpp] at hc
    | some q =>
      simp only [hpp] at hc
      split_ifs at hc
      · have hq : q = parent := by simpa using hc
        subst hq
        unfold posixParent at hpp
        split at hpp
        · exact absurd hpp (by simp)
        · rw [← Option.some.inj hpp]
          exact startsWith_slash _

/-- C23 amended, on the POSIX host: after construction, after `cd ..`, after `cd /home` and
after `setCurrentDirectory` with `/home` the working directory starts with `/`. -/
theorem workingDirectory_absolute_witness :
    (newTerminal homeHost defaultSettings).1.m_currentDirectory = "/home/user" ∧
    homeHost.isAbsolutePath
      (changeDirectory homeHost (terminalWith "/home/user" "bash" "" idleProcess)
        "..").m_currentDirectory = true ∧
    homeHost.isAbsolutePath
      (setCurrentDirectory homeHost (terminalWith "/home/user" "bash" "" idleProcess)
        "/home").m_currentDirectory = true :=
  ⟨by decide,
   (workingDirectory_absolute homeHost defaultSettings
      (terminalWith "/home/user" "bash" "" idleProcess) (by decide) homeHost_contract.1
      homeHost_contract.2 (by decide)).2.1 "..",
   (workingDirectory_absolute homeHost defaultSettings
      (terminalWith "/home/user" "bash" "" idleProcess) (by decide) homeHost_contract.1
      homeHost_contract.2 (by decide)).2.2.1 "/home" (Or.inl (by decide))⟩

/-! ## C24: the echo of the prompt and the line -/

/-- C24 fails where the prompt holds a place marker: after `cd %1` into the directory
`/home/user/%1` the prompt is `user@qtcide:%1$ `, and for the next line `git status` the text
appended before the start of `git` is `user@qtcide:git status$  %2`, not the prompt followed by
the line: the second `arg` of the echo replaces the `%1` inside the prompt. -/
theorem echo_with_marker_in_prompt :
    (executeCommand posixOps
      (posixHost ["/", "/home", "/home/user", "/home/user/%1"] (fun _ => []) [] ["bash"])
      (terminalWith "/home/user" "bash" "cd %1" idleProcess)).2.m_promptLabel
      = "user@qtcide:%1$ " ∧
    (executeCommand posixOps
      (posixHost ["/", "/home", "/home/user", "/home/user/%1"] (fun _ => []) [] ["bash"])
      { (executeCommand posixOps
          (posixHost ["/", "/home", "/home/user", "/home/user/%1"] (fun _ => []) [] ["bash"])
          (terminalWith "/home/user" "bash" "cd %1" idleProcess)).2 with
        m_input := "git status" }).2.trace =
      [Effect.appendText "user@qtcide:user$  cd %1\n",
       Effect.appendText "Changed to: /home/user/%1\n",
       Effect.directoryChanged "/home/user/%1",
       Effect.appendText "user@qtcide:git status$  %2\n",
       Effect.appendText "Executing: git status\n",
       Effect.processStart "git" ["status"]] := by
  decide

/-! ## C28: the classification table -/

set_option maxHeartbeats 1000000 in
theorem executeCommand_eq_dispatch (ops : HostOps) (h : Host) (t : Terminal) :
    executeCommand ops h t =
      if trimmed t.m_input = "" then (h, t)
      else dispatch classificationTable ops h (echoed t) (trimmed t.m_input) := by
  unfold executeCommand echoed dispatch classificationTable
  generalize trimmed t.m_input = c
  by_cases h0 : c = ""
  · simp [h0]
  · by_cases h1 : c = "help"
    · subst h1
      simp [List.find?_cons, LineTest.holds, startsWith]
    · by_cases h2 : c = "clear"
      · subst h2
        simp [List.find?_cons, LineTest.holds, startsWith]
      · by_cases h3 : c = "pwd"
        · subst h3
          simp [List.find?_cons, LineTest.holds, startsWith]
        · by_cases h4 : c = "tree"
          · subst h4
            simp [List.find?_cons, LineTest.holds, startsWith]
          · by_cases h5 : startsWith c "find " = true
            · simp [h0, h1, h2, h3, h4, h5, List.find?_cons, LineTest.holds]
            · by_cases h6 : startsWith c "cd " = true
              · simp [h0, h1, h2, h3, h4, h5, h6, List.find?_cons, LineTest.holds]
              · by_cases h7 : startsWith c "mkdir " = true
                · simp [h0, h1, h2, h3, h4, h5, h6, h7, List.find?_cons, LineTest.holds]
                · by_cases h8 : startsWith c "touch " = true
                  · simp [h0, h1, h2, h3, h4, h5, h6, h7, h8, List.find?_cons, LineTest.holds]
                  · by_cases h9 : startsWith c "echo. > " = true
                    · simp [h0, h1, h2, h3, h4, h5, h6, h7, h8, h9, List.find?_cons, LineTest.holds]
                    · by_cases h10 : startsWith c "rm " = true
                      · simp [h0, h1, h2, h3, h4, h5, h6, h7, h8, h9, h10, List.find?_cons, LineTest.holds]
                      · by_cases h11 : startsWith c "del " = true
                        · simp [h0, h1, h2, h3, h4, h5, h6, h7, h8, h9, h10, h11, List.find?_cons, LineTest.holds]
                        · by_cases h12 : startsWith c "rmdir " = true
                          · simp [h0, h1, h2, h3, h4, h5, h6, h7, h8, h9, h10, h11, h12, List.find?_cons, LineTest.holds]
                          · by_cases h13 : c = "ls"
                            · subst h13
                              simp [List.find?_cons, LineTest.holds, startsWith]
                            · by_cases h14 : c = "dir"
                              · subst h14
                                simp [List.find?_cons, LineTest.holds, startsWith]
                              · by_cases h15 : startsWith c "cat " = true
                                · simp [h0, h1, h2, h3, h4, h5, h6, h7, h8, h9, h10, h11, h12, h13, h14, h15, List.find?_cons, LineTest.holds]
                                · by_cases h16 : startsWith c "type " = true
                                  · simp [h0, h1, h2, h3, h4, h5, h6, h7, h8, h9, h10, h11, h12, h13, h14, h15, h16, List.find?_cons, LineTest.holds]
                                  · by_cases h17 : startsWith c "git " = true
                                    · simp [h0, h1, h2, h3, h4, h5, h6, h7, h8, h9, h10, h11, h12, h13, h14, h15, h16, h17, List.find?_cons, LineTest.holds]
                                    · by_cases h18 : startsWith c "cmake " = true
                                      · simp [h0, h1, h2, h3, h4, h5, h6, h7, h8, h9, h10, h11, h12, h13, h14, h15, h16, h17, h18, List.find?_cons, LineTest.holds]
                                      · by_cases h19 : startsWith c "ninja " = true
                                        · simp [h0, h1, h2, h3, h4, h5, h6, h7, h8, h9, h10, h11, h12, h13, h14, h15, h16, h17, h18, h19, List.find?_cons, LineTest.holds]
                                        · by_cases h20 : startsWith c "make " = true
                                          · simp [h0, h1, h2, h3, h4, h5, h6, h7, h8, h9, h10, h11, h12, h13, h14, h15, h16, h17, h18, h19, h20, List.find?_cons, LineTest.holds]
                                          · simp [h0, h1, h2, h3, h4, h5, h6, h7, h8, h9, h10, h11, h12, h13, h14, h15, h16, h17, h18, h19, h20, List.find?_cons, LineTest.holds]

theorem table_tests :
    classificationTable.map Prod.fst =
      [LineTest.exact "help", LineTest.exact "clear", LineTest.exact "pwd",
       LineTest.exact "tree", LineTest.start "find ", LineTest.start "cd ",
       LineTest.start "mkdir ", LineTest.start "touch ", LineTest.start "echo. > ",
       LineTest.start "rm ", LineTest.start "del ", LineTest.start "rmdir ",
       LineTest.exact "ls", LineTest.exact "dir", LineTest.start "cat ",
       LineTest.start "type ", LineTest.start "git ", LineTest.start "cmake ",
       LineTest.start "ninja ", LineTest.start "make "] := rfl

theorem exact_incompatible (word : String)
    (hw : word ∈ ["help", "clear", "pwd", "tree", "ls", "dir"]) :
    ∀ e ∈ classificationTable.map Prod.fst, e.holds word = true → e = LineTest.exact word := by
  rw [table_tests]
  simp only [List.mem_cons, List.mem_singleton, List.not_mem_nil, or_false] at hw
  rcases hw with rfl | rfl | rfl | rfl | rfl | rfl <;> decide

set_option maxHeartbeats 2000000 in
theorem start_incompatible (text : String) (c : String)
    (ht : text ∈ ["find ", "cd ", "mkdir ", "touch ", "echo. > ", "rm ", "del ", "rmdir ",
      "cat ", "type ", "git ", "cmake ", "ninja ", "make "])
    (hc : startsWith c text = true) :
    ∀ e ∈ classificationTable.map Prod.fst, e.holds c = true → e = LineTest.start text := by
  rw [table_tests]
  obtain ⟨r, hr⟩ := (startsWith_iff _ _).1 hc
  obtain ⟨l⟩ := c
  simp only [List.mem_cons, List.mem_singleton, List.not_mem_nil, or_false] at ht
  intro e he hm
  simp only [List.mem_cons, List.mem_singleton, List.not_mem_nil, or_false] at he
  rcases ht with rfl | rfl | rfl | rfl | rfl | rfl | rfl | rfl | rfl | rfl | rfl | rfl | rfl | rfl <;>
    simp at hr <;> subst hr <;>
    rcases he with rfl | rfl | rfl | rfl | rfl | rfl | rfl | rfl | rfl | rfl | rfl | rfl | rfl |
      rfl | rfl | rfl | rfl | rfl | rfl | rfl <;>
    first
      | rfl
      | (exfalso; simp [LineTest.holds, startsWith, String.ext_iff] at hm)

theorem tests_incompatible (c : String) :
    ∀ e1 ∈ classificationTable.map Prod.fst, ∀ e2 ∈ classificationTable.map Prod.fst,
      e1.holds c = true → e2.holds c = true → e1 = e2 := by
  intro e1 he1 e2 he2 m1 m2
  have hcases : (∃ word, word ∈ ["help", "clear", "pwd", "tree", "ls", "dir"] ∧
        e1 = LineTest.exact word) ∨
      (∃ text, text ∈ ["find ", "cd ", "mkdir ", "touch ", "echo. > ", "rm ", "del ", "rmdir ",
        "cat ", "type ", "git ", "cmake ", "ninja ", "make "] ∧ e1 = LineTest.start text) := by
    rw [table_tests] at he1
    simp only [List.mem_cons, List.mem_singleton, List.not_mem_nil, or_false] at he1
    rcases he1 with rfl | rfl | rfl | rfl | rfl | rfl | rfl | rfl | rfl | rfl | rfl | rfl | rfl |
      rfl | rfl | rfl | rfl | rfl | rfl | rfl <;> simp
  rcases hcases with ⟨word, hw, rfl⟩ | ⟨text, ht, rfl⟩
  · have hc : c = word := by simpa [LineTest.holds] using m1
    subst hc
    exact (exact_incompatible c hw e2 he2 m2).symm
  · have hc : startsWith c text = true := by simpa [LineTest.holds] using m1
    exact (start_incompatible text c ht hc e2 he2 m2).symm

theorem table_tests_nodup : (classificationTable.map Prod.fst).Nodup := by
  rw [table_tests]
  decide

theorem entries_incompatible (c : String) :
    ∀ a ∈ classificationTable, ∀ b ∈ classificationTable,
      a.1.holds c = true → b.1.holds c = true → a = b := by
  intro a ha b hb ma mb
  have hab : a.1 = b.1 :=
    tests_incompatible c a.1 (List.mem_map_of_mem _ ha) b.1 (List.mem_map_of_mem _ hb) ma mb
  exact List.inj_on_of_nodup_map table_tests_nodup ha hb hab

theorem find?_eq_some_of_unique {α : Type} (p : α → Bool) (l : List α) (a : α)
    (ha : a ∈ l) (hp : p a = true)
    (huniq : ∀ x ∈ l, ∀ y ∈ l, p x = true → p y = true → x = y) :
    l.find? p = some a := by
  cases hf : l.find? p with
  | none =>
    rw [List.find?_eq_none] at hf
    exact absurd hp (hf a ha)
  | some b =>
    have hb : b ∈ l := List.mem_of_find?_eq_some hf
    have hpb : p b = true := List.find?_some hf
    rw [huniq b hb a ha hpb hp]

theorem dispatch_of_mem (order : List (LineTest × Handler)) (hperm : order.Perm classificationTable)
    (entry : LineTest × Handler) (he : entry ∈ classificationTable) (c : String)
    (hc : entry.1.holds c = true) (ops : HostOps) (h : Host) (t : Terminal) :
    dispatch order ops h t c = entry.2 ops h t c := by
  unfold dispatch
  have hf : order.find? (fun e => e.1.holds c) = some entry := by
    apply find?_eq_some_of_unique _ _ _ (hperm.mem_iff.2 he) hc
    intro x hx y hy px py
    exact entries_incompatible c x (hperm.mem_iff.1 hx) y (hperm.mem_iff.1 hy) px py
  rw [hf]

theorem dispatch_of_none (order : List (LineTest × Handler))
    (hperm : order.Perm classificationTable) (c : String)
    (hc : ∀ entry ∈ classificationTable, entry.1.holds c = false)
    (ops : HostOps) (h : Host) (t : Terminal) :
    dispatch order ops h t c = (h, executeSystemCommand h t c) := by
  unfold dispatch
  have hf : order.find? (fun e => e.1.holds c) = none := by
    rw [List.find?_eq_none]
    intro x hx
    simp [hc x (hperm.mem_iff.1 hx)]
  rw [hf]

/-- C28: no trimmed line passes the test of more than one entry of the classification table of
`executeCommand` (so `rmdir x` does not pass `rm ` and `make x` does not pass `mkdir `); hence
a dispatch that tests the entries in any other order runs the same handler, and
`executeCommand` is that dispatch after the echo. -/
theorem classification_order_independent (ops : HostOps) (h : Host) (t : Terminal) :
    (∀ c, ∀ e1 ∈ classificationTable.map Prod.fst, ∀ e2 ∈ classificationTable.map Prod.fst,
      e1.holds c = true → e2.holds c = true → e1 = e2) ∧
    (LineTest.start "rm ").holds "rmdir x" = false ∧
    (LineTest.start "mkdir ").holds "make x" = false ∧
    (∀ order : List (LineTest × Handler), order.Perm classificationTable →
      ∀ (u : Terminal) (c : String),
        dispatch order ops h u c = dispatch classificationTable ops h u c) ∧
    executeCommand ops h t =
      (if trimmed t.m_input = "" then (h, t)
       else dispatch classificationTable ops h (echoed t) (trimmed t.m_input)) := by
  refine ⟨tests_incompatible, by decide, by decide, ?_, executeCommand_eq_dispatch ops h t⟩
  intro order hperm u c
  by_cases hex : ∃ entry ∈ classificationTable, entry.1.holds c = true
  · obtain ⟨entry, he, hc⟩ := hex
    rw [dispatch_of_mem order hperm entry he c hc,
      dispatch_of_mem classificationTable (List.Perm.refl _) entry he c hc]
  · have hnone : ∀ entry ∈ classificationTable, entry.1.holds c = false := by
      intro entry he
      cases hh : entry.1.holds c
      · rfl
      · exact absurd ⟨entry, he, hh⟩ hex
    rw [dispatch_of_none order hperm c hnone,
      dispatch_of_none classificationTable (List.Perm.refl _) c hnone]

/-! ## C27: the argument handed to a built-in -/

theorem dropWhile_head (f : Char → Bool) (l : List Char) :
    ∀ a, (l.dropWhile f).head? = some a → f a = false := by
  induction l with
  | nil => intro a ha; simp at ha
  | cons b l ih =>
    intro a ha
    by_cases hb : f b = true
    · rw [List.dropWhile_cons_of_pos hb] at ha
      exact ih a ha
    · rw [List.dropWhile_cons_of_neg hb] at ha
      simp at ha
      rw [← ha]
      simpa using hb

theorem dropWhile_ne_nil (f : Char → Bool) (l : List Char) (a : Char) (ha : a ∈ l)
    (hf : f a = false) : l.dropWhile f ≠ [] := by
  induction l with
  | nil => simp at ha
  | cons b l ih =>
    by_cases hb : f b = true
    · rw [List.dropWhile_cons_of_pos hb]
      rcases List.mem_cons.1 ha with rfl | hl
      · rw [hf] at hb; exact absurd hb (by decide)
      · exact ih hl
    · rw [List.dropWhile_cons_of_neg hb]
      simp

theorem trimmedChars_last (l : List Char) :
    ∀ a, (trimmedChars l).getLast? = some a → isSpace a = false := by
  intro a ha
  unfold trimmedChars at ha
  rw [List.getLast?_reverse] at ha
  exact dropWhile_head _ _ a ha

theorem trimmedChars_prefix (l : List Char) :
    trimmedChars l <+: l.dropWhile isSpace := by
  unfold trimmedChars
  have hs := List.dropWhile_suffix isSpace (l := (l.dropWhile isSpace).reverse)
  have := List.reverse_prefix.2 hs
  simpa using this

theorem trimmedChars_head (l : List Char) :
    ∀ a, (trimmedChars l).head? = some a → isSpace a = false := by
  intro a ha
  obtain ⟨rest, hr⟩ := trimmedChars_prefix l
  apply dropWhile_head isSpace l a
  rw [← hr]
  cases ht : trimmedChars l with
  | nil => rw [ht] at ha; simp at ha
  | cons b m => rw [ht] at ha; simpa using ha

theorem trimmedChars_ne_nil (l : List Char) (a : Char) (ha : a ∈ l) (hf : isSpace a = false) :
    trimmedChars l ≠ [] := by
  unfold trimmedChars
  have h1 : l.dropWhile isSpace ≠ [] := dropWhile_ne_nil isSpace l a ha hf
  obtain ⟨b, hb⟩ : ∃ b, (l.dropWhile isSpace).head? = some b := by
    cases hd : l.dropWhile isSpace with
    | nil => exact absurd hd h1
    | cons b m => exact ⟨b, rfl⟩
  have hbs : isSpace b = false := dropWhile_head isSpace l b hb
  have hbm : b ∈ (l.dropWhile isSpace).reverse := by
    rw [List.mem_reverse]
    exact List.mem_of_mem_head? hb
  have h2 := dropWhile_ne_nil isSpace _ b hbm hbs
  simpa using h2

/-- The rest of a trimmed line after a start that ends in a space holds a character that is not
whitespace. -/
theorem rest_after_start (x : String) (start rest : List Char)
    (hx : (trimmed x).data = start ++ rest) (hs : start.getLast? = some ' ') :
    ∃ a ∈ rest, isSpace a = false := by
  have hlast := trimmedChars_last x.data
  have hd : (trimmed x).data = trimmedChars x.data := rfl
  rw [hd] at hx
  rw [hx] at hlast
  cases hr : rest.getLast? with
  | none =>
    have hnil : rest = [] := by simpa using hr
    subst hnil
    have := hlast ' ' (by simpa using hs)
    exact absurd this (by decide)
  | some a =>
    refine ⟨a, List.mem_of_getLast?_eq_some hr, hlast a ?_⟩
    rw [List.getLast?_append, hr]
    rfl

theorem argument_after_start (x : String) (start : String) (hs : start.data.getLast? = some ' ')
    (hl : startsWith (trimmed x) start = true) :
    trimmed (mid (trimmed x) start.length) ≠ "" ∧
    (∀ c, (trimmed (mid (trimmed x) start.length)).data.head? = some c → isSpace c = false) ∧
    (∀ c, (trimmed (mid (trimmed x) start.length)).data.getLast? = some c →
      isSpace c = false) := by
  obtain ⟨rest, hr⟩ := (startsWith_iff _ _).1 hl
  obtain ⟨a, ha, hsp⟩ := rest_after_start x start.data rest hr hs
  have hmid : (mid (trimmed x) start.length).data = rest := by
    show (trimmed x).data.drop start.length = rest
    rw [hr]
    obtain ⟨sd⟩ := start
    exact List.drop_left sd rest
  refine ⟨?_, ?_, ?_⟩
  · intro he
    have hd := congrArg String.data he
    rw [show (trimmed (mid (trimmed x) start.length)).data =
      trimmedChars (mid (trimmed x) start.length).data from rfl, hmid] at hd
    exact trimmedChars_ne_nil rest a ha hsp hd
  · exact trimmedChars_head _
  · exact trimmedChars_last _

theorem trimmed_ne_of_startsWith (c start : String) (hs : start ≠ "")
    (hl : startsWith c start = true) : c ≠ "" := by
  intro hc
  subst hc
  obtain ⟨rest, hr⟩ := (startsWith_iff _ _).1 hl
  apply hs
  have : start.data = [] := by
    have h2 : ([] : List Char) = start.data ++ rest := hr
    exact (List.append_eq_nil.1 h2.symm).1
  exact String.ext this

/-- C27: when the trimmed line starts with `find `, `cd `, `mkdir `, `touch `, `echo. > `, `rm `,
`del `, `rmdir `, `cat ` or `type `, `executeCommand` runs the built-in of that start with the
trimmed rest of the line, and that argument is non-empty and neither begins nor ends with
whitespace; so `findFiles` is never called with an empty pattern, and a bare `find` or `cd`
goes to `executeSystemCommand`. -/
theorem builtin_argument_trimmed (ops : HostOps) (h : Host) (t : Terminal) :
    (∀ start ∈ ["find ", "cd ", "mkdir ", "touch ", "echo. > ", "rm ", "del ", "rmdir ", "cat ",
        "type "], startsWith (trimmed t.m_input) start = true →
      trimmed (mid (trimmed t.m_input) start.length) ≠ "" ∧
      (∀ c, (trimmed (mid (trimmed t.m_input) start.length)).data.head? = some c →
        isSpace c = false) ∧
      (∀ c, (trimmed (mid (trimmed t.m_input) start.length)).data.getLast? = some c →
        isSpace c = false) ∧
      executeCommand ops h t =
        (if start = "find " then
          (h, findFiles h (echoed t) (trimmed (mid (trimmed t.m_input) start.length)))
        else if start = "cd " then
          (h, changeDirectory h (echoed t) (trimmed (mid (trimmed t.m_input) start.length)))
        else if start = "mkdir " then
          createDirectory ops h (echoed t) (trimmed (mid (trimmed t.m_input) start.length))
        else if start = "touch " ∨ start = "echo. > " then
          createFile ops h (echoed t) (trimmed (mid (trimmed t.m_input) start.length))
        else if start = "rm " ∨ start = "del " then
          deleteFile ops h (echoed t) (trimmed (mid (trimmed t.m_input) start.length))
        else if start = "rmdir " then
          deleteDirectory ops h (echoed t) (trimmed (mid (trimmed t.m_input) start.length))
        else
          (h, showFileContent h (echoed t)
            (trimmed (mid (trimmed t.m_input) start.length))))) ∧
    (trimmed t.m_input = "find" ∨ trimmed t.m_input = "cd" →
      executeCommand ops h t = (h, executeSystemCommand h (echoed t) (trimmed t.m_input))) := by
  constructor
  · intro start hs hl
    have hlast : start.data.getLast? = some ' ' := by
      simp only [List.mem_cons, List.mem_singleton, List.not_mem_nil, or_false] at hs
      rcases hs with rfl | rfl | rfl | rfl | rfl | rfl | rfl | rfl | rfl | rfl <;> rfl
    have hne : start ≠ "" := by
      intro he; rw [he] at hlast; simp at hlast
    obtain ⟨a1, a2, a3⟩ := argument_after_start t.m_input start hlast hl
    refine ⟨a1, a2, a3, ?_⟩
    rw [executeCommand_eq_dispatch,
      if_neg (trimmed_ne_of_startsWith _ _ hne hl)]
    simp only [List.mem_cons, List.mem_singleton, List.not_mem_nil, or_false] at hs
    rcases hs with rfl | rfl | rfl | rfl | rfl | rfl | rfl | rfl | rfl | rfl
    · exact dispatch_of_mem _ (List.Perm.refl _)
        (LineTest.start "find ", fun _ h t c => (h, findFiles h t (trimmed (mid c 5))))
        (by simp [classificationTable]) _ hl ops h _
    · exact dispatch_of_mem _ (List.Perm.refl _)
        (LineTest.start "cd ", fun _ h t c => (h, changeDirectory h t (trimmed (mid c 3))))
        (by simp [classificationTable]) _ hl ops h _
    · exact dispatch_of_mem _ (List.Perm.refl _)
        (LineTest.start "mkdir ", fun ops h t c => createDirectory ops h t (trimmed (mid c 6)))
        (by simp [classificationTable]) _ hl ops h _
    · exact dispatch_of_mem _ (List.Perm.refl _)
        (LineTest.start "touch ", fun ops h t c => createFile ops h t (trimmed (mid c 6)))
        (by simp [classificationTable]) _ hl ops h _
    · exact dispatch_of_mem _ (List.Perm.refl _)
        (LineTest.start "echo. > ", fun ops h t c => createFile ops h t (trimmed (mid c 8)))
        (by simp [classificationTable]) _ hl ops h _
    · exact dispatch_of_mem _ (List.Perm.refl _)
        (LineTest.start "rm ", fun ops h t c => deleteFile ops h t (trimmed (mid c 3)))
        (by simp [classificationTable]) _ hl ops h _
    · exact dispatch_of_mem _ (List.Perm.refl _)
        (LineTest.start "del ", fun ops h t c => deleteFile ops h t (trimmed (mid c 4)))
        (by simp [classificationTable]) _ hl ops h _
    · exact dispatch_of_mem _ (List.Perm.refl _)
        (LineTest.start "rmdir ", fun ops h t c => deleteDirectory ops h t (trimmed (mid c 6)))
        (by simp [classificationTable]) _ hl ops h _
    · exact dispatch_of_mem _ (List.Perm.refl _)
        (LineTest.start "cat ", fun _ h t c => (h, showFileContent h t (trimmed (mid c 4))))
        (by simp [classificationTable]) _ hl ops h _
    · exact dispatch_of_mem _ (List.Perm.refl _)
        (LineTest.start "type ", fun _ h t c => (h, showFileContent h t (trimmed (mid c 5))))
        (by simp [classificationTable]) _ hl ops h _
  · intro hb
    rw [executeCommand_eq_dispatch]
    rcases hb with hb | hb <;> rw [hb] <;>
    · rw [if_neg (by decide)]
      exact dispatch_of_none _ (List.Perm.refl _) _ (by decide) ops h _

/-- C27, at the lines `find   notes  ` and `find`: the pattern handed to `findFiles` is
`notes`, and the bare word goes to the shell passthrough. -/
theorem builtin_argument_trimmed_witness :
    trimmed (mid (trimmed "find   notes  ") 5) = "notes" ∧
    executeCommand posixOps homeHost
      (terminalWith "/home/user" "bash" "find   notes  " idleProcess) =
      (homeHost, findFiles homeHost
        (echoed (terminalWith "/home/user" "bash" "find   notes  " idleProcess)) "notes") ∧
    executeCommand posixOps homeHost (terminalWith "/home/user" "bash" " find " idleProcess) =
      (homeHost, executeSystemCommand homeHost
        (echoed (terminalWith "/home/user" "bash" " find " idleProcess)) "find") :=
  ⟨by decide,
   ((builtin_argument_trimmed posixOps homeHost
      (terminalWith "/home/user" "bash" "find   notes  " idleProcess)).1 "find "
      (by decide) (by decide)).2.2.2,
   (builtin_argument_trimmed posixOps homeHost
      (terminalWith "/home/user" "bash" " find " idleProcess)).2 (Or.inl (by decide))⟩

/-! ## C25: mkdir, cd, pwd -/

theorem executeCommand_mkdir (ops : HostOps) (h : Host) (t : Terminal) :
    executeCommand ops h { t with m_input := "mkdir foo/bar" } =
      createDirectory ops h (echoed { t with m_input := "mkdir foo/bar" }) "foo/bar" := by
  rw [executeCommand_eq_dispatch]
  have ht : trimmed ({ t with m_input := "mkdir foo/bar" } : Terminal).m_input = "mkdir foo/bar" := by
    show trimmed "mkdir foo/bar" = "mkdir foo/bar"
    decide
  rw [ht, if_neg (by decide)]
  exact dispatch_of_mem _ (List.Perm.refl _)
    (LineTest.start "mkdir ", fun ops h t c => createDirectory ops h t (trimmed (mid c 6)))
    (by simp [classificationTable]) _ (by decide) ops h _

theorem executeCommand_cd (ops : HostOps) (h : Host) (t : Terminal) :
    executeCommand ops h { t with m_input := "cd foo/bar" } =
      (h, changeDirectory h (echoed { t with m_input := "cd foo/bar" }) "foo/bar") := by
  rw [executeCommand_eq_dispatch]
  have ht : trimmed ({ t with m_input := "cd foo/bar" } : Terminal).m_input = "cd foo/bar" := by
    show trimmed "cd foo/bar" = "cd foo/bar"
    decide
  rw [ht, if_neg (by decide)]
  exact dispatch_of_mem _ (List.Perm.refl _)
    (LineTest.start "cd ", fun _ h t c => (h, changeDirectory h t (trimmed (mid c 3))))
    (by simp [classificationTable]) _ (by decide) ops h _

theorem executeCommand_pwd (ops : HostOps) (h : Host) (t : Terminal) :
    executeCommand ops h { t with m_input := "pwd" } =
      (h, appendText (echoed { t with m_input := "pwd" })
        (t.m_currentDirectory ++ "\n\n")) := by
  rw [executeCommand_eq_dispatch]
  have ht : trimmed ({ t with m_input := "pwd" } : Terminal).m_input = "pwd" := by
    show trimmed "pwd" = "pwd"
    decide
  rw [ht, if_neg (by decide)]
  exact dispatch_of_mem _ (List.Perm.refl _)
    (LineTest.exact "pwd", fun _ h t _ => (h, appendText t (t.m_currentDirectory ++ "\n\n")))
    (by simp [classificationTable]) _ (by decide) ops h _

theorem createDirectory_state (ops : HostOps) (h : Host) (t : Terminal) (name : String) :
    (createDirectory ops h t name).1 =
      (ops.mkpath h (h.absoluteFilePath t.m_currentDirectory name)).2 ∧
    (createDirectory ops h t name).2.m_currentDirectory = t.m_currentDirectory := by
  unfold createDirectory
  cases hr : (ops.mkpath h (h.absoluteFilePath t.m_currentDirectory name)).1 <;>
    simp [hr, appendText, emit]

theorem changeDirectory_found (h : Host) (t : Terminal) (path : String)
    (h1 : path ≠ "..") (h2 : path ≠ "~") (hrel : h.isAbsolutePath path = false)
    (hex : h.dirExists (h.absoluteFilePath t.m_currentDirectory path) = true) :
    changeDirectory h t path = changeDirectoryDone h
      { t with m_currentDirectory :=
          h.absolutePath (h.absoluteFilePath t.m_currentDirectory path) } := by
  unfold changeDirectory
  simp [h1, h2, hrel, hex]

theorem endsWith_iff (s p : String) : endsWith s p = true ↔ p.data <:+ s.data := by
  unfold endsWith
  rw [List.isPrefixOf_iff_prefix, List.reverse_prefix]

theorem endsWith_append_right (a b : String) : endsWith (a ++ b) b = true := by
  rw [endsWith_iff, String.data_append]
  exact List.suffix_append _ _

theorem endsWith_append_left (a s p : String) (hs : endsWith s p = true) :
    endsWith (a ++ s) p = true := by
  rw [endsWith_iff] at hs ⊢
  rw [String.data_append]
  exact hs.trans (List.suffix_append _ _)

theorem endsWith_trans (s p q : String) (h1 : endsWith s p = true) (h2 : endsWith p q = true) :
    endsWith s q = true := by
  rw [endsWith_iff] at h1 h2 ⊢
  exact h2.trans h1

theorem mkdir_cd_pwd_core (ops : HostOps) (h : Host) (t : Terminal)
    (hmk : (ops.mkpath h (h.absoluteFilePath t.m_currentDirectory "foo/bar")).1 = true)
    (hrel : (ops.mkpath h (h.absoluteFilePath t.m_currentDirectory "foo/bar")).2.isAbsolutePath
      "foo/bar" = false)
    (hex : (ops.mkpath h (h.absoluteFilePath t.m_currentDirectory "foo/bar")).2.dirExists
      ((ops.mkpath h (h.absoluteFilePath t.m_currentDirectory "foo/bar")).2.absoluteFilePath
        t.m_currentDirectory "foo/bar") = true) :
    Effect.fileSystemChanged ∈ (runLine ops (h, t) "mkdir foo/bar").2.trace ∧
    (runLine ops (runLine ops (h, t) "mkdir foo/bar") "cd foo/bar").2.m_currentDirectory =
      (ops.mkpath h (h.absoluteFilePath t.m_currentDirectory "foo/bar")).2.absolutePath
        ((ops.mkpath h (h.absoluteFilePath t.m_currentDirectory "foo/bar")).2.absoluteFilePath
          t.m_currentDirectory "foo/bar") ∧
    Effect.directoryChanged
      (runLine ops (runLine ops (h, t) "mkdir foo/bar") "cd foo/bar").2.m_currentDirectory ∈
      (runLine ops (runLine ops (h, t) "mkdir foo/bar") "cd foo/bar").2.trace ∧
    (∃ echo : String,
      (runLine ops (runLine ops (runLine ops (h, t) "mkdir foo/bar") "cd foo/bar") "pwd").2.trace =
        (runLine ops (runLine ops (h, t) "mkdir foo/bar") "cd foo/bar").2.trace ++
          [Effect.appendText echo,
           Effect.appendText
            ((runLine ops (runLine ops (h, t) "mkdir foo/bar")
              "cd foo/bar").2.m_currentDirectory ++ "\n\n")]) := by
  have hm1 : (runLine ops (h, t) "mkdir foo/bar").1 =
      (ops.mkpath h (h.absoluteFilePath t.m_currentDirectory "foo/bar")).2 := by
    unfold runLine
    rw [executeCommand_mkdir]
    exact (createDirectory_state ops h _ _).1
  have hm2 : (runLine ops (h, t) "mkdir foo/bar").2.m_currentDirectory = t.m_currentDirectory := by
    unfold runLine
    rw [executeCommand_mkdir]
    exact (createDirectory_state ops h _ _).2
  have hm3 : Effect.fileSystemChanged ∈ (runLine ops (h, t) "mkdir foo/bar").2.trace := by
    unfold runLine
    rw [executeCommand_mkdir]
    have hmk2 : (ops.mkpath h (h.absoluteFilePath
        (echoed { t with m_input := "mkdir foo/bar" }).m_currentDirectory "foo/bar")).1 = true :=
      hmk
    simp [createDirectory, hmk2, appendText, emit]
  generalize runLine ops (h, t) "mkdir foo/bar" = s1 at hm1 hm2 hm3 ⊢
  obtain ⟨h1, t1⟩ := s1
  simp only [] at hm1 hm2 hm3
  rw [← hm1] at hrel hex ⊢
  clear hm1 hmk
  have hecho : (echoed { t1 with m_input := "cd foo/bar" }).m_currentDirectory =
      t.m_currentDirectory := hm2
  have hcd : (runLine ops (h1, t1) "cd foo/bar") =
      (h1, changeDirectoryDone h1
        { echoed { t1 with m_input := "cd foo/bar" } with
          m_currentDirectory :=
            h1.absolutePath (h1.absoluteFilePath t.m_currentDirectory "foo/bar") }) := by
    unfold runLine
    rw [executeCommand_cd]
    rw [changeDirectory_found _ _ _ (by decide) (by decide) hrel (by rw [hecho]; exact hex)]
    rw [hecho]
  rw [hcd]
  refine ⟨hm3, changeDirectoryDone_currentDirectory _ _, ?_, ?_⟩
  · simp [changeDirectoryDone, emit, updatePrompt, appendText]
  · generalize changeDirectoryDone h1 _ = t2
    refine ⟨arg (arg "%1 %2\n" t2.m_promptLabel) (trimmed "pwd"), ?_⟩
    unfold runLine
    rw [executeCommand_pwd]
    simp [appendText, echoed, emit]

/-- C25 as stated fails: `/home/user` exists and is writable (a directory `other` can be created
in it), but `foo` is a plain file there, so `mkdir foo/bar` fails, `cd foo/bar` reports that the
directory is not found, and `pwd` prints `/home/user`. -/
theorem mkdir_blocked_counterexample :
    homeHost.dirExists "/home/user" = true ∧
    ((blockedOps "/home/user/foo").mkpath homeHost "/home/user/other").1 = true ∧
    (runLine (blockedOps "/home/user/foo")
      (runLine (blockedOps "/home/user/foo")
        (runLine (blockedOps "/home/user/foo")
          (homeHost, terminalWith "/home/user" "bash" "" idleProcess) "mkdir foo/bar")
        "cd foo/bar") "pwd").2.trace =
      [Effect.appendText "user@qtcide:user$  mkdir foo/bar\n",
       Effect.appendText "Failed to create directory: foo/bar\n",
       Effect.appendText "\n",
       Effect.appendText "user@qtcide:user$  cd foo/bar\n",
       Effect.appendText "Directory not found: /home/user/foo/bar\n",
       Effect.appendText "user@qtcide:user$  pwd\n",
       Effect.appendText "/home/user\n\n"] := by
  decide

/-- C25 amended: when `mkdir foo/bar` reports success in the working directory `d` (`mkpath`
returns true), then `cd foo/bar` succeeds and `pwd` prints the absolute path of `d/foo/bar`,
which ends in `/foo/bar`. This holds on a host with the contracts of Qt: a directory exists
after a successful `mkpath`, and `mkpath` does not change how paths are resolved; `foo/bar` is a
relative path; `absoluteFilePath` puts a relative name behind a separator; `absolutePath` keeps
the end `/foo/bar` of a path. -/
theorem mkdir_cd_pwd_roundtrip (ops : HostOps) (h : Host) (t : Terminal)
    (hmk : (ops.mkpath h (h.absoluteFilePath t.m_currentDirectory "foo/bar")).1 = true)
    (hmade : ∀ (g : Host) (p : String),
      (ops.mkpath g p).1 = true → (ops.mkpath g p).2.dirExists p = true)
    (hpaths : ∀ (g : Host) (p : String),
      (ops.mkpath g p).2.isAbsolutePath = g.isAbsolutePath ∧
      (ops.mkpath g p).2.absoluteFilePath = g.absoluteFilePath ∧
      (ops.mkpath g p).2.absolutePath = g.absolutePath)
    (hrel : h.isAbsolutePath "foo/bar" = false)
    (hjoin : ∀ dir : String, endsWith (h.absoluteFilePath dir "foo/bar") "/foo/bar" = true)
    (hclean : ∀ p : String, endsWith p "/foo/bar" = true →
      endsWith (h.absolutePath p) "/foo/bar" = true) :
    Effect.fileSystemChanged ∈ (runLine ops (h, t) "mkdir foo/bar").2.trace ∧
    (runLine ops (runLine ops (h, t) "mkdir foo/bar") "cd foo/bar").2.m_currentDirectory =
      h.absolutePath (h.absoluteFilePath t.m_currentDirectory "foo/bar") ∧
    Effect.directoryChanged
      (h.absolutePath (h.absoluteFilePath t.m_currentDirectory "foo/bar")) ∈
      (runLine ops (runLine ops (h, t) "mkdir foo/bar") "cd foo/bar").2.trace ∧
    (∃ echo : String,
      (runLine ops (runLine ops (runLine ops (h, t) "mkdir foo/bar") "cd foo/bar") "pwd").2.trace =
        (runLine ops (runLine ops (h, t) "mkdir foo/bar") "cd foo/bar").2.trace ++
          [Effect.appendText echo,
           Effect.appendText
            (h.absolutePath (h.absoluteFilePath t.m_currentDirectory "foo/bar") ++ "\n\n")]) ∧
    endsWith (h.absolutePath (h.absoluteFilePath t.m_currentDirectory "foo/bar"))
      "/foo/bar" = true ∧
    endsWith (h.absolutePath (h.absoluteFilePath t.m_currentDirectory "foo/bar"))
      "foo/bar" = true := by
  obtain ⟨hp1, hp2, hp3⟩ := hpaths h (h.absoluteFilePath t.m_currentDirectory "foo/bar")
  have hcore := mkdir_cd_pwd_core ops h t hmk (by rw [hp1]; exact hrel)
    (by rw [hp2]; exact hmade _ _ hmk)
  rw [hp2, hp3] at hcore
  obtain ⟨c1, c2, c3, c4⟩ := hcore
  have hend := hclean _ (hjoin t.m_currentDirectory)
  rw [c2] at c3 c4
  exact ⟨c1, c2, c3, c4, hend, endsWith_trans _ _ _ hend (by decide)⟩

/-- C25 amended, on the example host in `/home/user`: the three lines end in
`/home/user/foo/bar`. -/
theorem mkdir_cd_pwd_roundtrip_witness :
    (runLine posixOps
      (runLine posixOps (homeHost, terminalWith "/home/user" "bash" "" idleProcess)
        "mkdir foo/bar") "cd foo/bar").2.m_currentDirectory = "/home/user/foo/bar" ∧
    endsWith "/home/user/foo/bar" "foo/bar" = true :=
  ⟨(mkdir_cd_pwd_roundtrip posixOps homeHost (terminalWith "/home/user" "bash" "" idleProcess)
    (by decide)
    (by intro g p _; simp [posixOps])
    (by intro g p; exact ⟨rfl, rfl, rfl⟩)
    (by decide)
    (by
      intro dir
      show endsWith (if startsWith "foo/bar" "/" = true then "foo/bar"
        else if (dir == "/") = true then dir ++ "foo/bar" else dir ++ "/" ++ "foo/bar")
        "/foo/bar" = true
      rw [if_neg (by decide)]
      split
      · rename_i hd
        have hd2 : dir = "/" := by simpa using hd
        rw [hd2]
        decide
      · rw [String.append_assoc]
        exact endsWith_append_right dir ("/" ++ "foo/bar"))
    (by
      intro p hp
      show endsWith (if startsWith p "/" = true then p else "/home/user/" ++ p)
        "/foo/bar" = true
      split
      · exact hp
      · exact endsWith_append_left _ _ _ hp)).2.1.trans (by decide), by decide⟩

/-! ## C26: the current shell stays a valid choice -/

theorem foldl_keeps {α : Type} (P : Terminal → Prop) (f : Terminal → α → Terminal)
    (hf : ∀ t a, P t → P (f t a)) (l : List α) (t : Terminal) (ht : P t) :
    P (l.foldl f t) := by
  induction l generalizing t with
  | nil => exact ht
  | cons a l ih => exact ih (f t a) (hf t a ht)

theorem executeSystemCommand_shell (h : Host) (t : Terminal) (command : String) :
    (executeSystemCommand h t command).m_shellType = t.m_shellType ∧
    (executeSystemCommand h t command).m_availableTerminals = t.m_availableTerminals ∧
    (executeSystemCommand h t command).m_currentDirectory = t.m_currentDirectory := by
  unfold executeSystemCommand
  simp only []
  split
  · simp [appendText]
  · split
    · simp [appendText]
    · split <;> simp [appendText, emit]

theorem changeDirectory_shell (h : Host) (t : Terminal) (path : String) :
    (changeDirectory h t path).m_shellType = t.m_shellType ∧
    (changeDirectory h t path).m_availableTerminals = t.m_availableTerminals := by
  have hd : ∀ u : Terminal, (changeDirectoryDone h u).m_shellType = u.m_shellType ∧
      (changeDirectoryDone h u).m_availableTerminals = u.m_availableTerminals := by
    intro u
    simp [changeDirectoryDone, emit, updatePrompt, appendText]
  unfold changeDirectory
  simp only []
  by_cases h1 : (path == "..") = true
  · rw [if_pos h1]
    split
    · exact hd _
    · exact hd _
  · rw [if_neg h1]
    by_cases h2 : (path == "~") = true
    · rw [if_pos h2]
      exact hd _
    · rw [if_neg h2]
      generalize (if (!h.isAbsolutePath path) = true then
        h.absoluteFilePath t.m_currentDirectory path else path) = newPath
      by_cases he : h.dirExists newPath = true
      · rw [if_pos he]
        exact hd _
      · rw [if_neg he]
        simp [updatePrompt, appendText]

theorem showTree_shell (h : Host) (t : Terminal) (path : String) (depth : Nat) :
    (showTree h t path depth).m_shellType = t.m_shellType ∧
    (showTree h t path depth).m_availableTerminals = t.m_availableTerminals := by
  obtain ⟨lines, hl, _⟩ := showTree_lines h (3 - depth) depth rfl path t
  rw [hl]
  exact ⟨rfl, rfl⟩

theorem findFilesLoop_shell (h : Host) (entries : List QFileInfo) :
    ∀ (t : Terminal) (count : Nat),
      (findFilesLoop h t entries count).1.m_shellType = t.m_shellType ∧
      (findFilesLoop h t entries count).1.m_availableTerminals = t.m_availableTerminals := by
  induction entries with
  | nil => intro t count; simp [findFilesLoop]
  | cons info rest ih =>
    intro t count
    unfold findFilesLoop
    simp only []
    split
    · cases info.isDir <;> simp [appendText]
    · cases hdir : info.isDir
      · have := ih (appendText t (arg "📄 %1\n"
          (h.relativeFilePath t.m_currentDirectory info.absoluteFilePath))) (count + 1)
        simpa [appendText] using this
      · have := ih (appendText t (arg "📁 %1/\n"
          (h.relativeFilePath t.m_currentDirectory info.absoluteFilePath))) (count + 1)
        simpa [appendText] using this

theorem findFiles_shell (h : Host) (t : Terminal) (pattern : String) :
    (findFiles h t pattern).m_shellType = t.m_shellType ∧
    (findFiles h t pattern).m_availableTerminals = t.m_availableTerminals := by
  unfold findFiles
  simp only []
  split
  · simp [appendText]
  · have := findFilesLoop_shell h (findFilesEntries h (appendText t (arg "Searching for: %1\n"
      pattern)) pattern) (appendText t (arg "Searching for: %1\n" pattern)) 0
    split <;> simpa [appendText] using this

theorem listDirectory_shell (h : Host) (t : Terminal) :
    (listDirectory h t).m_shellType = t.m_shellType ∧
    (listDirectory h t).m_availableTerminals = t.m_availableTerminals := by
  unfold listDirectory
  simp only [appendText]
  refine foldl_keeps
    (fun u => u.m_shellType = t.m_shellType ∧ u.m_availableTerminals = t.m_availableTerminals)
    _ ?_ _ t ⟨rfl, rfl⟩
  intro u a hu
  exact hu

theorem fileOperations_shell (ops : HostOps) (h : Host) (t : Terminal) (name : String) :
    ((createDirectory ops h t name).2.m_shellType = t.m_shellType ∧
      (createDirectory ops h t name).2.m_availableTerminals = t.m_availableTerminals) ∧
    ((createFile ops h t name).2.m_shellType = t.m_shellType ∧
      (createFile ops h t name).2.m_availableTerminals = t.m_availableTerminals) ∧
    ((deleteFile ops h t name).2.m_shellType = t.m_shellType ∧
      (deleteFile ops h t name).2.m_availableTerminals = t.m_availableTerminals) ∧
    ((deleteDirectory ops h t name).2.m_shellType = t.m_shellType ∧
      (deleteDirectory ops h t name).2.m_availableTerminals = t.m_availableTerminals) := by
  refine ⟨?_, ?_, ?_, ?_⟩
  · unfold createDirectory
    simp only []
    split <;> simp [appendText, emit]
  · unfold createFile
    simp only []
    split <;> simp [appendText, emit]
  · unfold deleteFile
    simp only []
    split <;> simp [appendText, emit]
  · unfold deleteDirectory
    simp only []
    split <;> simp [appendText, emit]

theorem childCommands_shell (h : Host) (t : Terminal) (command : String) :
    ((executeGitCommand h t command).m_shellType = t.m_shellType ∧
      (executeGitCommand h t command).m_availableTerminals = t.m_availableTerminals) ∧
    ((executeBuildCommand h t command).m_shellType = t.m_shellType ∧
      (executeBuildCommand h t command).m_availableTerminals = t.m_availableTerminals) := by
  refine ⟨?_, ?_⟩
  · unfold executeGitCommand
    simp only []
    split <;> simp [appendText, emit]
  · unfold executeBuildCommand
    simp only []
    split <;> simp [appendText, emit]

theorem showFileContent_shell (h : Host) (t : Terminal) (fileName : String) :
    (showFileContent h t fileName).m_shellType = t.m_shellType ∧
    (showFileContent h t fileName).m_availableTerminals = t.m_availableTerminals := by
  unfold showFileContent
  simp only []
  split <;> simp [appendText]

theorem table_shell (entry : LineTest × Handler) (he : entry ∈ classificationTable)
    (ops : HostOps) (h : Host) (t : Terminal) (c : String) :
    (entry.2 ops h t c).2.m_shellType = t.m_shellType ∧
    (entry.2 ops h t c).2.m_availableTerminals = t.m_availableTerminals := by
  simp only [classificationTable, List.mem_cons, List.mem_singleton, List.not_mem_nil,
    or_false] at he
  rcases he with he | he | he | he | he | he | he | he | he | he | he | he | he | he | he | he |
    he | he | he | he <;> subst he <;> simp only []
  · simp [showHelp, appendText]
  · simp [clear, appendText]
  · simp [appendText]
  · have := showTree_shell h (appendText t "Directory tree:\n") t.m_currentDirectory 0
    simpa [showDirectoryTree, appendText] using this
  · exact findFiles_shell h t _
  · exact changeDirectory_shell h t _
  · exact (fileOperations_shell ops h t _).1
  · exact (fileOperations_shell ops h t _).2.1
  · exact (fileOperations_shell ops h t _).2.1
  · exact (fileOperations_shell ops h t _).2.2.1
  · exact (fileOperations_shell ops h t _).2.2.1
  · exact (fileOperations_shell ops h t _).2.2.2
  · exact listDirectory_shell h t
  · exact listDirectory_shell h t
  · exact showFileContent_shell h t _
  · exact showFileContent_shell h t _
  · exact (childCommands_shell h t c).1
  · exact (childCommands_shell h t c).2
  · exact (childCommands_shell h t c).2
  · exact (childCommands_shell h t c).2

theorem executeCommand_shell (ops : HostOps) (h : Host) (t : Terminal) :
    (executeCommand ops h t).2.m_shellType = t.m_shellType ∧
    (executeCommand ops h t).2.m_availableTerminals = t.m_availableTerminals := by
  rw [executeCommand_eq_dispatch]
  split
  · exact ⟨rfl, rfl⟩
  · unfold dispatch
    split
    · rename_i entry hfind
      exact table_shell entry (List.mem_of_find?_eq_some hfind) ops h _ _
    · have := executeSystemCommand_shell h (echoed t) (trimmed t.m_input)
      exact ⟨this.1, this.2.1⟩

theorem autoDetectTerminal_valid (h : Host) (t : Terminal) :
    ShellChoiceValid h.os (autoDetectTerminal h t) := by
  obtain ⟨_, ha, hs⟩ := autoDetectTerminal_fields h t
  unfold ShellChoiceValid
  rw [ha, hs]
  cases hd : detectAvailableTerminals h with
  | nil =>
    right; right
    refine ⟨rfl, ?_⟩
    cases h.os <;> rfl
  | cons a l =>
    right; left
    simp

theorem loadTerminalSettings_available (s : Settings) (t : Terminal) :
    (loadTerminalSettings s t).1.m_availableTerminals = t.m_availableTerminals := by
  have key : ∀ u : Terminal,
      (if !(s.startupCommands == "") then
          scheduleStartupCommands u (splitSkipEmpty ';' s.startupCommands)
        else (u, [])).1.m_availableTerminals = u.m_availableTerminals := by
    intro u
    by_cases hs : s.startupCommands = ""
    · simp [hs]
    · have hb : (!(s.startupCommands == "")) = true := by simpa using hs
      rw [if_pos hb]
      exact (scheduleStartupCommands_fields u _).2.2.1
  unfold loadTerminalSettings
  simp only [appendText]
  rw [key _]
  split_ifs <;> rfl

theorem loadTerminalSettings_valid (os : OsFamily) (s : Settings) (t : Terminal)
    (ht : ShellChoiceValid os t) : ShellChoiceValid os (loadTerminalSettings s t).1 := by
  unfold ShellChoiceValid at ht ⊢
  rw [loadTerminalSettings_available, (loadTerminalSettings_fields s t).2]
  split
  · rename_i hc
    rcases hc.2 with hm | hm
    · exact Or.inr (Or.inl hm)
    · exact Or.inl hm
  · exact ht

theorem switchToTerminal_fields (h : Host) (t : Terminal) (terminalType : String) :
    (switchToTerminal h t terminalType).m_availableTerminals = t.m_availableTerminals ∧
    (switchToTerminal h t terminalType).m_shellType =
      (if terminalType = "custom" ∨ terminalType ∈ t.m_availableTerminals then terminalType
      else t.m_shellType) := by
  unfold switchToTerminal
  by_cases hc : terminalType = "custom" ∨ terminalType ∈ t.m_availableTerminals
  · have hb : (terminalType == "custom" || t.m_availableTerminals.contains terminalType) = true := by
      simpa using hc
    rw [if_pos hb, if_pos hc]
    simp only []
    split <;>
      simp [updatePrompt, appendText, (killAndWaitForFinished_fields h _).1,
        (killAndWaitForFinished_fields h _).2.1]
  · have hb : ¬ (terminalType == "custom" || t.m_availableTerminals.contains terminalType) = true := by
      simpa using hc
    rw [if_neg hb, if_neg hc]
    exact ⟨rfl, rfl⟩

theorem switchToTerminal_valid (os : OsFamily) (h : Host) (t : Terminal) (terminalType : String)
    (ht : ShellChoiceValid os t) : ShellChoiceValid os (switchToTerminal h t terminalType) := by
  unfold ShellChoiceValid at ht ⊢
  rw [(switchToTerminal_fields h t terminalType).1, (switchToTerminal_fields h t terminalType).2]
  split
  · rename_i hc
    rcases hc with hm | hm
    · exact Or.inl hm
    · exact Or.inr (Or.inl hm)
  · exact ht

theorem switchToTerminal_unavailable (h : Host) (t : Terminal) (terminalType : String)
    (hc : terminalType ≠ "custom") (ha : terminalType ∉ t.m_availableTerminals) :
    switchToTerminal h t terminalType =
      appendText t (arg "Terminal type \x27%1\x27 is not available\n" terminalType) := by
  unfold switchToTerminal
  have hb : ¬ (terminalType == "custom" || t.m_availableTerminals.contains terminalType) = true := by
    simpa using ⟨hc, ha⟩
  rw [if_neg hb]

theorem applyTerminalSettings_valid (os : OsFamily) (h : Host) (s : Settings) (t : Terminal)
    (ht : ShellChoiceValid os t) : ShellChoiceValid os (applyTerminalSettings h s t) := by
  have keep : ∀ u : Terminal, ShellChoiceValid os u →
      ShellChoiceValid os (updatePrompt h (appendText { u with m_customShellPath := s.customShell }
        (arg "=== Terminal switched to: %1 ===\n"
          (getTerminalDisplayName { u with m_customShellPath := s.customShell })))) :=
    fun u hu => hu
  have keep2 : ∀ u : Terminal, ShellChoiceValid os u →
      ShellChoiceValid os { u with m_customShellPath := s.customShell } := fun u hu => hu
  unfold applyTerminalSettings
  simp only []
  split
  · split
    · exact keep _ (switchToTerminal_valid os h t _ ht)
    · exact keep2 _ ht
  · exact keep2 _ ht

theorem valid_of_same_shell (os : OsFamily) (t u : Terminal)
    (hs : u.m_shellType = t.m_shellType) (ha : u.m_availableTerminals = t.m_availableTerminals)
    (ht : ShellChoiceValid os t) : ShellChoiceValid os u := by
  unfold ShellChoiceValid at ht ⊢
  rw [hs, ha]
  exact ht

theorem newTerminal_valid (h : Host) (s : Settings) :
    ShellChoiceValid h.os (newTerminal h s).1 := by
  unfold newTerminal
  simp only []
  exact valid_of_same_shell _ _ _ (initializeTerminal_fields h s _).2.1
    (initializeTerminal_fields h s _).2.2
    (loadTerminalSettings_valid h.os s _ (autoDetectTerminal_valid h _))

theorem reachable_valid (os : OsFamily) (t : Terminal) (hr : Reachable os t) :
    ShellChoiceValid os t := by
  induction hr with
  | construct h s hos => rw [← hos]; exact newTerminal_valid h s
  | typed t text _ ih => exact ih
  | returnPressed ops h t _ ih =>
    exact valid_of_same_shell os t _ (executeCommand_shell ops h t).1
      (executeCommand_shell ops h t).2 ih
  | processChanged t p _ ih => exact ih
  | processFinished t exitCode exitStatus _ ih =>
    refine valid_of_same_shell os t _ ?_ ?_ ih <;>
      (unfold onProcessFinished; split <;> rfl)
  | cleared t _ ih => exact ih
  | textAppended t text _ ih => exact ih
  | directorySet h t path _ ih =>
    refine valid_of_same_shell os t _ ?_ ?_ ih <;>
      (unfold setCurrentDirectory; split <;> rfl)
  | timerFired h t p _ ih =>
    cases p with
    | startupCommand cmd =>
      exact valid_of_same_shell os t _ (executeSystemCommand_shell h t cmd).1
        (executeSystemCommand_shell h t cmd).2.1 ih
    | clearOnStartup => exact ih
  | settingsLoaded s t _ ih => exact loadTerminalSettings_valid os s t ih
  | settingsApplied h s t _ ih => exact applyTerminalSettings_valid os h s t ih
  | switched h t terminalType _ ih => exact switchToTerminal_valid os h t terminalType ih

/-- C26: the current shell is always `custom`, an available shell, or (with no shell
available) the platform fallback: `autoDetectTerminal` establishes this from any state;
`loadTerminalSettings`, `applyTerminalSettings` and `switchToTerminal` preserve it; with an
identifier that is neither `custom` nor available `switchToTerminal` only appends one line of
text, so the current shell and the process are unchanged and no kill happens; and the property
holds in every state reachable from the constructor. -/
theorem shell_choice_invariant (os : OsFamily) (h : Host) (s : Settings) (t : Terminal)
    (terminalType : String) :
    ShellChoiceValid h.os (autoDetectTerminal h t) ∧
    (ShellChoiceValid os t →
      ShellChoiceValid os (loadTerminalSettings s t).1 ∧
      ShellChoiceValid os (applyTerminalSettings h s t) ∧
      ShellChoiceValid os (switchToTerminal h t terminalType)) ∧
    (terminalType ≠ "custom" → terminalType ∉ t.m_availableTerminals →
      (switchToTerminal h t terminalType).m_shellType = t.m_shellType ∧
      (switchToTerminal h t terminalType).m_process = t.m_process ∧
      ∃ text : String,
        (switchToTerminal h t terminalType).trace = t.trace ++ [Effect.appendText text]) ∧
    (Reachable os t → ShellChoiceValid os t) := by
  refine ⟨autoDetectTerminal_valid h t, fun ht => ⟨loadTerminalSettings_valid os s t ht,
    applyTerminalSettings_valid os h s t ht, switchToTerminal_valid os h t terminalType ht⟩,
    fun hc ha => ?_, reachable_valid os t⟩
  rw [switchToTerminal_unavailable h t terminalType hc ha]
  exact ⟨rfl, rfl, _, rfl⟩

theorem shell_choice_invariant_witness :
    ShellChoiceValid OsFamily.linux
      (switchToTerminal homeHost (terminalWith "/home/user" "bash" "" busyProcess) "fish") ∧
    (switchToTerminal homeHost (terminalWith "/home/user" "bash" "" busyProcess)
      "fish").m_process = busyProcess ∧
    ShellChoiceValid OsFamily.linux (newTerminal homeHost defaultSettings).1 :=
  ⟨((shell_choice_invariant OsFamily.linux homeHost defaultSettings
      (terminalWith "/home/user" "bash" "" busyProcess) "fish").2.1
      (Or.inr (Or.inl (by decide)))).2.2,
   ((shell_choice_invariant OsFamily.linux homeHost defaultSettings
      (terminalWith "/home/user" "bash" "" busyProcess) "fish").2.2.1
      (by decide) (by decide)).2.1,
   (shell_choice_invariant OsFamily.linux homeHost defaultSettings
      (newTerminal homeHost defaultSettings).1 "fish").2.2.2
      (Reachable.construct homeHost defaultSettings rfl)⟩

/-! ## C29: startup commands -/

theorem scheduleStartupCommands_pending (pieces : List String) :
    ∀ t : Terminal, (scheduleStartupCommands t pieces).2 =
      ((pieces.map trimmed).filter fun c => !(c == "")).map Pending.startupCommand := by
  induction pieces with
  | nil => intro t; rfl
  | cons cmd rest ih =>
    intro t
    unfold scheduleStartupCommands
    by_cases hc : trimmed cmd = ""
    · simpa [hc] using ih t
    · simpa [hc] using ih (appendText t ("$ " ++ trimmed cmd ++ "\n"))

theorem loadTerminalSettings_pending (s : Settings) (t : Terminal) :
    (loadTerminalSettings s t).2 =
      (((splitSkipEmpty ';' s.startupCommands).map trimmed).filter
        fun c => !(c == "")).map Pending.startupCommand := by
  unfold loadTerminalSettings
  simp only []
  by_cases hs : s.startupCommands = ""
  · rw [hs]
    rfl
  · have hb : (!(s.startupCommands == "")) = true := by simpa using hs
    rw [if_pos hb]
    exact scheduleStartupCommands_pending _ _

theorem executeSystemCommand_effects (h : Host) (t : Terminal) (command : String) :
    ∃ effects : List Effect,
      (executeSystemCommand h t command).trace = t.trace ++ effects ∧
      ∀ e ∈ effects, (∃ text : String, e = Effect.appendText text) ∨
        ∃ (program : String) (args : List String),
          systemCommandLine h t command = some (program, args) ∧
          e = Effect.processStart program args := by
  have hl : ∀ r, systemCommandLine h
      { t with m_process := { t.m_process with workingDirectory := t.m_currentDirectory } }
      command = r → systemCommandLine h t command = r := fun r hr => hr
  unfold executeSystemCommand
  simp only []
  split
  · exact ⟨[Effect.appendText "Error: Empty command\n\n"], rfl, by simp⟩
  · rename_i program args hline
    split
    · exact ⟨[Effect.appendText ("Error: No executable found for command: " ++ command ++
        "\n\n")], rfl, by simp⟩
    · split
      · refine ⟨[Effect.processStart program args,
          Effect.appendText ("Failed to execute command: " ++ command ++ "\n"),
          Effect.appendText ("Program: " ++ program ++ "\n"),
          Effect.appendText ("Arguments: " ++ join " " args ++ "\n"),
          Effect.appendText ("Shell type: " ++ t.m_shellType ++ "\n"),
          Effect.appendText ("Shell executable: " ++
            getTerminalExecutablePath h t.m_shellType ++ "\n"),
          Effect.appendText "Make sure the command is installed and in PATH\n\n"], ?_, ?_⟩
        · simp [appendText, emit]
        · intro e he
          simp only [List.mem_cons, List.mem_singleton, List.not_mem_nil, or_false] at he
          rcases he with he | he | he | he | he | he | he
          · exact Or.inr ⟨program, args, hl _ hline, he⟩
          all_goals exact Or.inl ⟨_, he⟩
      · refine ⟨[Effect.processStart program args], ?_, ?_⟩
        · simp [emit]
        · intro e he
          simp only [List.mem_singleton] at he
          exact Or.inr ⟨program, args, hl _ hline, he⟩

/-- C29: the timers `loadTerminalSettings` starts are exactly one per piece of the stored
startup commands (split on `;`, trimmed, empty pieces dropped), in order, and the constructor
adds at most the clear-on-startup timer; when such a timer fires, whatever the text of the
command, it runs `executeSystemCommand`: the working directory is unchanged, and the only
effects are text and the start of the program `systemCommandLine` gives (the shell with the
command as argument, not `git` or a build tool, and no `directoryChanged` or
`fileSystemChanged`). -/
theorem startup_commands_passthrough (h : Host) (s : Settings) (t u : Terminal)
    (cmd : String) :
    (loadTerminalSettings s t).2 =
      (((splitSkipEmpty ';' s.startupCommands).map trimmed).filter
        fun c => !(c == "")).map Pending.startupCommand ∧
    (newTerminal h s).2 =
      ((((splitSkipEmpty ';' s.startupCommands).map trimmed).filter
        fun c => !(c == "")).map Pending.startupCommand) ++
        (if s.clearOnStartup then [Pending.clearOnStartup] else []) ∧
    runPending h u (Pending.startupCommand cmd) = executeSystemCommand h u cmd ∧
    (runPending h u (Pending.startupCommand cmd)).m_currentDirectory = u.m_currentDirectory ∧
    ∃ effects : List Effect,
      (runPending h u (Pending.startupCommand cmd)).trace = u.trace ++ effects ∧
      ∀ e ∈ effects, (∃ text : String, e = Effect.appendText text) ∨
        ∃ (program : String) (args : List String),
          systemCommandLine h u cmd = some (program, args) ∧
          e = Effect.processStart program args := by
  refine ⟨loadTerminalSettings_pending s t, ?_, rfl, (executeSystemCommand_shell h u cmd).2.2,
    executeSystemCommand_effects h u cmd⟩
  unfold newTerminal
  simp only []
  rw [loadTerminalSettings_pending]
  congr 1
  unfold initializeTerminal
  cases s.clearOnStartup <;> rfl
theorem startup_cd_example :
    (runPending homeHost (terminalWith "/home/user" "bash" "" idleProcess)
      (Pending.startupCommand "cd /home")).m_currentDirectory = "/home/user" ∧
    (runPending homeHost (terminalWith "/home/user" "bash" "" idleProcess)
      (Pending.startupCommand "cd /home")).trace =
        [Effect.processStart "/usr/bin/bash" ["-c", "cd /home"]] ∧
    (runLine posixOps (homeHost, terminalWith "/home/user" "bash" "" idleProcess)
      "cd /home").2.m_currentDirectory = "/home" := by
  decide

/-! ## C30: the recursion of `showTree` is bounded -/

theorem foldl_fst {α σ : Type} (f : Terminal × σ → α → Terminal × σ)
    (g : Terminal → α → Terminal) (hfg : ∀ s a, (f s a).1 = g s.1 a) :
    ∀ (l : List α) (s : Terminal × σ), (l.foldl f s).1 = l.foldl g s.1 := by
  intro l
  induction l with
  | nil => intro s; rfl
  | cons a l ih =>
    intro s
    rw [List.foldl_cons, List.foldl_cons, ih, hfg]

theorem showTreeLogged_fst (h : Host) :
    ∀ (k depth : Nat), 3 - depth = k → ∀ (path : String) (s : Terminal × List TreeEvent),
      (showTreeLogged h s path depth).1 = showTree h s.1 path depth := by
  intro k
  induction k with
  | zero =>
    intro depth hk path s
    have hd : ¬ depth < 3 := by omega
    rw [showTreeLogged, showTree]
    apply foldl_fst
    intro s info
    by_cases hdir : info.isDir = true <;> simp [hdir, hd]
  | succ k ih =>
    intro depth hk path s
    rw [showTreeLogged, showTree]
    apply foldl_fst
    intro s info
    by_cases hdir : info.isDir = true
    · by_cases hd : depth < 3
      · simp only [hdir, hd, if_true, dite_true]
        exact ih (depth + 1) (by omega) _ _
      · simp [hdir, hd]
    · simp [hdir]

/-- An event of an invocation at `depth` or below it: its depth lies between `depth` and 3 (or
is `depth` itself beyond 3), and a line is indented by twice the depth of its invocation. -/
theorem treeEvent_step (depth : Nat) (e : TreeEvent)
    (hd : depth < 3)
    (he : (depth + 1 ≤ e.depth ∧ e.depth ≤ max 3 (depth + 1)) ∧
      ∀ text, e.text = some text → leadingSpaces text = 2 * e.depth) :
    (depth ≤ e.depth ∧ e.depth ≤ max 3 depth) ∧
      ∀ text, e.text = some text → leadingSpaces text = 2 * e.depth := by
  refine ⟨⟨by omega, ?_⟩, he.2⟩
  have h1 : max 3 (depth + 1) = 3 := by omega
  have h2 : max 3 depth = 3 := by omega
  omega

theorem foldl_events (P : TreeEvent → Prop)
    (f : Terminal × List TreeEvent → QFileInfo → Terminal × List TreeEvent)
    (hf : ∀ s info, ∃ events : List TreeEvent,
      f s info = ({ s.1 with trace := s.1.trace ++
        (events.filterMap TreeEvent.text).map Effect.appendText }, s.2 ++ events) ∧
      ∀ e ∈ events, P e) :
    ∀ (entries : List QFileInfo) (s : Terminal × List TreeEvent), ∃ events : List TreeEvent,
      entries.foldl f s = ({ s.1 with trace := s.1.trace ++
        (events.filterMap TreeEvent.text).map Effect.appendText }, s.2 ++ events) ∧
      ∀ e ∈ events, P e := by
  intro entries
  induction entries with
  | nil => intro s; exact ⟨[], by simp, by simp⟩
  | cons info rest ih =>
    intro s
    obtain ⟨l1, h1, p1⟩ := hf s info
    obtain ⟨l2, h2, p2⟩ := ih (f s info)
    refine ⟨l1 ++ l2, ?_, ?_⟩
    · rw [List.foldl_cons, h2, h1]
      simp [List.filterMap_append]
    · intro e he
      rcases List.mem_append.1 he with he | he
      · exact p1 e he
      · exact p2 e he

theorem foldl_events_from (P : TreeEvent → Prop)
    (f : Terminal × List TreeEvent → QFileInfo → Terminal × List TreeEvent)
    (hf : ∀ s info, ∃ events : List TreeEvent,
      f s info = ({ s.1 with trace := s.1.trace ++
        (events.filterMap TreeEvent.text).map Effect.appendText }, s.2 ++ events) ∧
      ∀ e ∈ events, P e)
    (first : TreeEvent) (hfirst : P first) (htext : first.text = none)
    (entries : List QFileInfo) (s : Terminal × List TreeEvent) :
    ∃ events : List TreeEvent,
      entries.foldl f (s.1, s.2 ++ [first]) =
        ({ s.1 with trace := s.1.trace ++
            (events.filterMap TreeEvent.text).map Effect.appendText }, s.2 ++ events) ∧
      events.head? = some first ∧
      ∀ e ∈ events, P e := by
  obtain ⟨events, h1, h2⟩ := foldl_events P f hf entries (s.1, s.2 ++ [first])
  refine ⟨first :: events, ?_, rfl, ?_⟩
  · rw [h1]
    simp [htext]
  · intro e he
    rcases List.mem_cons.1 he with rfl | he
    · exact hfirst
    · exact h2 e he

theorem showTreeLogged_step (h : Host) (depth : Nat)
    (ih : depth < 3 → ∀ (path : String) (s : Terminal × List TreeEvent),
      ∃ events : List TreeEvent,
        showTreeLogged h s path (depth + 1) =
          ({ s.1 with trace := s.1.trace ++
              (events.filterMap TreeEvent.text).map Effect.appendText }, s.2 ++ events) ∧
        events.head? = some (TreeEvent.invoked path (depth + 1)) ∧
        ∀ e ∈ events, (depth + 1 ≤ e.depth ∧ e.depth ≤ max 3 (depth + 1)) ∧
          ∀ text, e.text = some text → leadingSpaces text = 2 * e.depth)
    (path : String) (s : Terminal × List TreeEvent) :
    ∃ events : List TreeEvent,
      showTreeLogged h s path depth =
        ({ s.1 with trace := s.1.trace ++
            (events.filterMap TreeEvent.text).map Effect.appendText }, s.2 ++ events) ∧
      events.head? = some (TreeEvent.invoked path depth) ∧
      ∀ e ∈ events, (depth ≤ e.depth ∧ e.depth ≤ max 3 depth) ∧
        ∀ text, e.text = some text → leadingSpaces text = 2 * e.depth := by
  have hinv : (depth ≤ (TreeEvent.invoked path depth).depth ∧
      (TreeEvent.invoked path depth).depth ≤ max 3 depth) ∧
      ∀ text, (TreeEvent.invoked path depth).text = some text →
        leadingSpaces text = 2 * (TreeEvent.invoked path depth).depth :=
    ⟨⟨le_refl _, le_max_right _ _⟩, fun text ht => by cases ht⟩
  have hdirLine : ∀ name : String,
      (depth ≤ (TreeEvent.line depth (repeated "  " depth ++ ("📁 " ++ name ++ "/\n"))).depth ∧
        (TreeEvent.line depth (repeated "  " depth ++ ("📁 " ++ name ++ "/\n"))).depth ≤
          max 3 depth) ∧
      ∀ text, (TreeEvent.line depth (repeated "  " depth ++ ("📁 " ++ name ++ "/\n"))).text =
        some text → leadingSpaces text =
          2 * (TreeEvent.line depth (repeated "  " depth ++ ("📁 " ++ name ++ "/\n"))).depth := by
    intro name
    refine ⟨⟨le_refl _, le_max_right _ _⟩, fun text ht => ?_⟩
    rw [← Option.some.inj ht]
    exact leadingSpaces_indent depth '📁' _ (by decide)
  have hfileLine : ∀ name : String,
      (depth ≤ (TreeEvent.line depth (repeated "  " depth ++ ("📄 " ++ name ++ "\n"))).depth ∧
        (TreeEvent.line depth (repeated "  " depth ++ ("📄 " ++ name ++ "\n"))).depth ≤
          max 3 depth) ∧
      ∀ text, (TreeEvent.line depth (repeated "  " depth ++ ("📄 " ++ name ++ "\n"))).text =
        some text → leadingSpaces text =
          2 * (TreeEvent.line depth (repeated "  " depth ++ ("📄 " ++ name ++ "\n"))).depth := by
    intro name
    refine ⟨⟨le_refl _, le_max_right _ _⟩, fun text ht => ?_⟩
    rw [← Option.some.inj ht]
    exact leadingSpaces_indent depth '📄' _ (by decide)
  rw [showTreeLogged]
  simp only []
  apply foldl_events_from
    (fun e => (depth ≤ e.depth ∧ e.depth ≤ max 3 depth) ∧
      ∀ text, e.text = some text → leadingSpaces text = 2 * e.depth)
  rotate_left
  · exact hinv
  · rfl
  · intro s info
    by_cases hdir : info.isDir = true
    · by_cases hd : depth < 3
      · obtain ⟨events, h1, _, h2⟩ := ih hd info.absoluteFilePath
          (appendText s.1 (repeated "  " depth ++ ("📁 " ++ info.fileName ++ "/\n")),
            s.2 ++ [TreeEvent.line depth
              (repeated "  " depth ++ ("📁 " ++ info.fileName ++ "/\n"))])
        refine ⟨TreeEvent.line depth (repeated "  " depth ++ ("📁 " ++ info.fileName ++ "/\n"))
          :: events, ?_, ?_⟩
        · simp only [hdir, hd, if_true, dite_true, h1]
          simp [appendText, TreeEvent.text]
        · intro e he
          rcases List.mem_cons.1 he with rfl | he
          · exact hdirLine _
          · exact treeEvent_step depth e hd (h2 e he)
      · refine ⟨[TreeEvent.line depth
          (repeated "  " depth ++ ("📁 " ++ info.fileName ++ "/\n"))], ?_, ?_⟩
        · simp [hdir, hd, appendText, TreeEvent.text]
        · intro e he
          rw [List.mem_singleton.1 he]
          exact hdirLine _
    · refine ⟨[TreeEvent.line depth
        (repeated "  " depth ++ ("📄 " ++ info.fileName ++ "\n"))], ?_, ?_⟩
      · simp [hdir, appendText, TreeEvent.text]
      · intro e he
        rw [List.mem_singleton.1 he]
        exact hfileLine _

theorem showTreeLogged_events (h : Host) :
    ∀ (k depth : Nat), 3 - depth = k → ∀ (path : String) (s : Terminal × List TreeEvent),
      ∃ events : List TreeEvent,
        showTreeLogged h s path depth =
          ({ s.1 with trace := s.1.trace ++
              (events.filterMap TreeEvent.text).map Effect.appendText }, s.2 ++ events) ∧
        events.head? = some (TreeEvent.invoked path depth) ∧
        ∀ e ∈ events, (depth ≤ e.depth ∧ e.depth ≤ max 3 depth) ∧
          ∀ text, e.text = some text → leadingSpaces text = 2 * e.depth := by
  intro k
  induction k with
  | zero =>
    intro depth hk path s
    exact showTreeLogged_step h depth (fun hd => by omega) path s
  | succ k ih =>
    intro depth hk path s
    exact showTreeLogged_step h depth (fun _ => ih (depth + 1) (by omega)) path s

/-- C30: `showTree` is a total function of the host, whatever `entryInfoList` answers (also
when directories contain themselves): started at depth 0 it returns, having appended the lines
of a finite list of events; every invocation and every line in that list has a depth of at
most 3, and every line is indented by exactly twice the depth of the invocation that appended
it. -/
theorem showTree_bounded (h : Host) (t : Terminal) (path : String) :
    ∃ events : List TreeEvent,
      showTreeLogged h (t, []) path 0 = (showTree h t path 0, events) ∧
      showTree h t path 0 = { t with trace := t.trace ++
        (events.filterMap TreeEvent.text).map Effect.appendText } ∧
      events.head? = some (TreeEvent.invoked path 0) ∧
      ∀ e ∈ events, e.depth ≤ 3 ∧
        ∀ text, e.text = some text → leadingSpaces text = 2 * e.depth := by
  obtain ⟨events, h1, hhead, h2⟩ := showTreeLogged_events h 3 0 rfl path (t, [])
  have h3 := showTreeLogged_fst h 3 0 rfl path (t, [])
  rw [h1] at h3
  simp only [] at h3
  refine ⟨events, ?_, h3.symm, hhead, ?_⟩
  · rw [h1, ← h3]
    simp
  · intro e he
    have := h2 e he
    exact ⟨by simpa using this.1.2, this.2⟩

/-- On a host whose directories contain themselves `showTree` still returns: four invocations,
at depths 0 to 3, and one line for each. -/
theorem showTree_cycle_example :
    (showTreeLogged cyclicHost (terminalWith "/loop" "bash" "" idleProcess, []) "/loop" 0).2 =
      [TreeEvent.invoked "/loop" 0, TreeEvent.line 0 "📁 loop/\n",
       TreeEvent.invoked "/loop" 1, TreeEvent.line 1 "  📁 loop/\n",
       TreeEvent.invoked "/loop" 2, TreeEvent.line 2 "    📁 loop/\n",
       TreeEvent.invoked "/loop" 3, TreeEvent.line 3 "      📁 loop/\n"] ∧
    (showTree cyclicHost (terminalWith "/loop" "bash" "" idleProcess) "/loop" 0).trace =
      [Effect.appendText "📁 loop/\n", Effect.appendText "  📁 loop/\n",
       Effect.appendText "    📁 loop/\n", Effect.appendText "      📁 loop/\n"] := by
  constructor
  · simp [showTreeLogged, cyclicHost, posixHost, terminalWith, appendText, repeated]
  · simp [showTree, cyclicHost, posixHost, terminalWith, appendText, repeated]

end QTCIDE
